import Mathlib

/-!
# diffevo-cl: host-side engine of `diffevo_solve` (src/diffevo/diffevo.c)

The host code is a straight line of OpenCL calls, each followed by an error
check that either returns or jumps to the shared clean-up block.  It is
embedded as explicit state passing: a `Step` maps the state of one
`diffevo_solve` call to an `Outcome` (`ok` = fall through to the next
statement, `err` = leave through `return -1` / `goto __CleanUp`).  Everything
the environment decides (the status code of every API call, `malloc`, the
contents delivered by the blocking reads) is taken from a `World`.
-/

namespace Diffevo

/-! ## Values -/

/-- C `double` as far as the host code inspects it.  The host only copies
doubles and compares them with `<`; `val z` is a number (the integer `z`
gives its place in the order of the non-NaN doubles, with `-0.0` and `+0.0`
in the same place), `nan` is a NaN. -/
inductive Dbl where
  | nan
  | val (z : Int)
deriving DecidableEq, Repr

/-- C `a < b` on doubles: false as soon as one side is a NaN. -/
def Dbl.lt : Dbl → Dbl → Bool
  | .val a, .val b => decide (a < b)
  | _, _ => false

/-- C `a <= b` on doubles: false as soon as one side is a NaN. -/
def Dbl.le : Dbl → Dbl → Bool
  | .val a, .val b => decide (a ≤ b)
  | _, _ => false

/-- Test for NaN. -/
def Dbl.isNaN : Dbl → Bool
  | .nan => true
  | .val _ => false

/-- Range of `unsigned` / `cl_uint` (32 bit). -/
def UINT_RANGE : Nat := 2 ^ 32

/-- Range of `size_t` (64 bit). -/
def SIZE_RANGE : Nat := 2 ^ 64

/-- The anonymous struct `eval_params` of diffevo.h:33-56. -/
structure EvalParams where
  /-- Address of the constant data, `none` for NULL. -/
  const_data_ptr : Option Nat
  const_data_size : Nat
  local_work_size : Nat
  local_data_size : Nat
deriving DecidableEq, Repr

/-- The struct `diffevo_params_t` of diffevo.h:3-57; the `unsigned` fields are
naturals below `UINT_RANGE`. -/
structure diffevo_params_t where
  num_iter : Nat
  num_pop : Nat
  num_attr : Nat
  mu : Dbl
  sigma : Dbl
  shrink : Dbl
  crossover : Dbl
  eval_params : EvalParams
deriving DecidableEq, Repr

/-! ## OpenCL objects, calls and the trace -/

/-- An OpenCL handle (`cl_mem`, `cl_kernel`, ...): `none` is NULL, `some id` an
object of the runtime. -/
abbrev Handle := Option Nat

/-- The kinds of object the host code releases, one per `clRelease*` function. -/
inductive Kind where
  | mem | kernel | program | queue | device | context
deriving DecidableEq, Repr

/-- The four kernels of the struct `kernels` (diffevo.c:41-43). -/
inductive Kernel where
  | init | eval | mutate | select
deriving DecidableEq, Repr

/-- Number of arguments the host binds to each kernel. -/
def Kernel.arity : Kernel → Nat
  | .init => 7
  | .eval => 6
  | .mutate => 7
  | .select => 8

/-- The members of the struct `buffers` (diffevo.c:36-39). -/
inductive BufRef where
  | rng
  | seeds
  | pop (i : Nat)
  | costs (i : Nat)
  | eval_data
deriving DecidableEq, Repr

/-- A value bound with `clSetKernelArg`: a buffer (which member of `buffers`
was passed and the handle it held), a `cl_uint`, a `cl_double`, or local
memory of a given size (argument value NULL). -/
inductive Arg where
  | buf (r : BufRef) (h : Handle)
  | uint (v : Nat)
  | dbl (v : Dbl)
  | loc (size : Nat)
deriving DecidableEq, Repr

/-- The kernel launches of `diffevo_solve`, by enqueue site and generation:
line 361 (INIT), line 401 (EVAL0), line 433 (MUTATE i), line 455
(EVAL_TRIAL i), line 484 (SELECT i).  A `cl_event` is identified with the
launch whose completion it signals. -/
inductive Launch where
  | INIT
  | EVAL0
  | MUTATE (i : Nat)
  | EVAL_TRIAL (i : Nat)
  | SELECT (i : Nat)
deriving DecidableEq, Repr

/-- The kernel a launch runs. -/
def Launch.kernel : Launch → Kernel
  | .INIT => .init
  | .EVAL0 => .eval
  | .MUTATE _ => .mutate
  | .EVAL_TRIAL _ => .eval
  | .SELECT _ => .select

/-- A `cl_event` variable: `none` is NULL or not yet assigned. -/
abbrev Event := Option Launch

/-- Every call whose result the environment decides, with the arguments that
matter. -/
inductive Call where
  /-- Call `clGetPlatformIDs(num_entries, ..)`, lines 54 and 62. -/
  | clGetPlatformIDs (num_entries : Nat)
  | clGetDeviceIDs
  | clCreateContext
  | clCreateCommandQueueWithProperties
  | read_file
  | clCreateProgramWithSource
  | clBuildProgram
  /-- Call `clGetProgramBuildInfo(.., size, ..)`, lines 226 and 234. -/
  | clGetProgramBuildInfo (size : Nat)
  | malloc (bytes : Nat)
  | clCreateBuffer (r : BufRef) (bytes : Nat)
  | clCreateKernel (k : Kernel)
  | clSetKernelArg (k : Kernel) (idx : Nat) (a : Arg)
  /-- Call `clEnqueueNDRangeKernel`: the launch, the arguments bound to its
  kernel at that moment, global and local work size, and the event wait list. -/
  | clEnqueueNDRangeKernel (l : Launch) (args : List (Option Arg)) (gws : Nat)
      (lws : Option Nat) (waits : List Event)
  | clFlush
  | clFinish
  /-- Blocking `clEnqueueReadBuffer(queue, buffers.r, CL_TRUE, offset, bytes, ..)`. -/
  | clEnqueueReadBuffer (r : BufRef) (h : Handle) (offset : Nat) (bytes : Nat)
  /-- One of `clReleaseMemObject`, `clReleaseKernel`, `clReleaseProgram`,
  `clReleaseCommandQueue`, `clReleaseDevice`, `clReleaseContext`. -/
  | release (k : Kind) (id : Nat)
deriving DecidableEq, Repr

/-- One entry of the trace: the call and the status it returned
(`0` = `CL_SUCCESS`, resp. a non-NULL pointer for `malloc`). -/
structure Ev where
  call : Call
  code : Int
deriving DecidableEq, Repr

/-- One line on stderr: the message and, for `report_error_code`, the code. -/
structure Diag where
  msg : String
  code : Option Int
deriving DecidableEq, Repr

/-- The error code `CL_BUILD_PROGRAM_FAILURE`. -/
def CL_BUILD_PROGRAM_FAILURE : Int := -11

/-- What the environment decides during one `diffevo_solve` call. -/
structure World where
  /-- Status of the `k`-th call of this `diffevo_solve` (counted from 0). -/
  err : Nat → Call → Int
  /-- Number of platforms reported by line 54. -/
  num_plat : Nat
  /-- Number of devices reported by line 66. -/
  num_dev : Nat
  /-- The device written to `device` by line 66. -/
  device_id : Nat
  /-- Length of the build log reported by line 226. -/
  log_len : Nat
  /-- Element `j` of cost slot `k` once the queue has drained. -/
  costsData : Nat → Nat → Dbl
  /-- Element `j` of population slot `k` once the queue has drained. -/
  popData : Nat → Nat → Dbl

/-! ## Program state -/

/-- The file-scope variables of diffevo.c: `last_error` (line 14), `device`,
`context`, `queue`, `program` (lines 31-34), `buffers` (lines 36-39) and
`kernels` (lines 41-43). -/
structure Globals where
  last_error : Int
  device : Handle
  context : Handle
  queue : Handle
  program : Handle
  rng : Handle
  seeds : Handle
  pop0 : Handle
  pop1 : Handle
  pop2 : Handle
  costs0 : Handle
  costs1 : Handle
  costs2 : Handle
  eval_data : Handle
  k_init : Handle
  k_eval : Handle
  k_mutate : Handle
  k_select : Handle
deriving DecidableEq, Repr

/-- Static initialisation: everything zero / NULL. -/
def Globals.zero : Globals :=
  ⟨0, none, none, none, none, none, none, none, none, none, none, none, none, none,
    none, none, none, none⟩

/-- Reads `buffers.r`. -/
def Globals.buf (g : Globals) : BufRef → Handle
  | .rng => g.rng
  | .seeds => g.seeds
  | .pop 0 => g.pop0
  | .pop 1 => g.pop1
  | .pop 2 => g.pop2
  | .pop _ => none
  | .costs 0 => g.costs0
  | .costs 1 => g.costs1
  | .costs 2 => g.costs2
  | .costs _ => none
  | .eval_data => g.eval_data

/-- Assigns `buffers.r = h`. -/
def Globals.setBuf (g : Globals) (r : BufRef) (h : Handle) : Globals :=
  match r with
  | .rng => { g with rng := h }
  | .seeds => { g with seeds := h }
  | .pop 0 => { g with pop0 := h }
  | .pop 1 => { g with pop1 := h }
  | .pop 2 => { g with pop2 := h }
  | .pop _ => g
  | .costs 0 => { g with costs0 := h }
  | .costs 1 => { g with costs1 := h }
  | .costs 2 => { g with costs2 := h }
  | .costs _ => g
  | .eval_data => { g with eval_data := h }

/-- Reads `kernels.k`. -/
def Globals.kern (g : Globals) : Kernel → Handle
  | .init => g.k_init
  | .eval => g.k_eval
  | .mutate => g.k_mutate
  | .select => g.k_select

/-- Assigns `kernels.k = h`. -/
def Globals.setKern (g : Globals) (k : Kernel) (h : Handle) : Globals :=
  match k with
  | .init => { g with k_init := h }
  | .eval => { g with k_eval := h }
  | .mutate => { g with k_mutate := h }
  | .select => { g with k_select := h }

/-- What survives from one `diffevo_solve` call to the next: the file-scope
variables and the runtime's supply of object ids (`next` is the id the next
created object gets, so objects created later never share an id with
earlier ones). -/
structure Proc where
  g : Globals
  next : Nat
deriving DecidableEq, Repr

/-- A process in which `diffevo_solve` has not been called yet. -/
def Proc.fresh : Proc := ⟨Globals.zero, 0⟩

/-- State of one `diffevo_solve` call. -/
structure St where
  g : Globals
  next : Nat
  /-- Number of environment calls made so far in this `diffevo_solve`. -/
  tick : Nat
  trace : List Ev
  stderr : List Diag
  /-- Arguments currently bound to each kernel object. -/
  bound : Kernel → Nat → Option Arg
  -- locals of diffevo_solve
  init_evt : Event
  eval_evt : Event
  select_evt : Event
  mutate_evt : Event
  eval_mut_evt : Event
  eval_glb_work : Nat
  eval_loc_work_ptr : Option Nat
  best_c : Option Dbl
  best_i : Option Nat
  /-- What this call has stored through `best`, `none` while untouched. -/
  best_out : Option (List Dbl)
  /-- What this call has stored through `cost`, `none` while untouched. -/
  cost_out : Option Dbl

/-- State on entry of `diffevo_solve`. -/
def St.start (pr : Proc) : St :=
  { g := pr.g, next := pr.next, tick := 0, trace := [], stderr := [],
    bound := fun _ _ => none,
    init_evt := none, eval_evt := none, select_evt := none, mutate_evt := none,
    eval_mut_evt := none, eval_glb_work := 0, eval_loc_work_ptr := none,
    best_c := none, best_i := none, best_out := none, cost_out := none }

/-- Function `report_error` (diffevo.c:16-19). -/
def report_error (msg : String) (s : St) : St :=
  { s with g := { s.g with last_error := -1 }, stderr := s.stderr ++ [⟨msg, none⟩] }

/-- Function `report_error_code` (diffevo.c:21-24). -/
def report_error_code (msg : String) (code : Int) (s : St) : St :=
  { s with g := { s.g with last_error := -1 }, stderr := s.stderr ++ [⟨msg, some code⟩] }

/-- Result of running a statement: fall through, or leave through the error exit. -/
inductive Outcome where
  | ok (s : St)
  | err (s : St)

/-- The state an outcome carries. -/
def Outcome.st : Outcome → St
  | .ok s => s
  | .err s => s

/-- A statement (or run of statements) of the host code. -/
abbrev Step := St → Outcome

/-- Runs statements in order up to the first one that leaves through the
error exit. -/
def seq : List Step → Step
  | [], s => .ok s
  | st :: rest, s =>
    match st s with
    | .ok s1 => seq rest s1
    | .err s1 => .err s1

/-- Records a call and its status in the trace. -/
def St.log (s : St) (c : Call) (code : Int) : St :=
  { s with tick := s.tick + 1, trace := s.trace ++ [⟨c, code⟩] }

/-- A checked call: ask the environment for the status of call `c s`; on
`CL_SUCCESS` run `onOk`, otherwise run `onErr` with the code and leave. -/
def call (w : World) (c : St → Call) (onOk : St → St) (onErr : Int → St → St) : Step :=
  fun s =>
    let code := w.err s.tick (c s)
    if code = 0 then .ok (onOk (s.log (c s) code)) else .err (onErr code (s.log (c s) code))

/-- A call whose status the host code ignores (lines 489-490). -/
def call_unchecked (w : World) (c : Call) : Step :=
  fun s => .ok (s.log c (w.err s.tick c))

/-- A check that leaves with `report_error msg` when `bad` holds. -/
def guard_not (bad : Bool) (msg : String) : Step :=
  fun s => if bad then .err (report_error msg s) else .ok s

/-- Statements that cannot fail. -/
def assign (f : St → St) : Step :=
  fun s => .ok (f s)

/-! ## init_cl, create_program, destroy_cl -/

/-- The assignment `h = clCreate...(.., &err)` on success: the runtime hands out
the next object id. -/
def St.created (s : St) (store : Globals → Handle → Globals) : St :=
  { s with g := store s.g (some s.next), next := s.next + 1 }

/-- The assignment `h = clCreate...(.., &err)` on failure: the call returns NULL. -/
def St.not_created (s : St) (store : Globals → Handle → Globals) : St :=
  { s with g := store s.g none }

/-- Function `init_cl` (diffevo.c:47-79). -/
def init_cl (w : World) : Step :=
  seq [
    -- 54-55
    call w (fun _ => .clGetPlatformIDs 0) id (report_error_code "clGetPlatformIDs() failed"),
    -- 56-59
    guard_not (w.num_plat == 0) "No platforms available",
    -- 62-63
    call w (fun _ => .clGetPlatformIDs 1) id (report_error_code "clGetPlatformIDs() failed"),
    -- 66-67
    call w (fun _ => .clGetDeviceIDs)
      (fun s => { s with g := { s.g with device := some w.device_id } })
      (report_error_code "clGetDeviceIDs() failed"),
    -- 68-71
    guard_not (w.num_dev == 0) "No devices available",
    -- 73-74
    call w (fun _ => .clCreateContext)
      (fun s => s.created (fun g h => { g with context := h }))
      (fun code s => report_error_code "clCreateContext() failed" code
        (s.not_created (fun g h => { g with context := h }))),
    -- 75-76
    call w (fun _ => .clCreateCommandQueueWithProperties)
      (fun s => s.created (fun g h => { g with queue := h }))
      (fun code s => report_error_code "clCreateCommandQueueWithProperties() failed" code
        (s.not_created (fun g h => { g with queue := h }))) ]

/-- The branch of `create_program` taken when `clBuildProgram` fails
(diffevo.c:215-247); every path through it ends in `return -1`. -/
def build_failed (w : World) (code : Int) (s : St) : St :=
  if code ≠ CL_BUILD_PROGRAM_FAILURE then
    report_error "clBuildProgram() failed without a build failure" s
  else
    (seq [
      -- 226-227
      call w (fun _ => .clGetProgramBuildInfo 0) id
        (report_error_code "clGetProgramBuildInfo() failed"),
      -- 228-232
      call w (fun _ => .malloc w.log_len) id (fun _ => report_error "Out of memory"),
      -- 234-235
      call w (fun _ => .clGetProgramBuildInfo w.log_len) id
        (report_error_code "clGetProgramBuildInfo() failed"),
      -- 242-246
      fun s1 => .err (report_error "<build log>" s1) ] s).st

/-- Function `create_program` (diffevo.c:186-250); `read_file` is one call of
the environment. -/
def create_program (w : World) : Step :=
  seq [
    -- 190-193
    call w (fun _ => .read_file) id (fun _ => report_error "Failed to open eval() source file"),
    -- 209-212
    call w (fun _ => .clCreateProgramWithSource)
      (fun s => s.created (fun g h => { g with program := h }))
      (fun code s => report_error_code "clCreateProgramWithSource() failed" code
        (s.not_created (fun g h => { g with program := h }))),
    -- 214-247
    call w (fun _ => .clBuildProgram) id (build_failed w) ]

/-- One guarded release of `destroy_cl`: `if (NULL != h) { err = clRelease..(h);
_if_err_ret(msg); }`. -/
def release_if (w : World) (k : Kind) (get : Globals → Handle) (msg : String) : Step :=
  fun s =>
    match get s.g with
    | none => .ok s
    | some i => call w (fun _ => .release k i) id (report_error_code msg) s

/-- Function `destroy_cl` (diffevo.c:81-143); `ok` is `return 0`, `err` is the
`return -1` of `_if_err_ret`. -/
def destroy_cl (w : World) : Step :=
  seq [
    release_if w .mem (fun g => g.rng) "clReleaseMemObject() failed",
    release_if w .mem (fun g => g.seeds) "clReleaseMemObject() failed",
    release_if w .mem (fun g => g.buf (.pop 0)) "clReleaseMemObject() failed",
    release_if w .mem (fun g => g.buf (.costs 0)) "clReleaseMemObject() failed",
    release_if w .mem (fun g => g.buf (.pop 1)) "clReleaseMemObject() failed",
    release_if w .mem (fun g => g.buf (.costs 1)) "clReleaseMemObject() failed",
    release_if w .mem (fun g => g.buf (.pop 2)) "clReleaseMemObject() failed",
    release_if w .mem (fun g => g.buf (.costs 2)) "clReleaseMemObject() failed",
    release_if w .mem (fun g => g.eval_data) "clReleaseMemObject() failed",
    release_if w .kernel (fun g => g.k_init) "clReleaseKernel() failed",
    release_if w .kernel (fun g => g.k_eval) "clReleaseKernel() failed",
    release_if w .kernel (fun g => g.k_mutate) "clReleaseKernel() failed",
    release_if w .kernel (fun g => g.k_select) "clReleaseKernel() failed",
    release_if w .program (fun g => g.program) "clReleaseProgram() failed",
    release_if w .queue (fun g => g.queue) "clReleaseCommandQueue() failed",
    release_if w .device (fun g => g.device) "clReleaseDevice() failed",
    release_if w .context (fun g => g.context) "clReleaseContext() failed" ]

/-! ## diffevo_solve -/

/-- Statement `buffers.r = clCreateBuffer(context, .., bytes, .., &err);
_if_err_die("clCreateBuffer() failed");`. -/
def create_buffer (w : World) (r : BufRef) (bytes : Nat) : Step :=
  call w (fun _ => .clCreateBuffer r bytes)
    (fun s => s.created (fun g h => g.setBuf r h))
    (fun code s => report_error_code "clCreateBuffer() failed" code
      (s.not_created (fun g h => g.setBuf r h)))

/-- Statement `kernels.k = clCreateKernel(program, name, &err); _if_err_die(msg);`;
a new kernel object has no arguments bound. -/
def create_kernel (w : World) (k : Kernel) (msg : String) : Step :=
  call w (fun _ => .clCreateKernel k)
    (fun s => { s.created (fun g h => g.setKern k h) with
                bound := fun k1 => if k1 = k then fun _ => none else s.bound k1 })
    (fun code s => report_error_code msg code (s.not_created (fun g h => g.setKern k h)))

/-- Statement `err = clSetKernelArg(kernels.k, idx, .., &a); _if_err_die(msg);`. -/
def set_arg (w : World) (k : Kernel) (idx : Nat) (a : St → Arg) (msg : String) : Step :=
  call w (fun s => .clSetKernelArg k idx (a s))
    (fun s => { s with bound := fun k1 j =>
                  if k1 = k ∧ j = idx then some (a s) else s.bound k1 j })
    (report_error_code msg)

/-- The argument `&buffers.r`. -/
def buf_arg (r : BufRef) : St → Arg :=
  fun s => .buf r (s.g.buf r)

/-- The arguments currently bound to the kernel of launch `l`. -/
def St.args (s : St) (l : Launch) : List (Option Arg) :=
  (List.range l.kernel.arity).map (s.bound l.kernel)

/-- Statement `err = clEnqueueNDRangeKernel(queue, kernel, 1, NULL, &gws, lws,
n, waits, &evt); _if_err_die(msg);`; `store` is the assignment to `evt`. -/
def enqueue (w : World) (l : Launch) (gws : St → Nat) (lws : St → Option Nat)
    (waits : St → List Event) (store : St → St) (msg : String) : Step :=
  call w (fun s => .clEnqueueNDRangeKernel l (s.args l) (gws s) (lws s) (waits s))
    store (report_error_code msg)

/-- Slot holding the candidates of generation `i` (line 411). -/
def p_cand (i : Nat) : Nat := if i % 2 = 0 then 0 else 2

/-- Slot receiving the result of generation `i` (line 411). -/
def p_res (i : Nat) : Nat := 2 - p_cand i

/-- Slot read back after `num_iter` generations (line 498). -/
def p_fin (num_iter : Nat) : Nat := if num_iter % 2 = 0 then 0 else 2

/-- Lines 280-337: buffers and kernels.  The seed values (`srand`, `rand`,
lines 287-297) do not influence any call or check and are left out. -/
def alloc_steps (w : World) (p : diffevo_params_t) : List Step :=
  [ -- 280-281: unsigned * int
    create_buffer w .rng ((p.num_pop * 0x10) % UINT_RANGE),
    -- 289-293
    call w (fun _ => .malloc ((p.num_pop * 4) % SIZE_RANGE)) id
      (fun _ => report_error "Out of memory"),
    -- 299-303
    create_buffer w .seeds ((p.num_pop * 4) % SIZE_RANGE),
    -- 310-317, i = 0, 1, 2: (unsigned * unsigned) * size_t
    create_buffer w (.pop 0) (((p.num_pop * p.num_attr) % UINT_RANGE * 8) % SIZE_RANGE),
    create_buffer w (.costs 0) ((p.num_pop * 8) % SIZE_RANGE),
    create_buffer w (.pop 1) (((p.num_pop * p.num_attr) % UINT_RANGE * 8) % SIZE_RANGE),
    create_buffer w (.costs 1) ((p.num_pop * 8) % SIZE_RANGE),
    create_buffer w (.pop 2) (((p.num_pop * p.num_attr) % UINT_RANGE * 8) % SIZE_RANGE),
    create_buffer w (.costs 2) ((p.num_pop * 8) % SIZE_RANGE) ]
  ++ -- 324-328
  (if p.eval_params.const_data_ptr ≠ none then
    [create_buffer w .eval_data p.eval_params.const_data_size] else [])
  ++ -- 330-337
  [ create_kernel w .init "Failed to create init() kernel",
    create_kernel w .eval "Failed to create eval() kernel",
    create_kernel w .mutate "Failed to create mutate() kernel",
    create_kernel w .select "Failed to create select() kernel" ]

/-- Lines 345-363: bind and launch `init` on slot 0. -/
def init_steps (w : World) (p : diffevo_params_t) : List Step :=
  [ set_arg w .init 0 (buf_arg .rng) "init!clSetKernelArg(0) failed",
    set_arg w .init 1 (buf_arg .seeds) "init!clSetKernelArg(1) failed",
    set_arg w .init 2 (buf_arg (.pop 0)) "init!clSetKernelArg(2) failed",
    set_arg w .init 3 (fun _ => .uint p.num_pop) "init!clSetKernelArg(3) failed",
    set_arg w .init 4 (fun _ => .uint p.num_attr) "init!clSetKernelArg(4) failed",
    set_arg w .init 5 (fun _ => .dbl p.mu) "init!clSetKernelArg(5) failed",
    set_arg w .init 6 (fun _ => .dbl p.sigma) "init!clSetKernelArg(6) failed",
    enqueue w .INIT (fun _ => p.num_pop) (fun _ => none) (fun _ => [])
      (fun s => { s with init_evt := some .INIT }) "init!clEnqueueNDRangeKernel() failed" ]

/-- Lines 369-380 and 441-452: bind `eval` to slot `k`. -/
def eval_args (w : World) (p : diffevo_params_t) (k : Nat) : List Step :=
  [ set_arg w .eval 0 (buf_arg (.pop k)) "eval!clSetKernelArg(0) failed",
    set_arg w .eval 1 (buf_arg (.costs k)) "eval!clSetKernelArg(1) failed",
    set_arg w .eval 2 (fun _ => .uint p.num_pop) "eval!clSetKernelArg(2) failed",
    set_arg w .eval 3 (fun _ => .uint p.num_attr) "eval!clSetKernelArg(3) failed",
    set_arg w .eval 4 (buf_arg .eval_data) "eval!clSetKernelArg(4) failed",
    set_arg w .eval 5 (fun _ => .loc p.eval_params.local_data_size)
      "eval!clSetKernelArg(5) failed" ]

/-- Lines 382-398: work sizes of `eval` (size_t arithmetic). -/
def eval_work (p : diffevo_params_t) (s : St) : St :=
  if 0 < p.eval_params.local_work_size then
    { s with eval_loc_work_ptr := some p.eval_params.local_work_size,
             eval_glb_work := (p.eval_params.local_work_size * p.num_pop) % SIZE_RANGE }
  else
    { s with eval_loc_work_ptr := none, eval_glb_work := p.num_pop }

/-- Lines 369-405: evaluate slot 0. -/
def eval0_steps (w : World) (p : diffevo_params_t) : List Step :=
  eval_args w p 0 ++
  [ assign (eval_work p),
    -- 400-403
    enqueue w .EVAL0 (fun s => s.eval_glb_work) (fun s => s.eval_loc_work_ptr)
      (fun s => [s.init_evt]) (fun s => { s with eval_evt := some .EVAL0 })
      "eval!clEnqueueNDRangeKernel() failed",
    -- 405
    assign (fun s => { s with select_evt := none }) ]

/-- Lines 417-435: bind and launch `mutate` in generation `i`. -/
def mutate_steps (w : World) (p : diffevo_params_t) (i : Nat) : List Step :=
  [ set_arg w .mutate 0 (buf_arg .rng) "mutate!clSetKernelArg(0) failed",
    set_arg w .mutate 1 (buf_arg (.pop (p_cand i))) "mutate!clSetKernelArg(1) failed",
    set_arg w .mutate 2 (buf_arg (.pop 1)) "mutate!clSetKernelArg(2) failed",
    set_arg w .mutate 3 (fun _ => .uint p.num_pop) "mutate!clSetKernelArg(3) failed",
    set_arg w .mutate 4 (fun _ => .uint p.num_attr) "mutate!clSetKernelArg(4) failed",
    set_arg w .mutate 5 (fun _ => .dbl p.shrink) "mutate!clSetKernelArg(5) failed",
    set_arg w .mutate 6 (fun _ => .dbl p.crossover) "mutate!clSetKernelArg(6) failed",
    -- 432-435
    enqueue w (.MUTATE i) (fun _ => p.num_pop) (fun _ => none)
      (fun s => [if i = 0 then s.init_evt else s.select_evt])
      (fun s => { s with mutate_evt := some (.MUTATE i) })
      "mutate!clEnqueueNDRangeKernel() failed" ]

/-- Lines 441-457: bind `eval` to slot 1 and launch it in generation `i`. -/
def eval_trial_steps (w : World) (p : diffevo_params_t) (i : Nat) : List Step :=
  eval_args w p 1 ++
  [ enqueue w (.EVAL_TRIAL i) (fun s => s.eval_glb_work) (fun s => s.eval_loc_work_ptr)
      (fun s => [s.mutate_evt]) (fun s => { s with eval_mut_evt := some (.EVAL_TRIAL i) })
      "eval!clEnqueueNDRangeKernel() failed" ]

/-- Lines 463-486: bind and launch `select` in generation `i`. -/
def select_steps (w : World) (p : diffevo_params_t) (i : Nat) : List Step :=
  [ set_arg w .select 0 (buf_arg (.pop (p_cand i))) "select!clSetKernelArg(0) failed",
    set_arg w .select 1 (buf_arg (.costs (p_cand i))) "select!clSetKernelArg(1) failed",
    set_arg w .select 2 (buf_arg (.pop 1)) "select!clSetKernelArg(2) failed",
    set_arg w .select 3 (buf_arg (.costs 1)) "select!clSetKernelArg(3) failed",
    set_arg w .select 4 (buf_arg (.pop (p_res i))) "select!clSetKernelArg(4) failed",
    set_arg w .select 5 (buf_arg (.costs (p_res i))) "select!clSetKernelArg(5) failed",
    set_arg w .select 6 (fun _ => .uint p.num_pop) "select!clSetKernelArg(6) failed",
    set_arg w .select 7 (fun _ => .uint p.num_attr) "select!clSetKernelArg(7) failed",
    -- 480-486
    enqueue w (.SELECT i) (fun _ => p.num_pop) (fun _ => none)
      (fun s => [s.eval_evt, s.eval_mut_evt])
      (fun s => { s with select_evt := some (.SELECT i) })
      "select!clEnqueueNDRangeKernel() failed" ]

/-- Body of the loop at line 407 for one value of `i`. -/
def generation (w : World) (p : diffevo_params_t) (i : Nat) : List Step :=
  mutate_steps w p i ++ eval_trial_steps w p i ++ select_steps w p i

/-- The loop `for (unsigned i = 0; i < n; i++)` of line 407: the bodies for
`i = 0, .., n - 1` in order. -/
def generations (w : World) (p : diffevo_params_t) : Nat → List Step
  | 0 => []
  | n + 1 => generations w p n ++ generation w p n

/-- One update of the scan of lines 520-525. -/
def scan_step (costs : Nat → Dbl) (acc : Dbl × Nat) (i : Nat) : Dbl × Nat :=
  if (costs i).lt acc.1 then (costs i, i) else acc

/-- Lines 517-525: `best_c` and `best_i` after scanning `costs[0 .. num_pop-1]`. -/
def scan_min (costs : Nat → Dbl) (num_pop : Nat) : Dbl × Nat :=
  (List.range' 1 (num_pop - 1)).foldl (scan_step costs) (costs 0, 0)

/-- Lines 489-538: drain the queue and read the result back.  The host array
`costs` holds `num_pop` doubles, filled by the blocking read from cost slot
`p_fin`; the read into `best` starts at byte offset 0 of population slot
`p_fin` and delivers `num_attr` doubles.  A read that fails is taken to
deliver nothing. -/
def extract_steps (w : World) (p : diffevo_params_t) : List Step :=
  [ call_unchecked w .clFlush,
    call_unchecked w .clFinish,
    -- 500-504
    call w (fun _ => .malloc ((p.num_pop * 8) % SIZE_RANGE)) id
      (fun _ => report_error "Out of memory"),
    -- 506-528
    call w (fun s => .clEnqueueReadBuffer (.costs (p_fin p.num_iter))
              (s.g.buf (.costs (p_fin p.num_iter))) 0 ((p.num_pop * 8) % SIZE_RANGE))
      (fun s => { s with
        best_c := some (scan_min (w.costsData (p_fin p.num_iter)) p.num_pop).1,
        best_i := some (scan_min (w.costsData (p_fin p.num_iter)) p.num_pop).2 })
      (fun _ => report_error "clEnqueueReadBuffer() failed"),
    -- 534-538
    call w (fun s => .clEnqueueReadBuffer (.pop (p_fin p.num_iter))
              (s.g.buf (.pop (p_fin p.num_iter))) 0 ((p.num_attr * 8) % SIZE_RANGE))
      (fun s => { s with
        best_out := some ((List.range p.num_attr).map (w.popData (p_fin p.num_iter))),
        cost_out := s.best_c })
      (report_error_code "clEnqueueReadBuffer() failed") ]

/-- The pattern `err = f(); if (0 != err) { report_error(msg); goto __CleanUp; }`. -/
def sub_call (f : Step) (msg : String) : Step :=
  fun s =>
    match f s with
    | .ok s1 => .ok s1
    | .err s1 => .err (report_error msg s1)

/-- Lines 262-538 of `diffevo_solve`: everything between the path check and the
label `__CleanUp`. -/
def solve_steps (w : World) (p : diffevo_params_t) : List Step :=
  [ sub_call (init_cl w) "Error while creating OpenCL context",
    sub_call (create_program w) "Error while loading program" ]
  ++ alloc_steps w p ++ init_steps w p ++ eval0_steps w p
  ++ generations w p p.num_iter ++ extract_steps w p

/-- What `diffevo_solve` leaves behind: the returned status and the final state. -/
structure Result where
  status : Int
  final : St

/-- What the call has stored through `best` (`none`: nothing). -/
def Result.best (r : Result) : Option (List Dbl) := r.final.best_out

/-- What the call has stored through `cost` (`none`: nothing). -/
def Result.cost (r : Result) : Option Dbl := r.final.cost_out

/-- Calls made during the call, in order, with their status. -/
def Result.trace (r : Result) : List Ev := r.final.trace

/-- Process state after the call. -/
def Result.proc (r : Result) : Proc := ⟨r.final.g, r.final.next⟩

/-- Function `diffevo_solve` (diffevo.c:254-549); `path = none` is a NULL path. -/
def diffevo_solve (w : World) (path : Option String) (p : diffevo_params_t) (pr : Proc) :
    Result :=
  match path with
  | none => ⟨-1, report_error "eval() path not specified" (St.start pr)⟩
  | some _ =>
    -- 262-538, then __CleanUp (540-548)
    match destroy_cl w (seq (solve_steps w p) (St.start pr)).st with
    | .err s => ⟨-1, report_error "Error while destroying OpenCL context" s⟩
    | .ok s => ⟨s.g.last_error, s⟩

/-- A sequence of `diffevo_solve` calls in one process. -/
def solve_seq : List (World × Option String × diffevo_params_t) → Proc → List Result
  | [], _ => []
  | (w, path, p) :: rest, pr =>
    (diffevo_solve w path p pr) :: solve_seq rest (diffevo_solve w path p pr).proc

/-! ## Auxiliary definitions: observers, assertions, concrete inputs -/

/-- Hoare triple with an error exit. -/
def Triple (P : St → Prop) (st : Step) (Q E : St → Prop) : Prop :=
  ∀ s, P s → match st s with
    | .ok s1 => Q s1
    | .err s1 => E s1

/-- Every failed call recorded so far is one whose status the host ignores. -/
def Clean (t : List Ev) : Prop :=
  ∀ e ∈ t, e.code ≠ 0 → e.call = .clFlush ∨ e.call = .clFinish

/-- Nothing stored through `best` or `cost`, no checked call failed. -/
def Inv1 (s : St) : Prop :=
  s.best_out = none ∧ s.cost_out = none ∧ Clean s.trace

/-- Nothing stored through `best` or `cost`, `last_error` set. -/
def Err1 (s : St) : Prop :=
  s.best_out = none ∧ s.cost_out = none ∧ s.g.last_error = -1

/-- State after both read-backs succeeded. -/
def Final (w : World) (p : diffevo_params_t) (s : St) : Prop :=
  s.best_out = some ((List.range p.num_attr).map (w.popData (p_fin p.num_iter))) ∧
  s.cost_out = some (scan_min (w.costsData (p_fin p.num_iter)) p.num_pop).1 ∧
  s.best_i = some (scan_min (w.costsData (p_fin p.num_iter)) p.num_pop).2 ∧
  Clean s.trace

/-- What `destroy_cl` leaves alone. -/
def Kept (b : Option (List Dbl)) (c : Option Dbl) (i : Option Nat) (le : Int) (s : St) : Prop :=
  s.best_out = b ∧ s.cost_out = c ∧ s.best_i = i ∧ s.g.last_error = le

/-- The state in which `diffevo_solve` reaches the label `__CleanUp`. -/
def at_cleanup (w : World) (p : diffevo_params_t) (pr : Proc) : Outcome :=
  seq (solve_steps w p) (St.start pr)

/-- The scan after the loop body has run for `i = 1, .., m`. -/
def scan_upto (costs : Nat → Dbl) (m : Nat) : Dbl × Nat :=
  (List.range' 1 m).foldl (scan_step costs) (costs 0, 0)

/-- The member of `buffers` an argument was taken from, if it is a buffer. -/
def Arg.slot : Arg → Option BufRef
  | .buf r _ => some r
  | _ => none

/-- Per argument position, the member of `buffers` bound there. -/
def slots (args : List (Option Arg)) : List (Option BufRef) :=
  args.map (fun a => a.bind Arg.slot)

/-- Modelled from the spec: the kernel source diffevo.cl is not part of src/;
by the kernel contract of spec section 6, `init` writes its arguments 0
(RNG state) and 2 (population), `eval` writes argument 1 (costs), `mutate`
writes arguments 0 (RNG state) and 2 (trial population), `select` writes
arguments 4 and 5 (output population and costs). -/
def Kernel.out_args : Kernel → List Nat
  | .init => [0, 2]
  | .eval => [1]
  | .mutate => [0, 2]
  | .select => [4, 5]

/-- The buffers a launch writes, from the arguments bound to its kernel. -/
def written (l : Launch) (args : List (Option Arg)) : List BufRef :=
  l.kernel.out_args.filterMap (fun j => (slots args).getD j none)

/-- What the code of `diffevo_solve` fixes about a call: for a launch, the
buffers bound and the wait list; for a read-back, the buffer and the offset. -/
def Sched (p : diffevo_params_t) : Call → Prop
  | .clEnqueueNDRangeKernel l args _ _ waits =>
    match l with
    | .INIT =>
      slots args = [some .rng, some .seeds, some (.pop 0), none, none, none, none] ∧
      waits = []
    | .EVAL0 =>
      slots args = [some (.pop 0), some (.costs 0), none, none, some .eval_data, none] ∧
      waits = [some .INIT]
    | .MUTATE i =>
      i < p.num_iter ∧
      slots args = [some .rng, some (.pop (p_cand i)), some (.pop 1), none, none, none, none] ∧
      waits = [some (if i = 0 then .INIT else .SELECT (i - 1))]
    | .EVAL_TRIAL i =>
      i < p.num_iter ∧
      slots args = [some (.pop 1), some (.costs 1), none, none, some .eval_data, none] ∧
      waits = [some (.MUTATE i)]
    | .SELECT i =>
      i < p.num_iter ∧
      slots args = [some (.pop (p_cand i)), some (.costs (p_cand i)), some (.pop 1),
        some (.costs 1), some (.pop (p_res i)), some (.costs (p_res i)), none, none] ∧
      waits = [some .EVAL0, some (.EVAL_TRIAL i)]
  | .clEnqueueReadBuffer r _ offset _ =>
    offset = 0 ∧ (r = .costs (p_fin p.num_iter) ∨ r = .pop (p_fin p.num_iter))
  | _ => True

/-- Every call recorded so far is as `Sched` says. -/
def Traced (p : diffevo_params_t) (s : St) : Prop :=
  ∀ e ∈ s.trace, Sched p e.call

/-- A statement about the five event variables. -/
def Evs (X : Event → Event → Event → Event → Event → Prop) (s : St) : Prop :=
  X s.init_evt s.eval_evt s.select_evt s.mutate_evt s.eval_mut_evt

/-- The first `m` arguments bound to kernel `k` come from the buffers `L`. -/
def Bnd (k : Kernel) (L : List (Option BufRef)) (m : Nat) (s : St) : Prop :=
  ∀ j, j < m → (s.bound k j).bind Arg.slot = L.getD j none

/-- The guarded releases of `destroy_cl` in source order (lines 84-140): kind of
release function, variable tested against NULL, message. -/
def release_order : List (Kind × (Globals → Handle) × String) :=
  [ (.mem, (fun g => g.rng), "clReleaseMemObject() failed"),
    (.mem, (fun g => g.seeds), "clReleaseMemObject() failed"),
    (.mem, (fun g => g.buf (.pop 0)), "clReleaseMemObject() failed"),
    (.mem, (fun g => g.buf (.costs 0)), "clReleaseMemObject() failed"),
    (.mem, (fun g => g.buf (.pop 1)), "clReleaseMemObject() failed"),
    (.mem, (fun g => g.buf (.costs 1)), "clReleaseMemObject() failed"),
    (.mem, (fun g => g.buf (.pop 2)), "clReleaseMemObject() failed"),
    (.mem, (fun g => g.buf (.costs 2)), "clReleaseMemObject() failed"),
    (.mem, (fun g => g.eval_data), "clReleaseMemObject() failed"),
    (.kernel, (fun g => g.k_init), "clReleaseKernel() failed"),
    (.kernel, (fun g => g.k_eval), "clReleaseKernel() failed"),
    (.kernel, (fun g => g.k_mutate), "clReleaseKernel() failed"),
    (.kernel, (fun g => g.k_select), "clReleaseKernel() failed"),
    (.program, (fun g => g.program), "clReleaseProgram() failed"),
    (.queue, (fun g => g.queue), "clReleaseCommandQueue() failed"),
    (.device, (fun g => g.device), "clReleaseDevice() failed"),
    (.context, (fun g => g.context), "clReleaseContext() failed") ]

/-- The non-NULL handles among a list of guarded releases, in order. -/
def pending_of (g : Globals) (l : List (Kind × (Globals → Handle) × String)) :
    List (Kind × Nat) :=
  l.filterMap (fun x => (x.2.1 g).map (fun i => (x.1, i)))

/-- The non-NULL handles `destroy_cl` finds, in source order. -/
def pending (g : Globals) : List (Kind × Nat) :=
  pending_of g release_order

/-- Releases attempted on a list of handles when the pass stops at the first
release that fails; `t` is the number of the next environment call. -/
def attempts (w : World) : Nat → List (Kind × Nat) → List Ev
  | _, [] => []
  | t, (k, i) :: rest =>
    ⟨.release k i, w.err t (.release k i)⟩ ::
      (if w.err t (.release k i) = 0 then attempts w (t + 1) rest else [])

/-- Whether a call is one of the `clRelease*` calls of `destroy_cl`. -/
def Call.is_release : Call → Bool
  | .release _ _ => true
  | _ => false

/-- Whether a call is one whose status `diffevo_solve` ignores (lines 489-490). -/
def Call.is_ignored : Call → Bool
  | .clFlush => true
  | .clFinish => true
  | _ => false

/-- Whether a call creates an object that `destroy_cl` has to release. -/
def Call.is_create : Call → Bool
  | .clCreateContext => true
  | .clCreateCommandQueueWithProperties => true
  | .clCreateProgramWithSource => true
  | .clCreateBuffer _ _ => true
  | .clCreateKernel _ => true
  | _ => false

/-- The attributes of member `i` of a population slot: elements
`[i * num_attr, (i + 1) * num_attr)` of the slot. -/
def member (w : World) (p : diffevo_params_t) (slot : Nat) (i : Nat) : List Dbl :=
  (List.range p.num_attr).map (fun a => w.popData slot (i * p.num_attr + a))

/-- The wait lists with which launch `l` was enqueued in a trace. -/
def waits_of (t : List Ev) (l : Launch) : List (List Event) :=
  t.filterMap (fun e =>
    match e.call with
    | .clEnqueueNDRangeKernel l1 _ _ _ ws => if l1 = l then some ws else none
    | _ => none)

/-- The part of a trace before launch `l` is enqueued. -/
def before (t : List Ev) (l : Launch) : List Ev :=
  t.takeWhile (fun e =>
    match e.call with
    | .clEnqueueNDRangeKernel l1 _ _ _ _ => decide (l1 ≠ l)
    | _ => true)

/-- The launches of a trace that write buffer `b`, in order. -/
def writers (t : List Ev) (b : BufRef) : List Launch :=
  t.filterMap (fun e =>
    match e.call with
    | .clEnqueueNDRangeKernel l args _ _ _ =>
      if e.code = 0 ∧ b ∈ written l args then some l else none
    | _ => none)

/-- The launch that last wrote buffer `b` before launch `l` was enqueued. -/
def last_writer (t : List Ev) (b : BufRef) (l : Launch) : Option Launch :=
  (writers (before t l) b).getLast?

/-- A two-element array: `a` at index 0, `b` elsewhere. -/
def data2 (a b : Dbl) (j : Nat) : Dbl := if j = 0 then a else b

/-- An environment in which every call succeeds; every cost slot holds
`[5, 3]` and every population slot `[10, 20]`. -/
def w_ok : World where
  err := fun _ _ => 0
  num_plat := 1
  num_dev := 1
  device_id := 0
  log_len := 0
  costsData := fun _ => data2 (.val 5) (.val 3)
  popData := fun _ => data2 (.val 10) (.val 20)

/-- As `w_ok`, but every cost slot holds `[NaN, 1]`. -/
def w_nan : World where
  err := fun _ _ => 0
  num_plat := 1
  num_dev := 1
  device_id := 0
  log_len := 0
  costsData := fun _ => data2 .nan (.val 1)
  popData := fun _ => data2 (.val 10) (.val 20)

/-- As `w_ok`, but `clReleaseContext` (the last release of `destroy_cl`) fails. -/
def w_context_release_fails : World where
  err := fun _ c =>
    match c with
    | .release .context _ => -34
    | _ => 0
  num_plat := 1
  num_dev := 1
  device_id := 0
  log_len := 0
  costsData := fun _ => data2 (.val 5) (.val 3)
  popData := fun _ => data2 (.val 10) (.val 20)

/-- As `w_ok`, but `clReleaseMemObject` fails. -/
def w_mem_release_fails : World where
  err := fun _ c =>
    match c with
    | .release .mem _ => -38
    | _ => 0
  num_plat := 1
  num_dev := 1
  device_id := 0
  log_len := 0
  costsData := fun _ => data2 (.val 5) (.val 3)
  popData := fun _ => data2 (.val 10) (.val 20)

/-- As `w_ok`, but `clGetPlatformIDs` fails, so that `init_cl` fails at its
first statement. -/
def w_no_platform : World where
  err := fun _ c =>
    match c with
    | .clGetPlatformIDs _ => -1001
    | _ => 0
  num_plat := 0
  num_dev := 0
  device_id := 0
  log_len := 0
  costsData := fun _ => data2 (.val 5) (.val 3)
  popData := fun _ => data2 (.val 10) (.val 20)

/-- Parameters with `num_iter = n`, two members of one attribute each, no
constant data and default work sizes. -/
def params (n : Nat) : diffevo_params_t :=
  ⟨n, 2, 1, .val 0, .val 1, .val 0, .val 0, ⟨none, 0, 0, 0⟩⟩

/-- The first `diffevo_solve` call of a process, in environment `w`. -/
def first_call (w : World) (n : Nat) : Result :=
  diffevo_solve w (some "eval.cl") (params n) Proc.fresh

/-- The arguments bound to `select` in generation 1 of `first_call w_ok 2`. -/
def select1_args : List (Option Arg) :=
  [some (.buf (.pop 2) (some 9)), some (.buf (.costs 2) (some 10)),
   some (.buf (.pop 1) (some 7)), some (.buf (.costs 1) (some 8)),
   some (.buf (.pop 0) (some 5)), some (.buf (.costs 0) (some 6)),
   some (.uint 2), some (.uint 1)]

/-- The trace entry of launch SELECT 1 in `first_call w_ok 2`. -/
def select1_entry : Ev :=
  ⟨.clEnqueueNDRangeKernel (.SELECT 1) select1_args 2 none
    [some .EVAL0, some (.EVAL_TRIAL 1)], 0⟩

/-- The arguments bound to `mutate` in generation 1 of `first_call w_ok 2`. -/
def mutate1_args : List (Option Arg) :=
  [some (.buf .rng (some 3)), some (.buf (.pop 2) (some 9)),
   some (.buf (.pop 1) (some 7)), some (.uint 2), some (.uint 1),
   some (.dbl (.val 0)), some (.dbl (.val 0))]

/-- The trace entry of launch MUTATE 1 in `first_call w_ok 2`. -/
def mutate1_entry : Ev :=
  ⟨.clEnqueueNDRangeKernel (.MUTATE 1) mutate1_args 2 none [some (.SELECT 0)], 0⟩

/-- What the device is asked to do: run a kernel launch or deliver a buffer. -/
inductive Op where
  | launch (l : Launch)
  | read (r : BufRef)
deriving DecidableEq, Repr

/-- The device operation a trace entry stands for: a kernel launch or a
read-back that was enqueued successfully; nothing for every other call. -/
def Ev.op (e : Ev) : Option Op :=
  match e.call with
  | .clEnqueueNDRangeKernel l _ _ _ _ => if e.code = 0 then some (.launch l) else none
  | .clEnqueueReadBuffer r _ _ _ => if e.code = 0 then some (.read r) else none
  | _ => none

/-- The launches and read-backs of a trace, in order. -/
def timeline (t : List Ev) : List Op :=
  t.filterMap Ev.op

/-- The pipeline of spec section 4.3 for generation `i`: mutate, evaluate the
trial slot, select. -/
def gen_ops (i : Nat) : List Op :=
  [.launch (.MUTATE i), .launch (.EVAL_TRIAL i), .launch (.SELECT i)]

/-- The generations `0, .., n - 1` of the pipeline, in order. -/
def loop_ops : Nat → List Op
  | 0 => []
  | n + 1 => loop_ops n ++ gen_ops n

/-- The pipeline of spec sections 4.3 and 4.4 as a whole: INIT, EVAL0, the
generations, then the read-back of the terminal cost slot and of the terminal
population slot. -/
def pipeline (p : diffevo_params_t) : List Op :=
  [.launch .INIT, .launch .EVAL0] ++ loop_ops p.num_iter ++
    [.read (.costs (p_fin p.num_iter)), .read (.pop (p_fin p.num_iter))]

/-- The calls that are neither a launch nor a read-back. -/
def Call.quiet : Call → Prop
  | .clEnqueueNDRangeKernel _ _ _ _ _ => False
  | .clEnqueueReadBuffer _ _ _ _ => False
  | _ => True

/-- The launches and read-backs recorded so far are `X`. -/
def TL (X : List Op) (s : St) : Prop :=
  timeline s.trace = X

/-- Predicate `last_error` holds -1. -/
def Stuck (s : St) : Prop :=
  s.g.last_error = -1

/-- The message `destroy_cl` passes to `_if_err_ret` after a release of kind
`k` (diffevo.c:84-140). -/
def Kind.release_msg : Kind → String
  | .mem => "clReleaseMemObject() failed"
  | .kernel => "clReleaseKernel() failed"
  | .program => "clReleaseProgram() failed"
  | .queue => "clReleaseCommandQueue() failed"
  | .device => "clReleaseDevice() failed"
  | .context => "clReleaseContext() failed"

/-- Records a list of calls with their status in the trace. -/
def St.logs (s : St) (a : List Ev) : St :=
  { s with tick := s.tick + a.length, trace := s.trace ++ a }

/-- Modelled from the spec: the kernel source diffevo.cl is not part of src/;
by the kernel contract of spec section 6, `init` reads its argument 1
(seeds), `eval` reads arguments 0 (population) and 4 (constant data),
`mutate` reads arguments 0 (RNG state) and 1 (base population), `select`
reads arguments 0 to 3 (candidate and trial population and costs). -/
def Kernel.in_args : Kernel → List Nat
  | .init => [1]
  | .eval => [0, 4]
  | .mutate => [0, 1]
  | .select => [0, 1, 2, 3]

/-- The buffers a launch reads, from the arguments bound to its kernel. -/
def read_set (l : Launch) (args : List (Option Arg)) : List BufRef :=
  l.kernel.in_args.filterMap (fun j => (slots args).getD j none)

/-- Two launches access a common buffer and at least one of them writes it. -/
def conflict (l1 : Launch) (args1 : List (Option Arg)) (l2 : Launch)
    (args2 : List (Option Arg)) : Bool :=
  (written l1 args1).any
    (fun b => decide (b ∈ written l2 args2) || decide (b ∈ read_set l2 args2)) ||
  (read_set l1 args1).any (fun b => decide (b ∈ written l2 args2))

/-- Launch `l` was enqueued successfully with arguments `args` bound and with
wait list `ws`. -/
def launched_with (t : List Ev) (l : Launch) (args : List (Option Arg))
    (ws : List Event) : Prop :=
  ∃ e ∈ t, e.code = 0 ∧ ∃ g lw, e.call = .clEnqueueNDRangeKernel l args g lw ws

/-- Launch `l` was enqueued successfully. -/
def launched (t : List Ev) (l : Launch) : Prop :=
  ∃ args ws, launched_with t l args ws

/-- Launch `b` was enqueued with the completion event of the launch `a` in
its wait list. -/
def waits_on (t : List Ev) (b a : Launch) : Prop :=
  launched t a ∧ ∃ args ws, launched_with t b args ws ∧ some a ∈ ws

/-- Order of the launches that follows from the event wait lists alone: the
transitive closure of "is waited on by". -/
def happens_before (t : List Ev) : Launch → Launch → Prop :=
  Relation.TransGen (fun a b => waits_on t b a)

/-- The five event variables of `diffevo_solve`. -/
def St.events (s : St) : List Event :=
  [s.init_evt, s.eval_evt, s.select_evt, s.mutate_evt, s.eval_mut_evt]

/-- Every event in the wait list of a successful launch is the completion
event of a launch that was itself enqueued successfully. -/
def WaitsOK (t : List Ev) : Prop :=
  ∀ e ∈ t, e.code = 0 → ∀ l args g lw ws,
    e.call = .clEnqueueNDRangeKernel l args g lw ws → ∀ a, some a ∈ ws → launched t a

/-- The event variables only hold completion events of successful launches,
and so do the wait lists recorded so far. -/
def Inv3 (s : St) : Prop :=
  (∀ a, some a ∈ s.events → launched s.trace a) ∧ WaitsOK s.trace

/-- The call is a kernel launch. -/
def Call.is_launch : Call → Bool
  | .clEnqueueNDRangeKernel _ _ _ _ _ => true
  | _ => false

/-- Place of a launch in the chain INIT, MUTATE 0, EVAL_TRIAL 0, SELECT 0,
MUTATE 1, ...; EVAL0 is not on the chain. -/
def Launch.pos : Launch → Nat
  | .INIT => 0
  | .EVAL0 => 0
  | .MUTATE i => 3 * i + 1
  | .EVAL_TRIAL i => 3 * i + 2
  | .SELECT i => 3 * i + 3

/-- The byte sizes requested with `clCreateBuffer` for buffer `r`, in order. -/
def requested (t : List Ev) (r : BufRef) : List Nat :=
  t.filterMap (fun e =>
    match e.call with
    | .clCreateBuffer r1 bytes => if r1 = r then some bytes else none
    | _ => none)

/-- The size arguments of the `clCreateBuffer` calls of `diffevo_solve` (lines
280, 300, 311-315, 325) under the C types: `num_pop * 0x10` is `unsigned`
times `int`, computed in 32 bits; in `num_pop * num_attr * sizeof(double)` the
product of the two `unsigned` operands is computed in 32 bits and only then
converted to `size_t`; `num_pop * sizeof(...)` is computed in `size_t`. -/
def size_arg (p : diffevo_params_t) : BufRef → Nat
  | .rng => (p.num_pop * 0x10) % UINT_RANGE
  | .seeds => (p.num_pop * 4) % SIZE_RANGE
  | .pop _ => ((p.num_pop * p.num_attr) % UINT_RANGE * 8) % SIZE_RANGE
  | .costs _ => (p.num_pop * 8) % SIZE_RANGE
  | .eval_data => p.eval_params.const_data_size

/-- The byte sizes the buffers need, as the specification states them: a
population slot holds `num_pop * num_attr` doubles, a cost slot `num_pop`
doubles, the RNG-state buffer 16 bytes per member.  (The specification gives
no size for the other buffers; for them this is the size passed.) -/
def exact_size (p : diffevo_params_t) : BufRef → Nat
  | .rng => p.num_pop * 16
  | .pop _ => p.num_pop * p.num_attr * 8
  | .costs _ => p.num_pop * 8
  | r => size_arg p r

/-- Every `clCreateBuffer` recorded passes the size `size_arg`. -/
def Sized (p : diffevo_params_t) : Call → Prop
  | .clCreateBuffer r bytes => bytes = size_arg p r
  | _ => True

/-- The parameter ranges the interface accepts: `num_pop` and `num_attr` are
`unsigned` values that are at least 1. -/
def accepted (p : diffevo_params_t) : Prop :=
  1 ≤ p.num_pop ∧ p.num_pop < UINT_RANGE ∧ 1 ≤ p.num_attr ∧ p.num_attr < UINT_RANGE

/-- Parameters with 65537 members of 65536 attributes each, one generation, no
constant data and default work sizes. -/
def params_pop_wrap : diffevo_params_t :=
  ⟨1, 65537, 65536, .val 0, .val 1, .val 0, .val 0, ⟨none, 0, 0, 0⟩⟩

/-- Parameters with `2^28 + 1` members of one attribute each, one generation,
no constant data and default work sizes. -/
def params_rng_wrap : diffevo_params_t :=
  ⟨1, 268435457, 1, .val 0, .val 1, .val 0, .val 0, ⟨none, 0, 0, 0⟩⟩

/-! ## Theorems -/

set_option maxRecDepth 100000

theorem Triple.of_call {P Q E : St → Prop} (w : World) (c : St → Call) (onOk : St → St)
    (onErr : Int → St → St)
    (hok : ∀ s, P s → Q (onOk (s.log (c s) 0)))
    (herr : ∀ s code, P s → code ≠ 0 → E (onErr code (s.log (c s) code))) :
    Triple P (call w c onOk onErr) Q E := by
  intro s hs
  unfold call
  by_cases h : w.err s.tick (c s) = 0
  · simp only [h, if_true]
    exact hok s hs
  · simp only [h, if_false]
    exact herr s _ hs h

theorem Triple.of_unchecked {P Q E : St → Prop} (w : World) (c : Call)
    (hok : ∀ s code, P s → Q (s.log c code)) :
    Triple P (call_unchecked w c) Q E := by
  intro s hs
  exact hok s _ hs

theorem Triple.of_guard {P Q E : St → Prop} (bad : Bool) (msg : String)
    (hok : ∀ s, P s → Q s) (herr : ∀ s, P s → E (report_error msg s)) :
    Triple P (guard_not bad msg) Q E := by
  intro s hs
  unfold guard_not
  cases bad
  · exact hok s hs
  · exact herr s hs

theorem Triple.of_assign {P Q E : St → Prop} (f : St → St) (hok : ∀ s, P s → Q (f s)) :
    Triple P (assign f) Q E := by
  intro s hs
  exact hok s hs

theorem Triple.seq_nil {P E : St → Prop} : Triple P (seq []) P E := by
  intro s hs
  exact hs

theorem Triple.seq_cons {P R Q E : St → Prop} {st : Step} {rest : List Step}
    (h1 : Triple P st R E) (h2 : Triple R (seq rest) Q E) :
    Triple P (seq (st :: rest)) Q E := by
  intro s hs
  have h := h1 s hs
  simp only [seq]
  cases hst : st s with
  | ok s1 =>
    rw [hst] at h
    exact h2 s1 h
  | err s1 =>
    rw [hst] at h
    exact h

theorem seq_append (a b : List Step) (s : St) :
    seq (a ++ b) s = match seq a s with
      | .ok s1 => seq b s1
      | .err s1 => .err s1 := by
  induction a generalizing s with
  | nil => rfl
  | cons st rest ih =>
    simp only [List.cons_append, seq]
    cases st s with
    | ok s1 => exact ih s1
    | err s1 => rfl

theorem Triple.seq_concat {P R Q E : St → Prop} {a b : List Step}
    (h1 : Triple P (seq a) R E) (h2 : Triple R (seq b) Q E) :
    Triple P (seq (a ++ b)) Q E := by
  intro s hs
  have h := h1 s hs
  rw [Diffevo.seq_append]
  cases hst : seq a s with
  | ok s1 =>
    rw [hst] at h
    exact h2 s1 h
  | err s1 =>
    rw [hst] at h
    exact h

theorem Triple.seq_inv {I E : St → Prop} {l : List Step}
    (h : ∀ st ∈ l, Triple I st I E) : Triple I (seq l) I E := by
  induction l with
  | nil => exact Triple.seq_nil
  | cons st rest ih =>
    exact Triple.seq_cons (h st (List.mem_cons_self _ _))
      (ih (fun st1 h1 => h st1 (List.mem_cons_of_mem _ h1)))

theorem Triple.weaken {P P1 Q Q1 E E1 : St → Prop} {st : Step}
    (h : Triple P st Q E) (hP : ∀ s, P1 s → P s) (hQ : ∀ s, Q s → Q1 s)
    (hE : ∀ s, E s → E1 s) : Triple P1 st Q1 E1 := by
  intro s hs
  have h1 := h s (hP s hs)
  cases hst : st s with
  | ok s1 =>
    rw [hst] at h1
    exact hQ s1 h1
  | err s1 =>
    rw [hst] at h1
    exact hE s1 h1

theorem Triple.of_sub_call {P Q E E1 : St → Prop} {f : Step} (msg : String)
    (h : Triple P f Q E) (hE : ∀ s, E s → E1 (report_error msg s)) :
    Triple P (sub_call f msg) Q E1 := by
  intro s hs
  have h1 := h s hs
  unfold sub_call
  cases hst : f s with
  | ok s1 =>
    rw [hst] at h1
    exact h1
  | err s1 =>
    rw [hst] at h1
    exact hE s1 h1

theorem Triple.of_release_if {P Q E : St → Prop} (w : World) (k : Kind)
    (get : Globals → Handle) (msg : String)
    (hnull : ∀ s, P s → get s.g = none → Q s)
    (hok : ∀ s i, P s → get s.g = some i → Q (s.log (.release k i) 0))
    (herr : ∀ s i code, P s → get s.g = some i → code ≠ 0 →
      E (report_error_code msg code (s.log (.release k i) code))) :
    Triple P (release_if w k get msg) Q E := by
  intro s hs
  unfold release_if
  cases hg : get s.g with
  | none => exact hnull s hs hg
  | some i =>
    exact Triple.of_call (P := fun s1 => s1 = s) w _ _ _
      (fun s1 h1 => by subst h1; exact hok _ i hs hg)
      (fun s1 code h1 hc => by subst h1; exact herr _ i code hs hg hc) s rfl

theorem Clean.snoc {t : List Ev} (h : Clean t) (c : Call) : Clean (t ++ [⟨c, 0⟩]) := by
  intro e he
  rcases List.mem_append.1 he with h1 | h1
  · exact h e h1
  · intro hc
    simp only [List.mem_singleton] at h1
    subst h1
    exact absurd rfl hc

theorem Clean.snoc_flush {t : List Ev} (h : Clean t) (code : Int) :
    Clean (t ++ [⟨.clFlush, code⟩]) := by
  intro e he
  rcases List.mem_append.1 he with h1 | h1
  · exact h e h1
  · simp only [List.mem_singleton] at h1
    subst h1
    exact fun _ => Or.inl rfl

theorem Clean.snoc_finish {t : List Ev} (h : Clean t) (code : Int) :
    Clean (t ++ [⟨.clFinish, code⟩]) := by
  intro e he
  rcases List.mem_append.1 he with h1 | h1
  · exact h e h1
  · simp only [List.mem_singleton] at h1
    subst h1
    exact fun _ => Or.inr rfl

theorem inv1_call (w : World) (c : St → Call) (onOk : St → St) (onErr : Int → St → St)
    (hok : ∀ s, (onOk s).best_out = s.best_out ∧ (onOk s).cost_out = s.cost_out ∧
      (onOk s).trace = s.trace)
    (herr : ∀ code s, (onErr code s).best_out = s.best_out ∧
      (onErr code s).cost_out = s.cost_out ∧ (onErr code s).g.last_error = -1) :
    Triple Inv1 (call w c onOk onErr) Inv1 Err1 := by
  apply Triple.of_call
  · rintro s ⟨h1, h2, h3⟩
    obtain ⟨e1, e2, e3⟩ := hok (s.log (c s) 0)
    refine ⟨e1.trans h1, e2.trans h2, ?_⟩
    rw [e3]
    exact h3.snoc _
  · rintro s code ⟨h1, h2, _⟩ _
    obtain ⟨e1, e2, e3⟩ := herr code (s.log (c s) code)
    exact ⟨e1.trans h1, e2.trans h2, e3⟩

theorem inv1_set_arg (w : World) (k : Kernel) (idx : Nat) (a : St → Arg) (msg : String) :
    Triple Inv1 (set_arg w k idx a msg) Inv1 Err1 :=
  inv1_call _ _ _ _ (fun _ => ⟨rfl, rfl, rfl⟩) (fun _ _ => ⟨rfl, rfl, rfl⟩)

theorem inv1_enqueue (w : World) (l : Launch) (gws : St → Nat) (lws : St → Option Nat)
    (waits : St → List Event) (store : St → St) (msg : String)
    (hs : ∀ s, (store s).best_out = s.best_out ∧ (store s).cost_out = s.cost_out ∧
      (store s).trace = s.trace) :
    Triple Inv1 (enqueue w l gws lws waits store msg) Inv1 Err1 :=
  inv1_call _ _ _ _ hs (fun _ _ => ⟨rfl, rfl, rfl⟩)

theorem inv1_create_buffer (w : World) (r : BufRef) (bytes : Nat) :
    Triple Inv1 (create_buffer w r bytes) Inv1 Err1 :=
  inv1_call _ _ _ _ (fun _ => ⟨rfl, rfl, rfl⟩) (fun _ _ => ⟨rfl, rfl, rfl⟩)

theorem inv1_create_kernel (w : World) (k : Kernel) (msg : String) :
    Triple Inv1 (create_kernel w k msg) Inv1 Err1 :=
  inv1_call _ _ _ _ (fun _ => ⟨rfl, rfl, rfl⟩) (fun _ _ => ⟨rfl, rfl, rfl⟩)

theorem inv1_guard (bad : Bool) (msg : String) : Triple Inv1 (guard_not bad msg) Inv1 Err1 :=
  Triple.of_guard _ _ (fun _ h => h) (fun _ h => ⟨h.1, h.2.1, rfl⟩)

theorem inv1_init_cl (w : World) : Triple Inv1 (init_cl w) Inv1 Err1 := by
  apply Triple.seq_inv
  simp only [List.forall_mem_cons]
  refine ⟨?_, ?_, ?_, ?_, ?_, ?_, ?_, ?_⟩
  any_goals exact inv1_guard _ _
  any_goals exact inv1_call _ _ _ _ (fun _ => ⟨rfl, rfl, rfl⟩) (fun _ _ => ⟨rfl, rfl, rfl⟩)
  simp

theorem build_failed_err (w : World) (code : Int) (s : St) :
    (build_failed w code s).best_out = s.best_out ∧
    (build_failed w code s).cost_out = s.cost_out ∧
    (build_failed w code s).g.last_error = -1 := by
  unfold build_failed
  split
  · exact ⟨rfl, rfl, rfl⟩
  · have key : Triple (fun s1 => s1.best_out = s.best_out ∧ s1.cost_out = s.cost_out)
        (seq [
          call w (fun _ => .clGetProgramBuildInfo 0) id
            (report_error_code "clGetProgramBuildInfo() failed"),
          call w (fun _ => .malloc w.log_len) id (fun _ => report_error "Out of memory"),
          call w (fun _ => .clGetProgramBuildInfo w.log_len) id
            (report_error_code "clGetProgramBuildInfo() failed"),
          fun s1 => .err (report_error "<build log>" s1) ])
        (fun s1 => s1.best_out = s.best_out ∧ s1.cost_out = s.cost_out ∧
          s1.g.last_error = -1)
        (fun s1 => s1.best_out = s.best_out ∧ s1.cost_out = s.cost_out ∧
          s1.g.last_error = -1) := by
      refine Triple.seq_cons (R := fun s1 => s1.best_out = s.best_out ∧ s1.cost_out = s.cost_out)
        (Triple.of_call _ _ _ _ (fun _ h => h) (fun _ _ h _ => ⟨h.1, h.2, rfl⟩)) ?_
      refine Triple.seq_cons (R := fun s1 => s1.best_out = s.best_out ∧ s1.cost_out = s.cost_out)
        (Triple.of_call _ _ _ _ (fun _ h => h) (fun _ _ h _ => ⟨h.1, h.2, rfl⟩)) ?_
      refine Triple.seq_cons (R := fun s1 => s1.best_out = s.best_out ∧ s1.cost_out = s.cost_out)
        (Triple.of_call _ _ _ _ (fun _ h => h) (fun _ _ h _ => ⟨h.1, h.2, rfl⟩)) ?_
      refine Triple.seq_cons (R := fun _ => False) ?_ (fun _ h => h.elim)
      intro s1 h
      exact ⟨h.1, h.2, rfl⟩
    have h := key s ⟨rfl, rfl⟩
    revert h
    cases seq _ s with
    | ok s1 => exact fun h => h
    | err s1 => exact fun h => h

theorem inv1_create_program (w : World) : Triple Inv1 (create_program w) Inv1 Err1 := by
  apply Triple.seq_inv
  simp only [List.forall_mem_cons]
  refine ⟨?_, ?_, ?_, ?_⟩
  · exact inv1_call _ _ _ _ (fun _ => ⟨rfl, rfl, rfl⟩) (fun _ _ => ⟨rfl, rfl, rfl⟩)
  · exact inv1_call _ _ _ _ (fun _ => ⟨rfl, rfl, rfl⟩) (fun _ _ => ⟨rfl, rfl, rfl⟩)
  · exact inv1_call _ _ _ _ (fun _ => ⟨rfl, rfl, rfl⟩) (build_failed_err w)
  · simp

theorem inv1_sub_call {f : Step} (msg : String) (h : Triple Inv1 f Inv1 Err1) :
    Triple Inv1 (sub_call f msg) Inv1 Err1 :=
  Triple.of_sub_call msg h (fun _ h1 => ⟨h1.1, h1.2.1, rfl⟩)

theorem inv1_alloc_steps (w : World) (p : diffevo_params_t) :
    ∀ st ∈ alloc_steps w p, Triple Inv1 st Inv1 Err1 := by
  unfold alloc_steps
  simp only [List.forall_mem_append, List.forall_mem_cons]
  refine ⟨⟨⟨?_, ?_, ?_, ?_, ?_, ?_, ?_, ?_, ?_, ?_⟩, ?_⟩, ?_, ?_, ?_, ?_, ?_⟩
  any_goals exact inv1_create_buffer _ _ _
  any_goals exact inv1_create_kernel _ _ _
  · exact inv1_call _ _ _ _ (fun _ => ⟨rfl, rfl, rfl⟩) (fun _ _ => ⟨rfl, rfl, rfl⟩)
  · simp
  · split
    · simp only [List.forall_mem_cons]
      exact ⟨inv1_create_buffer _ _ _, by simp⟩
    · simp
  · simp

theorem inv1_init_steps (w : World) (p : diffevo_params_t) :
    ∀ st ∈ init_steps w p, Triple Inv1 st Inv1 Err1 := by
  simp only [init_steps, List.forall_mem_cons]
  refine ⟨?_, ?_, ?_, ?_, ?_, ?_, ?_, ?_, ?_⟩
  any_goals exact inv1_set_arg _ _ _ _ _
  · exact inv1_enqueue _ _ _ _ _ _ _ (fun s => ⟨rfl, rfl, rfl⟩)
  · simp

theorem inv1_eval_args (w : World) (p : diffevo_params_t) (k : Nat) :
    ∀ st ∈ eval_args w p k, Triple Inv1 st Inv1 Err1 := by
  simp only [eval_args, List.forall_mem_cons]
  refine ⟨?_, ?_, ?_, ?_, ?_, ?_, ?_⟩
  any_goals exact inv1_set_arg _ _ _ _ _
  simp

theorem inv1_eval_work (p : diffevo_params_t) :
    Triple Inv1 (assign (eval_work p)) Inv1 Err1 := by
  apply Triple.of_assign
  intro s h
  unfold eval_work
  split
  · exact h
  · exact h

theorem inv1_eval0_steps (w : World) (p : diffevo_params_t) :
    ∀ st ∈ eval0_steps w p, Triple Inv1 st Inv1 Err1 := by
  unfold eval0_steps
  simp only [List.forall_mem_append, List.forall_mem_cons]
  refine ⟨inv1_eval_args w p 0, inv1_eval_work p, ?_, ?_, ?_⟩
  · exact inv1_enqueue _ _ _ _ _ _ _ (fun s => ⟨rfl, rfl, rfl⟩)
  · exact Triple.of_assign _ (fun _ h => h)
  · simp

theorem inv1_generation (w : World) (p : diffevo_params_t) (i : Nat) :
    ∀ st ∈ generation w p i, Triple Inv1 st Inv1 Err1 := by
  unfold generation mutate_steps eval_trial_steps select_steps
  simp only [List.forall_mem_append, List.forall_mem_cons]
  refine ⟨⟨⟨?_, ?_, ?_, ?_, ?_, ?_, ?_, ?_, ?_⟩, inv1_eval_args w p 1, ?_, ?_⟩,
    ?_, ?_, ?_, ?_, ?_, ?_, ?_, ?_, ?_, ?_⟩
  any_goals exact inv1_set_arg _ _ _ _ _
  any_goals exact inv1_enqueue _ _ _ _ _ _ _ (fun s => ⟨rfl, rfl, rfl⟩)
  all_goals simp

theorem inv1_generations (w : World) (p : diffevo_params_t) (n : Nat) :
    Triple Inv1 (seq (generations w p n)) Inv1 Err1 := by
  induction n with
  | zero => exact Triple.seq_nil
  | succ n ih => exact Triple.seq_concat ih (Triple.seq_inv (inv1_generation w p n))

theorem triple_extract (w : World) (p : diffevo_params_t) :
    Triple Inv1 (seq (extract_steps w p)) (Final w p) Err1 := by
  unfold extract_steps
  refine Triple.seq_cons (R := Inv1)
    (Triple.of_unchecked _ _ (fun _ _ h => ⟨h.1, h.2.1, h.2.2.snoc_flush _⟩)) ?_
  refine Triple.seq_cons (R := Inv1)
    (Triple.of_unchecked _ _ (fun _ _ h => ⟨h.1, h.2.1, h.2.2.snoc_finish _⟩)) ?_
  refine Triple.seq_cons (R := Inv1)
    (inv1_call _ _ _ _ (fun _ => ⟨rfl, rfl, rfl⟩) (fun _ _ => ⟨rfl, rfl, rfl⟩)) ?_
  refine Triple.seq_cons
    (R := fun s => Inv1 s ∧
      s.best_c = some (scan_min (w.costsData (p_fin p.num_iter)) p.num_pop).1 ∧
      s.best_i = some (scan_min (w.costsData (p_fin p.num_iter)) p.num_pop).2)
    (Triple.of_call _ _ _ _ (fun _ h => ⟨⟨h.1, h.2.1, h.2.2.snoc _⟩, rfl, rfl⟩)
      (fun _ _ h _ => ⟨h.1, h.2.1, rfl⟩)) ?_
  refine Triple.seq_cons (R := Final w p)
    (Triple.of_call _ _ _ _ (fun _ h => ⟨rfl, h.2.1, h.2.2, h.1.2.2.snoc _⟩)
      (fun _ _ h _ => ⟨h.1.1, h.1.2.1, rfl⟩)) ?_
  exact Triple.seq_nil

theorem triple_solve_steps (w : World) (p : diffevo_params_t) :
    Triple Inv1 (seq (solve_steps w p)) (Final w p) Err1 := by
  unfold solve_steps
  refine Triple.seq_concat (R := Inv1) ?_ (triple_extract w p)
  refine Triple.seq_concat (R := Inv1) ?_ (inv1_generations w p p.num_iter)
  refine Triple.seq_concat (R := Inv1) ?_ (Triple.seq_inv (inv1_eval0_steps w p))
  refine Triple.seq_concat (R := Inv1) ?_ (Triple.seq_inv (inv1_init_steps w p))
  refine Triple.seq_concat (R := Inv1) ?_ (Triple.seq_inv (inv1_alloc_steps w p))
  refine Triple.seq_cons (R := Inv1) (inv1_sub_call _ (inv1_init_cl w)) ?_
  refine Triple.seq_cons (R := Inv1) (inv1_sub_call _ (inv1_create_program w)) ?_
  exact Triple.seq_nil

theorem inv1_start (pr : Proc) : Inv1 (St.start pr) :=
  ⟨rfl, rfl, fun _ h => absurd h (List.not_mem_nil _)⟩

theorem kept_release_if (w : World) (k : Kind) (get : Globals → Handle) (msg : String)
    (b : Option (List Dbl)) (c : Option Dbl) (i : Option Nat) (le : Int) :
    Triple (Kept b c i le) (release_if w k get msg) (Kept b c i le) (Kept b c i (-1)) :=
  Triple.of_release_if _ _ _ _ (fun _ h _ => h) (fun _ _ h _ => h)
    (fun _ _ _ h _ _ => ⟨h.1, h.2.1, h.2.2.1, rfl⟩)

theorem kept_destroy_cl (w : World) (b : Option (List Dbl)) (c : Option Dbl) (i : Option Nat)
    (le : Int) : Triple (Kept b c i le) (destroy_cl w) (Kept b c i le) (Kept b c i (-1)) := by
  apply Triple.seq_inv
  simp only [List.forall_mem_cons]
  refine ⟨?_, ?_, ?_, ?_, ?_, ?_, ?_, ?_, ?_, ?_, ?_, ?_, ?_, ?_, ?_, ?_, ?_, ?_⟩
  any_goals exact kept_release_if _ _ _ _ _ _ _ _
  simp

theorem solve_some (w : World) (path : String) (p : diffevo_params_t) (pr : Proc) :
    (diffevo_solve w (some path) p pr).best = (at_cleanup w p pr).st.best_out ∧
    (diffevo_solve w (some path) p pr).cost = (at_cleanup w p pr).st.cost_out ∧
    (diffevo_solve w (some path) p pr).final.best_i = (at_cleanup w p pr).st.best_i ∧
    ((diffevo_solve w (some path) p pr).status = 0 →
      (at_cleanup w p pr).st.g.last_error = 0) := by
  have h := kept_destroy_cl w _ _ _ _ (at_cleanup w p pr).st ⟨rfl, rfl, rfl, rfl⟩
  unfold diffevo_solve Result.best Result.cost
  simp only
  unfold at_cleanup at h ⊢
  cases hd : destroy_cl w (seq (solve_steps w p) (St.start pr)).st with
  | ok s =>
    rw [hd] at h
    simp only
    refine ⟨h.1, h.2.1, h.2.2.1, fun h0 => ?_⟩
    rw [← h.2.2.2]; exact h0
  | err s =>
    rw [hd] at h
    simp only
    refine ⟨h.1, h.2.1, h.2.2.1, fun h0 => ?_⟩
    exact absurd h0 (by decide)

theorem at_cleanup_spec (w : World) (p : diffevo_params_t) (pr : Proc) :
    match at_cleanup w p pr with
    | .ok s => Final w p s
    | .err s => Err1 s :=
  triple_solve_steps w p (St.start pr) (inv1_start pr)

theorem solve_none (w : World) (p : diffevo_params_t) (pr : Proc) :
    (diffevo_solve w none p pr).status = -1 ∧ (diffevo_solve w none p pr).best = none ∧
    (diffevo_solve w none p pr).cost = none :=
  ⟨rfl, rfl, rfl⟩

/-- A call that returns 0 has stored the result of the scan and of the second read. -/
theorem solve_success (w : World) (path : Option String) (p : diffevo_params_t) (pr : Proc)
    (h0 : (diffevo_solve w path p pr).status = 0) :
    (diffevo_solve w path p pr).best =
      some ((List.range p.num_attr).map (w.popData (p_fin p.num_iter))) ∧
    (diffevo_solve w path p pr).cost =
      some (scan_min (w.costsData (p_fin p.num_iter)) p.num_pop).1 ∧
    (diffevo_solve w path p pr).final.best_i =
      some (scan_min (w.costsData (p_fin p.num_iter)) p.num_pop).2 := by
  cases path with
  | none => exact absurd h0 (by rw [(solve_none w p pr).1]; decide)
  | some path =>
    obtain ⟨e1, e2, e3, e4⟩ := solve_some w path p pr
    have hle := e4 h0
    have hsp := at_cleanup_spec w p pr
    rw [e1, e2, e3]
    cases hc : at_cleanup w p pr with
    | ok s =>
      rw [hc] at hsp
      exact ⟨hsp.1, hsp.2.1, hsp.2.2.1⟩
    | err s =>
      rw [hc] at hsp hle
      have : s.g.last_error = 0 := hle
      rw [hsp.2.2] at this
      exact absurd this (by decide)

/-- A call that reaches `__CleanUp` through an error exit stores nothing. -/
theorem solve_failed (w : World) (path : String) (p : diffevo_params_t) (pr : Proc)
    (s : St) (h : at_cleanup w p pr = .err s) :
    (diffevo_solve w (some path) p pr).best = none ∧
    (diffevo_solve w (some path) p pr).cost = none := by
  obtain ⟨e1, e2, _, _⟩ := solve_some w path p pr
  have hsp := at_cleanup_spec w p pr
  rw [h] at hsp
  rw [e1, e2, h]
  exact ⟨hsp.1, hsp.2.1⟩

theorem Dbl.lt_val (a b : Int) : (Dbl.val a).lt (.val b) = true ↔ a < b := by
  simp [Dbl.lt]

theorem Dbl.le_val (a b : Int) : (Dbl.val a).le (.val b) = true ↔ a ≤ b := by
  simp [Dbl.le]

theorem Dbl.not_nan {x : Dbl} (h : x.isNaN = false) : ∃ z, x = .val z := by
  cases x with
  | nan => exact absurd h (by decide)
  | val z => exact ⟨z, rfl⟩

theorem scan_upto_succ (costs : Nat → Dbl) (m : Nat) :
    scan_upto costs (m + 1) = scan_step costs (scan_upto costs m) (1 + m) := by
  unfold scan_upto
  rw [List.range'_1_concat, List.foldl_append]
  rfl

theorem scan_min_eq (costs : Nat → Dbl) (n : Nat) : scan_min costs n = scan_upto costs (n - 1) :=
  rfl

/-- The scan returns an index it has visited and the value stored there. -/
theorem scan_upto_index (costs : Nat → Dbl) (m : Nat) :
    (scan_upto costs m).2 ≤ m ∧ (scan_upto costs m).1 = costs (scan_upto costs m).2 := by
  induction m with
  | zero => exact ⟨Nat.le_refl 0, rfl⟩
  | succ m ih =>
    rw [scan_upto_succ]
    unfold scan_step
    split
    · exact ⟨by omega, rfl⟩
    · exact ⟨by omega, ih.2⟩

/-- Without NaN the scan returns the least value and the first index holding it. -/
theorem scan_upto_min (costs : Nat → Dbl) (m : Nat)
    (hn : ∀ j, j ≤ m → (costs j).isNaN = false) :
    (∀ j, j ≤ m → (scan_upto costs m).1.le (costs j) = true) ∧
    (∀ j, j < (scan_upto costs m).2 → (scan_upto costs m).1.lt (costs j) = true) := by
  induction m with
  | zero =>
    refine ⟨fun j hj => ?_, fun j hj => absurd hj (Nat.not_lt_zero j)⟩
    have : j = 0 := by omega
    subst this
    obtain ⟨z, hz⟩ := Dbl.not_nan (hn 0 (Nat.le_refl 0))
    show (costs 0).le (costs 0) = true
    rw [hz]
    exact (Dbl.le_val z z).2 (le_refl z)
  | succ m ih =>
    obtain ⟨ih1, ih2⟩ := ih (fun j hj => hn j (by omega))
    obtain ⟨hi, hc⟩ := scan_upto_index costs m
    obtain ⟨x, hx⟩ := Dbl.not_nan (hn (1 + m) (by omega))
    obtain ⟨c, hcv⟩ := Dbl.not_nan (hn (scan_upto costs m).2 (by omega))
    rw [← hc] at hcv
    have hle : ∀ j, j ≤ m → ∃ y, costs j = .val y ∧ c ≤ y := by
      intro j hj
      obtain ⟨y, hy⟩ := Dbl.not_nan (hn j (by omega))
      have h1 := ih1 j hj
      rw [hy, hcv] at h1
      exact ⟨y, hy, (Dbl.le_val c y).1 h1⟩
    rw [scan_upto_succ]
    unfold scan_step
    rw [hx, hcv]
    by_cases hlt : x < c
    · rw [if_pos ((Dbl.lt_val x c).2 hlt)]
      refine ⟨fun j hj => ?_, fun j hj => ?_⟩
      · show (Dbl.val x).le (costs j) = true
        by_cases hjm : j ≤ m
        · obtain ⟨y, hy, hcy⟩ := hle j hjm
          rw [hy]
          exact (Dbl.le_val x y).2 (by omega)
        · have : j = 1 + m := by omega
          subst this
          rw [hx]
          exact (Dbl.le_val x x).2 (le_refl x)
      · show (Dbl.val x).lt (costs j) = true
        have hjm : j ≤ m := by
          have : j < 1 + m := hj
          omega
        obtain ⟨y, hy, hcy⟩ := hle j hjm
        rw [hy]
        exact (Dbl.lt_val x y).2 (by omega)
    · rw [if_neg (fun h => hlt ((Dbl.lt_val x c).1 h))]
      refine ⟨fun j hj => ?_, fun j hj => ih2 j hj⟩
      by_cases hjm : j ≤ m
      · exact ih1 j hjm
      · have : j = 1 + m := by omega
        subst this
        rw [hx, hcv]
        exact (Dbl.le_val c x).2 (by omega)

theorem traced_snoc {p : diffevo_params_t} {t : List Ev} (h : ∀ e ∈ t, Sched p e.call)
    (c : Call) (code : Int) (hc : Sched p c) : ∀ e ∈ t ++ [⟨c, code⟩], Sched p e.call := by
  intro e he
  rcases List.mem_append.1 he with h1 | h1
  · exact h e h1
  · simp only [List.mem_singleton] at h1
    subst h1
    exact hc

theorem map_range_eq (f : Nat → Option BufRef) (L : List (Option BufRef)) (n : Nat)
    (hlen : L.length = n) (h : ∀ j, j < n → f j = L.getD j none) :
    (List.range n).map f = L := by
  apply List.ext_getElem?
  intro j
  by_cases hj : j < n
  · rw [List.getElem?_map, List.getElem?_range hj, Option.map_some', h j hj,
      List.getD_eq_getElem?_getD, List.getElem?_eq_getElem (hlen ▸ hj)]
    rfl
  · have h1 : (List.range n).length ≤ j := by rw [List.length_range]; omega
    have h2 : L.length ≤ j := by omega
    rw [List.getElem?_eq_none_iff.2 h2, List.getElem?_map, List.getElem?_eq_none_iff.2 h1]
    rfl

theorem slots_args (l : Launch) (L : List (Option BufRef)) (s : St)
    (hlen : L.length = l.kernel.arity) (h : Bnd l.kernel L l.kernel.arity s) :
    slots (s.args l) = L := by
  unfold slots St.args
  rw [List.map_map]
  exact map_range_eq _ L _ hlen h

/-- Rule for the `m`-th `clSetKernelArg` of a launch. -/
theorem sched_set_arg (p : diffevo_params_t) (w : World) (k : Kernel) (m : Nat)
    (a : St → Arg) (msg : String) (X : Event → Event → Event → Event → Event → Prop)
    (L : List (Option BufRef)) (ha : ∀ s, (a s).slot = L.getD m none) :
    Triple (fun s => Traced p s ∧ Evs X s ∧ Bnd k L m s) (set_arg w k m a msg)
      (fun s => Traced p s ∧ Evs X s ∧ Bnd k L (m + 1) s) (Traced p) := by
  apply Triple.of_call
  · rintro s ⟨h1, h2, h3⟩
    refine ⟨traced_snoc h1 _ _ trivial, h2, ?_⟩
    intro j hj
    show (if k = k ∧ j = m then some (a (s.log _ 0)) else s.bound k j).bind Arg.slot = _
    by_cases hjm : j = m
    · subst hjm
      rw [if_pos ⟨rfl, rfl⟩]
      exact ha _
    · rw [if_neg (fun h => hjm h.2)]
      exact h3 j (by omega)
  · rintro s code ⟨h1, _, _⟩ _
    exact traced_snoc h1 _ _ trivial

/-- Rule for the `clEnqueueNDRangeKernel` of a launch. -/
theorem sched_enqueue (p : diffevo_params_t) (w : World) (l : Launch) (gws : St → Nat)
    (lws : St → Option Nat) (waits : St → List Event) (store : St → St) (msg : String)
    (X Y : Event → Event → Event → Event → Event → Prop) (L : List (Option BufRef))
    (hlen : L.length = l.kernel.arity)
    (hS : ∀ s args g lw, Evs X s → slots args = L →
      Sched p (.clEnqueueNDRangeKernel l args g lw (waits s)))
    (hst : ∀ s, (store s).trace = s.trace)
    (hY : ∀ s c code, Evs X s → Evs Y (store (s.log c code))) :
    Triple (fun s => Traced p s ∧ Evs X s ∧ Bnd l.kernel L l.kernel.arity s)
      (enqueue w l gws lws waits store msg) (fun s => Traced p s ∧ Evs Y s) (Traced p) := by
  apply Triple.of_call
  · rintro s ⟨h1, h2, h3⟩
    refine ⟨?_, hY s _ _ h2⟩
    intro e he
    rw [hst] at he
    exact traced_snoc h1 _ _ (hS s _ _ _ h2 (slots_args l L s hlen h3)) e he
  · rintro s code ⟨h1, h2, h3⟩ _
    exact traced_snoc h1 _ _ (hS s _ _ _ h2 (slots_args l L s hlen h3))

theorem bnd_zero (k : Kernel) (L : List (Option BufRef)) (s : St) : Bnd k L 0 s :=
  fun j hj => absurd hj (Nat.not_lt_zero j)

theorem sched_mutate (p : diffevo_params_t) (w : World) (i : Nat) (hi : i < p.num_iter) :
    Triple
      (fun s => Traced p s ∧ Evs (fun ie ee se _ _ => ie = some .INIT ∧ ee = some .EVAL0 ∧
        (i ≠ 0 → se = some (.SELECT (i - 1)))) s)
      (seq (mutate_steps w p i))
      (fun s => Traced p s ∧ Evs (fun ie ee se me _ => ie = some .INIT ∧ ee = some .EVAL0 ∧
        (i ≠ 0 → se = some (.SELECT (i - 1))) ∧ me = some (.MUTATE i)) s)
      (Traced p) := by
  unfold mutate_steps
  refine Triple.weaken (P := fun s => Traced p s ∧ Evs _ s ∧ Bnd .mutate
    [some .rng, some (.pop (p_cand i)), some (.pop 1), none, none, none, none] 0 s) ?_
    (fun s h => ⟨h.1, h.2, bnd_zero _ _ s⟩) (fun _ h => h) (fun _ h => h)
  refine Triple.seq_cons (sched_set_arg p w _ 0 _ _ _ _ (fun _ => rfl)) ?_
  refine Triple.seq_cons (sched_set_arg p w _ 1 _ _ _ _ (fun _ => rfl)) ?_
  refine Triple.seq_cons (sched_set_arg p w _ 2 _ _ _ _ (fun _ => rfl)) ?_
  refine Triple.seq_cons (sched_set_arg p w _ 3 _ _ _ _ (fun _ => rfl)) ?_
  refine Triple.seq_cons (sched_set_arg p w _ 4 _ _ _ _ (fun _ => rfl)) ?_
  refine Triple.seq_cons (sched_set_arg p w _ 5 _ _ _ _ (fun _ => rfl)) ?_
  refine Triple.seq_cons (sched_set_arg p w _ 6 _ _ _ _ (fun _ => rfl)) ?_
  refine Triple.seq_cons (sched_enqueue p w (.MUTATE i) _ _ _ _ _ _ _ _ rfl ?_ (fun _ => rfl) ?_)
    Triple.seq_nil
  · rintro s args g lw ⟨h1, h2, h3⟩ hsl
    refine ⟨hi, hsl, ?_⟩
    show [if i = 0 then s.init_evt else s.select_evt] = _
    by_cases h0 : i = 0
    · rw [if_pos h0, if_pos h0, h1]
    · rw [if_neg h0, if_neg h0, h3 h0]
  · rintro s c code ⟨h1, h2, h3⟩
    exact ⟨h1, h2, h3, rfl⟩

theorem sched_eval_args (p : diffevo_params_t) (w : World) (k : Nat)
    (X : Event → Event → Event → Event → Event → Prop) :
    Triple (fun s => Traced p s ∧ Evs X s)
      (seq (eval_args w p k))
      (fun s => Traced p s ∧ Evs X s ∧ Bnd .eval
        [some (.pop k), some (.costs k), none, none, some .eval_data, none] 6 s)
      (Traced p) := by
  unfold eval_args
  refine Triple.weaken (P := fun s => Traced p s ∧ Evs X s ∧ Bnd .eval
    [some (.pop k), some (.costs k), none, none, some .eval_data, none] 0 s) ?_
    (fun s h => ⟨h.1, h.2, bnd_zero _ _ s⟩) (fun _ h => h) (fun _ h => h)
  refine Triple.seq_cons (sched_set_arg p w _ 0 _ _ _ _ (fun _ => rfl)) ?_
  refine Triple.seq_cons (sched_set_arg p w _ 1 _ _ _ _ (fun _ => rfl)) ?_
  refine Triple.seq_cons (sched_set_arg p w _ 2 _ _ _ _ (fun _ => rfl)) ?_
  refine Triple.seq_cons (sched_set_arg p w _ 3 _ _ _ _ (fun _ => rfl)) ?_
  refine Triple.seq_cons (sched_set_arg p w _ 4 _ _ _ _ (fun _ => rfl)) ?_
  refine Triple.seq_cons (sched_set_arg p w _ 5 _ _ _ _ (fun _ => rfl)) ?_
  exact Triple.seq_nil

theorem sched_eval_trial (p : diffevo_params_t) (w : World) (i : Nat) (hi : i < p.num_iter) :
    Triple
      (fun s => Traced p s ∧ Evs (fun ie ee se me _ => ie = some .INIT ∧ ee = some .EVAL0 ∧
        (i ≠ 0 → se = some (.SELECT (i - 1))) ∧ me = some (.MUTATE i)) s)
      (seq (eval_trial_steps w p i))
      (fun s => Traced p s ∧ Evs (fun ie ee _ _ eme => ie = some .INIT ∧ ee = some .EVAL0 ∧
        eme = some (.EVAL_TRIAL i)) s)
      (Traced p) := by
  unfold eval_trial_steps
  refine Triple.seq_concat (sched_eval_args p w 1 _) ?_
  refine Triple.seq_cons (sched_enqueue p w (.EVAL_TRIAL i) _ _ _ _ _ _ _ _ rfl ?_
    (fun _ => rfl) ?_) Triple.seq_nil
  · rintro s args g lw ⟨h1, h2, h3, h4⟩ hsl
    refine ⟨hi, hsl, ?_⟩
    show [s.mutate_evt] = _
    rw [h4]
  · rintro s c code ⟨h1, h2, h3, h4⟩
    exact ⟨h1, h2, rfl⟩

theorem sched_select (p : diffevo_params_t) (w : World) (i : Nat) (hi : i < p.num_iter) :
    Triple
      (fun s => Traced p s ∧ Evs (fun ie ee _ _ eme => ie = some .INIT ∧ ee = some .EVAL0 ∧
        eme = some (.EVAL_TRIAL i)) s)
      (seq (select_steps w p i))
      (fun s => Traced p s ∧ Evs (fun ie ee se _ _ => ie = some .INIT ∧ ee = some .EVAL0 ∧
        (i + 1 ≠ 0 → se = some (.SELECT (i + 1 - 1)))) s)
      (Traced p) := by
  unfold select_steps
  refine Triple.weaken (P := fun s => Traced p s ∧ Evs _ s ∧ Bnd .select
    [some (.pop (p_cand i)), some (.costs (p_cand i)), some (.pop 1),
        some (.costs 1), some (.pop (p_res i)), some (.costs (p_res i)), none, none] 0 s) ?_
    (fun s h => ⟨h.1, h.2, bnd_zero _ _ s⟩) (fun _ h => h) (fun _ h => h)
  refine Triple.seq_cons (sched_set_arg p w _ 0 _ _ _ _ (fun _ => rfl)) ?_
  refine Triple.seq_cons (sched_set_arg p w _ 1 _ _ _ _ (fun _ => rfl)) ?_
  refine Triple.seq_cons (sched_set_arg p w _ 2 _ _ _ _ (fun _ => rfl)) ?_
  refine Triple.seq_cons (sched_set_arg p w _ 3 _ _ _ _ (fun _ => rfl)) ?_
  refine Triple.seq_cons (sched_set_arg p w _ 4 _ _ _ _ (fun _ => rfl)) ?_
  refine Triple.seq_cons (sched_set_arg p w _ 5 _ _ _ _ (fun _ => rfl)) ?_
  refine Triple.seq_cons (sched_set_arg p w _ 6 _ _ _ _ (fun _ => rfl)) ?_
  refine Triple.seq_cons (sched_set_arg p w _ 7 _ _ _ _ (fun _ => rfl)) ?_
  refine Triple.seq_cons (sched_enqueue p w (.SELECT i) _ _ _ _ _ _ _ _ rfl ?_ (fun _ => rfl) ?_)
    Triple.seq_nil
  · rintro s args g lw ⟨h1, h2, h3⟩ hsl
    refine ⟨hi, hsl, ?_⟩
    show [s.eval_evt, s.eval_mut_evt] = _
    rw [h2, h3]
  · rintro s c code ⟨h1, h2, h3⟩
    exact ⟨h1, h2, fun _ => rfl⟩

theorem sched_generation (p : diffevo_params_t) (w : World) (i : Nat) (hi : i < p.num_iter) :
    Triple
      (fun s => Traced p s ∧ Evs (fun ie ee se _ _ => ie = some .INIT ∧ ee = some .EVAL0 ∧
        (i ≠ 0 → se = some (.SELECT (i - 1)))) s)
      (seq (generation w p i))
      (fun s => Traced p s ∧ Evs (fun ie ee se _ _ => ie = some .INIT ∧ ee = some .EVAL0 ∧
        (i + 1 ≠ 0 → se = some (.SELECT (i + 1 - 1)))) s)
      (Traced p) := by
  unfold generation
  rw [List.append_assoc]
  exact Triple.seq_concat (sched_mutate p w i hi)
    (Triple.seq_concat (sched_eval_trial p w i hi) (sched_select p w i hi))

theorem sched_generations (p : diffevo_params_t) (w : World) (n : Nat) (hn : n ≤ p.num_iter) :
    Triple
      (fun s => Traced p s ∧ Evs (fun ie ee _ _ _ => ie = some .INIT ∧ ee = some .EVAL0) s)
      (seq (generations w p n))
      (fun s => Traced p s ∧ Evs (fun ie ee se _ _ => ie = some .INIT ∧ ee = some .EVAL0 ∧
        (n ≠ 0 → se = some (.SELECT (n - 1)))) s)
      (Traced p) := by
  induction n with
  | zero =>
    exact Triple.weaken Triple.seq_nil (fun _ h => h)
      (fun _ h => ⟨h.1, h.2.1, h.2.2, fun h0 => absurd rfl h0⟩) (fun _ h => h)
  | succ n ih =>
    exact Triple.seq_concat (ih (by omega)) (sched_generation p w n (by omega))

theorem sched_init_steps (p : diffevo_params_t) (w : World) :
    Triple (Traced p) (seq (init_steps w p))
      (fun s => Traced p s ∧ Evs (fun ie _ _ _ _ => ie = some .INIT) s) (Traced p) := by
  unfold init_steps
  refine Triple.weaken (P := fun s => Traced p s ∧ Evs (fun _ _ _ _ _ => True) s ∧ Bnd .init
    [some .rng, some .seeds, some (.pop 0), none, none, none, none] 0 s) ?_
    (fun s h => ⟨h, trivial, bnd_zero _ _ s⟩) (fun _ h => h) (fun _ h => h)
  refine Triple.seq_cons (sched_set_arg p w _ 0 _ _ _ _ (fun _ => rfl)) ?_
  refine Triple.seq_cons (sched_set_arg p w _ 1 _ _ _ _ (fun _ => rfl)) ?_
  refine Triple.seq_cons (sched_set_arg p w _ 2 _ _ _ _ (fun _ => rfl)) ?_
  refine Triple.seq_cons (sched_set_arg p w _ 3 _ _ _ _ (fun _ => rfl)) ?_
  refine Triple.seq_cons (sched_set_arg p w _ 4 _ _ _ _ (fun _ => rfl)) ?_
  refine Triple.seq_cons (sched_set_arg p w _ 5 _ _ _ _ (fun _ => rfl)) ?_
  refine Triple.seq_cons (sched_set_arg p w _ 6 _ _ _ _ (fun _ => rfl)) ?_
  refine Triple.seq_cons (sched_enqueue p w .INIT _ _ _ _ _ _ _ _ rfl ?_ (fun _ => rfl) ?_)
    Triple.seq_nil
  · rintro s args g lw _ hsl
    exact ⟨hsl, rfl⟩
  · rintro s c code _
    exact rfl

theorem sched_eval0_steps (p : diffevo_params_t) (w : World) :
    Triple (fun s => Traced p s ∧ Evs (fun ie _ _ _ _ => ie = some .INIT) s)
      (seq (eval0_steps w p))
      (fun s => Traced p s ∧ Evs (fun ie ee _ _ _ => ie = some .INIT ∧ ee = some .EVAL0) s)
      (Traced p) := by
  unfold eval0_steps
  refine Triple.seq_concat (sched_eval_args p w 0 _) ?_
  refine Triple.seq_cons (R := fun s => Traced p s ∧
      Evs (fun ie _ _ _ _ => ie = some .INIT) s ∧ Bnd .eval
        [some (.pop 0), some (.costs 0), none, none, some .eval_data, none] 6 s) ?_ ?_
  · apply Triple.of_assign
    intro s h
    unfold eval_work
    split
    · exact h
    · exact h
  refine Triple.seq_cons (sched_enqueue p w .EVAL0 _ _ _ _ _ _
    (fun ie ee _ _ _ => ie = some .INIT ∧ ee = some .EVAL0) _ rfl ?_ (fun _ => rfl) ?_) ?_
  · rintro s args g lw h1 hsl
    refine ⟨hsl, ?_⟩
    show [s.init_evt] = _
    rw [h1]
  · rintro s c code h1
    exact ⟨h1, rfl⟩
  · refine Triple.seq_cons (R := fun s => Traced p s ∧
      Evs (fun ie ee _ _ _ => ie = some .INIT ∧ ee = some .EVAL0) s) ?_ Triple.seq_nil
    exact Triple.of_assign _ (fun _ h => h)

theorem traced_call (p : diffevo_params_t) (w : World) (c : St → Call) (onOk : St → St)
    (onErr : Int → St → St) (hc : ∀ s, Sched p (c s))
    (hok : ∀ s, (onOk s).trace = s.trace)
    (herr : ∀ code s, Traced p s → Traced p (onErr code s)) :
    Triple (Traced p) (call w c onOk onErr) (Traced p) (Traced p) := by
  apply Triple.of_call
  · intro s h e he
    rw [hok] at he
    exact traced_snoc h _ _ (hc s) e he
  · intro s code h _
    exact herr code _ (traced_snoc h _ _ (hc s))

theorem traced_guard (p : diffevo_params_t) (bad : Bool) (msg : String) :
    Triple (Traced p) (guard_not bad msg) (Traced p) (Traced p) :=
  Triple.of_guard _ _ (fun _ h => h) (fun _ h => h)

theorem traced_init_cl (p : diffevo_params_t) (w : World) :
    Triple (Traced p) (init_cl w) (Traced p) (Traced p) := by
  apply Triple.seq_inv
  simp only [List.forall_mem_cons]
  refine ⟨?_, ?_, ?_, ?_, ?_, ?_, ?_, ?_⟩
  any_goals exact traced_guard _ _ _
  any_goals exact traced_call _ _ _ _ _ (fun _ => trivial) (fun _ => rfl) (fun _ _ h => h)
  simp

theorem traced_build_failed (p : diffevo_params_t) (w : World) (code : Int) (s : St)
    (h : Traced p s) : Traced p (build_failed w code s) := by
  unfold build_failed
  split
  · exact h
  · have key : Triple (Traced p)
        (seq [
          call w (fun _ => .clGetProgramBuildInfo 0) id
            (report_error_code "clGetProgramBuildInfo() failed"),
          call w (fun _ => .malloc w.log_len) id (fun _ => report_error "Out of memory"),
          call w (fun _ => .clGetProgramBuildInfo w.log_len) id
            (report_error_code "clGetProgramBuildInfo() failed"),
          fun s1 => .err (report_error "<build log>" s1) ])
        (Traced p) (Traced p) := by
      apply Triple.seq_inv
      simp only [List.forall_mem_cons]
      refine ⟨?_, ?_, ?_, ?_, ?_⟩
      any_goals exact traced_call _ _ _ _ _ (fun _ => trivial) (fun _ => rfl) (fun _ _ h => h)
      · exact fun _ h => h
      · simp
    have h1 := key s h
    revert h1
    cases seq _ s with
    | ok s1 => exact fun h => h
    | err s1 => exact fun h => h

theorem traced_create_program (p : diffevo_params_t) (w : World) :
    Triple (Traced p) (create_program w) (Traced p) (Traced p) := by
  apply Triple.seq_inv
  simp only [List.forall_mem_cons]
  refine ⟨?_, ?_, ?_, ?_⟩
  · exact traced_call _ _ _ _ _ (fun _ => trivial) (fun _ => rfl) (fun _ _ h => h)
  · exact traced_call _ _ _ _ _ (fun _ => trivial) (fun _ => rfl) (fun _ _ h => h)
  · exact traced_call _ _ _ _ _ (fun _ => trivial) (fun _ => rfl) (traced_build_failed p w)
  · simp

theorem traced_create_buffer (p : diffevo_params_t) (w : World) (r : BufRef) (bytes : Nat) :
    Triple (Traced p) (create_buffer w r bytes) (Traced p) (Traced p) :=
  traced_call _ _ _ _ _ (fun _ => trivial) (fun _ => rfl) (fun _ _ h => h)

theorem traced_create_kernel (p : diffevo_params_t) (w : World) (k : Kernel) (msg : String) :
    Triple (Traced p) (create_kernel w k msg) (Traced p) (Traced p) :=
  traced_call _ _ _ _ _ (fun _ => trivial) (fun _ => rfl) (fun _ _ h => h)

theorem traced_alloc_steps (p : diffevo_params_t) (w : World) :
    ∀ st ∈ alloc_steps w p, Triple (Traced p) st (Traced p) (Traced p) := by
  unfold alloc_steps
  simp only [List.forall_mem_append, List.forall_mem_cons]
  refine ⟨⟨⟨?_, ?_, ?_, ?_, ?_, ?_, ?_, ?_, ?_, ?_⟩, ?_⟩, ?_, ?_, ?_, ?_, ?_⟩
  any_goals exact traced_create_buffer _ _ _ _
  any_goals exact traced_create_kernel _ _ _ _
  · exact traced_call _ _ _ _ _ (fun _ => trivial) (fun _ => rfl) (fun _ _ h => h)
  · simp
  · split
    · simp only [List.forall_mem_cons]
      exact ⟨traced_create_buffer _ _ _ _, by simp⟩
    · simp
  · simp

theorem traced_extract_steps (p : diffevo_params_t) (w : World) :
    ∀ st ∈ extract_steps w p, Triple (Traced p) st (Traced p) (Traced p) := by
  unfold extract_steps
  simp only [List.forall_mem_cons]
  refine ⟨?_, ?_, ?_, ?_, ?_, ?_⟩
  · exact Triple.of_unchecked _ _ (fun _ _ h => traced_snoc h _ _ trivial)
  · exact Triple.of_unchecked _ _ (fun _ _ h => traced_snoc h _ _ trivial)
  · exact traced_call _ _ _ _ _ (fun _ => trivial) (fun _ => rfl) (fun _ _ h => h)
  · exact traced_call _ _ _ _ _ (fun _ => ⟨rfl, Or.inl rfl⟩) (fun _ => rfl) (fun _ _ h => h)
  · exact traced_call _ _ _ _ _ (fun _ => ⟨rfl, Or.inr rfl⟩) (fun _ => rfl) (fun _ _ h => h)
  · simp

theorem traced_release_if (p : diffevo_params_t) (w : World) (k : Kind)
    (get : Globals → Handle) (msg : String) :
    Triple (Traced p) (release_if w k get msg) (Traced p) (Traced p) :=
  Triple.of_release_if _ _ _ _ (fun _ h _ => h)
    (fun _ _ h _ => traced_snoc h _ _ trivial) (fun _ _ _ h _ _ => traced_snoc h _ _ trivial)

theorem traced_destroy_cl (p : diffevo_params_t) (w : World) :
    Triple (Traced p) (destroy_cl w) (Traced p) (Traced p) := by
  apply Triple.seq_inv
  simp only [List.forall_mem_cons]
  refine ⟨?_, ?_, ?_, ?_, ?_, ?_, ?_, ?_, ?_, ?_, ?_, ?_, ?_, ?_, ?_, ?_, ?_, ?_⟩
  any_goals exact traced_release_if _ _ _ _ _
  simp

theorem traced_solve_steps (p : diffevo_params_t) (w : World) :
    Triple (Traced p) (seq (solve_steps w p)) (Traced p) (Traced p) := by
  unfold solve_steps
  refine Triple.seq_concat (R := Traced p) ?_ (Triple.seq_inv (traced_extract_steps p w))
  refine Triple.seq_concat ?_
    (Triple.weaken (sched_generations p w p.num_iter (Nat.le_refl _)) (fun _ h => h)
      (fun _ h => h.1) (fun _ h => h))
  refine Triple.seq_concat ?_ (sched_eval0_steps p w)
  refine Triple.seq_concat ?_ (sched_init_steps p w)
  refine Triple.seq_concat (R := Traced p) ?_ (Triple.seq_inv (traced_alloc_steps p w))
  refine Triple.seq_cons (R := Traced p)
    (Triple.of_sub_call _ (traced_init_cl p w) (fun _ h => h)) ?_
  refine Triple.seq_cons (R := Traced p)
    (Triple.of_sub_call _ (traced_create_program p w) (fun _ h => h)) ?_
  exact Triple.seq_nil

/-- Every call `diffevo_solve` makes is as `Sched` says, whatever fails. -/
theorem solve_sched (w : World) (path : Option String) (p : diffevo_params_t) (pr : Proc) :
    ∀ e ∈ (diffevo_solve w path p pr).trace, Sched p e.call := by
  cases path with
  | none => exact fun e he => absurd he (List.not_mem_nil _)
  | some path =>
    have h0 : Traced p (St.start pr) := fun e he => absurd he (List.not_mem_nil _)
    have h1 : Traced p (seq (solve_steps w p) (St.start pr)).st := by
      have h := traced_solve_steps p w _ h0
      revert h
      cases seq (solve_steps w p) (St.start pr) with
      | ok s => exact fun h => h
      | err s => exact fun h => h
    have h2 := traced_destroy_cl p w _ h1
    unfold diffevo_solve Result.trace
    simp only
    revert h2
    cases destroy_cl w (seq (solve_steps w p) (St.start pr)).st with
    | ok s => exact fun h => h
    | err s => exact fun h => h

theorem destroy_cl_eq (w : World) :
    destroy_cl w = seq (release_order.map (fun x => release_if w x.1 x.2.1 x.2.2)) := rfl

theorem release_if_none (w : World) (k : Kind) (get : Globals → Handle) (msg : String)
    (s : St) (h : get s.g = none) : release_if w k get msg s = .ok s := by
  unfold release_if
  rw [h]

theorem release_if_ok (w : World) (k : Kind) (get : Globals → Handle) (msg : String)
    (s : St) (i : Nat) (h : get s.g = some i) (hc : w.err s.tick (.release k i) = 0) :
    release_if w k get msg s = .ok (s.log (.release k i) 0) := by
  unfold release_if
  rw [h]
  simp only [call, hc, if_true, id]

theorem release_if_err (w : World) (k : Kind) (get : Globals → Handle) (msg : String)
    (s : St) (i : Nat) (h : get s.g = some i) (hc : w.err s.tick (.release k i) ≠ 0) :
    release_if w k get msg s = .err (report_error_code msg (w.err s.tick (.release k i))
      (s.log (.release k i) (w.err s.tick (.release k i)))) := by
  unfold release_if
  rw [h]
  simp only [call, hc, if_false]

theorem release_seq_trace (w : World) (l : List (Kind × (Globals → Handle) × String)) (s : St) :
    (seq (l.map (fun x => release_if w x.1 x.2.1 x.2.2)) s).st.trace =
      s.trace ++ attempts w s.tick (pending_of s.g l) := by
  induction l generalizing s with
  | nil => simp [seq, Outcome.st, pending_of, attempts]
  | cons x rest ih =>
    simp only [List.map_cons, seq]
    cases hg : x.2.1 s.g with
    | none =>
      rw [release_if_none w _ _ _ s hg]
      simp only
      rw [ih s]
      simp [pending_of, hg]
    | some i =>
      by_cases hc : w.err s.tick (.release x.1 i) = 0
      · rw [release_if_ok w _ _ _ s i hg hc]
        simp only
        rw [ih]
        simp [pending_of, hg, attempts, hc, St.log]
      · rw [release_if_err w _ _ _ s i hg hc]
        simp [pending_of, hg, attempts, hc, St.log, Outcome.st, report_error_code]

theorem attempts_initial (w : World) (t : Nat) (l : List (Kind × Nat)) :
    (attempts w t l).map Ev.call <+: l.map (fun x => Call.release x.1 x.2) := by
  induction l generalizing t with
  | nil => simp [attempts]
  | cons x rest ih =>
    obtain ⟨k, i⟩ := x
    simp only [attempts, List.map_cons]
    split
    · exact (List.prefix_cons_inj _).2 (ih (t + 1))
    · simp

theorem attempts_stop (w : World) (t : Nat) (l : List (Kind × Nat)) (j : Nat)
    (hj : j + 1 < (attempts w t l).length) :
    ((attempts w t l).map Ev.code).getD j 1 = 0 := by
  induction l generalizing t j with
  | nil => simp [attempts] at hj
  | cons x rest ih =>
    obtain ⟨k, i⟩ := x
    simp only [attempts] at hj ⊢
    by_cases hc : w.err t (.release k i) = 0
    · simp only [hc, if_true] at hj ⊢
      cases j with
      | zero => simp
      | succ j =>
        simp only [List.length_cons] at hj
        have := ih (t + 1) j (by omega)
        simpa using this
    · simp only [hc, if_false] at hj
      simp at hj

theorem attempts_all (w : World) (t : Nat) (l : List (Kind × Nat))
    (h : ∀ e ∈ attempts w t l, e.code = 0) : (attempts w t l).length = l.length := by
  induction l generalizing t with
  | nil => simp [attempts]
  | cons x rest ih =>
    obtain ⟨k, i⟩ := x
    simp only [attempts] at h ⊢
    have hc : w.err t (.release k i) = 0 := h ⟨_, _⟩ (List.mem_cons_self _ _)
    simp only [hc, if_true] at h ⊢
    simp only [List.length_cons]
    rw [ih (t + 1) (fun e he => h e (List.mem_cons_of_mem _ he))]

theorem attempts_release (w : World) (t : Nat) (l : List (Kind × Nat)) :
    ∀ e ∈ attempts w t l, e.call.is_release = true := by
  induction l generalizing t with
  | nil => exact fun e he => absurd he (List.not_mem_nil _)
  | cons x rest ih =>
    obtain ⟨k, i⟩ := x
    intro e he
    simp only [attempts, List.mem_cons] at he
    rcases he with h1 | h1
    · subst h1
      rfl
    · split at h1
      · exact ih (t + 1) e h1
      · exact absurd h1 (List.not_mem_nil _)

/-- The trace of a call with a path: what was recorded up to `__CleanUp`,
followed by the releases of the teardown pass. -/
theorem solve_trace (w : World) (path : String) (p : diffevo_params_t) (pr : Proc) :
    (diffevo_solve w (some path) p pr).trace =
      (at_cleanup w p pr).st.trace ++
        attempts w (at_cleanup w p pr).st.tick (pending (at_cleanup w p pr).st.g) := by
  have h := release_seq_trace w release_order (at_cleanup w p pr).st
  rw [← destroy_cl_eq] at h
  unfold diffevo_solve Result.trace
  simp only
  unfold at_cleanup at h ⊢
  unfold pending
  rw [← h]
  cases destroy_cl w (seq (solve_steps w p) (St.start pr)).st with
  | ok s => rfl
  | err s => rfl

theorem p_cand_succ (i : Nat) : p_cand (i + 1) = 2 - p_cand i := by
  unfold p_cand
  rcases Nat.mod_two_eq_zero_or_one i with h0 | h1
  · have h2 : ¬ (i + 1) % 2 = 0 := by omega
    rw [if_pos h0, if_neg h2]
  · have h2 : (i + 1) % 2 = 0 := by omega
    have h3 : ¬ i % 2 = 0 := by omega
    rw [if_pos h2, if_neg h3]

theorem p_cand_cases (i : Nat) : p_cand i = 0 ∨ p_cand i = 2 := by
  unfold p_cand
  split
  · exact Or.inl rfl
  · exact Or.inr rfl

theorem timeline_snoc (t : List Ev) (e : Ev) :
    timeline (t ++ [e]) = timeline t ++ (match e.op with
      | some o => [o]
      | none => []) := by
  unfold timeline
  rw [List.filterMap_append]
  cases h : e.op with
  | none => simp [List.filterMap, h]
  | some o => simp [List.filterMap, h]

theorem op_quiet (c : Call) (code : Int) (h : c.quiet) : (Ev.mk c code).op = none := by
  cases c <;> first | rfl | exact h.elim

theorem timeline_quiet (t : List Ev) (c : Call) (code : Int) (h : c.quiet) :
    timeline (t ++ [⟨c, code⟩]) = timeline t := by
  rw [timeline_snoc, op_quiet c code h]
  simp

theorem tl_call (w : World) (c : St → Call) (onOk : St → St) (onErr : Int → St → St)
    (X : List Op) (hc : ∀ s, (c s).quiet) (hok : ∀ s, (onOk s).trace = s.trace) :
    Triple (TL X) (call w c onOk onErr) (TL X) (fun _ => True) := by
  apply Triple.of_call
  · intro s h
    unfold TL
    rw [hok]
    exact (timeline_quiet s.trace _ _ (hc s)).trans h
  · exact fun _ _ _ _ => trivial

theorem tl_set_arg (w : World) (k : Kernel) (idx : Nat) (a : St → Arg) (msg : String)
    (X : List Op) : Triple (TL X) (set_arg w k idx a msg) (TL X) (fun _ => True) :=
  tl_call _ _ _ _ _ (fun _ => trivial) (fun _ => rfl)

theorem tl_create_buffer (w : World) (r : BufRef) (bytes : Nat) (X : List Op) :
    Triple (TL X) (create_buffer w r bytes) (TL X) (fun _ => True) :=
  tl_call _ _ _ _ _ (fun _ => trivial) (fun _ => rfl)

theorem tl_create_kernel (w : World) (k : Kernel) (msg : String) (X : List Op) :
    Triple (TL X) (create_kernel w k msg) (TL X) (fun _ => True) :=
  tl_call _ _ _ _ _ (fun _ => trivial) (fun _ => rfl)

theorem tl_guard (bad : Bool) (msg : String) (X : List Op) :
    Triple (TL X) (guard_not bad msg) (TL X) (fun _ => True) :=
  Triple.of_guard _ _ (fun _ h => h) (fun _ _ => trivial)

theorem tl_enqueue (w : World) (l : Launch) (gws : St → Nat) (lws : St → Option Nat)
    (waits : St → List Event) (store : St → St) (msg : String) (X : List Op)
    (hst : ∀ s, (store s).trace = s.trace) :
    Triple (TL X) (enqueue w l gws lws waits store msg) (TL (X ++ [.launch l]))
      (fun _ => True) := by
  apply Triple.of_call
  · intro s h
    unfold TL at h ⊢
    rw [hst]
    show timeline (s.trace ++ [_]) = _
    rw [timeline_snoc, h]
    rfl
  · exact fun _ _ _ _ => trivial

theorem tl_init_cl (w : World) (X : List Op) :
    Triple (TL X) (init_cl w) (TL X) (fun _ => True) := by
  apply Triple.seq_inv
  simp only [List.forall_mem_cons]
  refine ⟨?_, ?_, ?_, ?_, ?_, ?_, ?_, ?_⟩
  any_goals exact tl_guard _ _ _
  any_goals exact tl_call _ _ _ _ _ (fun _ => trivial) (fun _ => rfl)
  simp

theorem tl_create_program (w : World) (X : List Op) :
    Triple (TL X) (create_program w) (TL X) (fun _ => True) := by
  apply Triple.seq_inv
  simp only [List.forall_mem_cons]
  refine ⟨?_, ?_, ?_, ?_⟩
  any_goals exact tl_call _ _ _ _ _ (fun _ => trivial) (fun _ => rfl)
  simp

theorem tl_alloc_steps (w : World) (p : diffevo_params_t) (X : List Op) :
    ∀ st ∈ alloc_steps w p, Triple (TL X) st (TL X) (fun _ => True) := by
  unfold alloc_steps
  simp only [List.forall_mem_append, List.forall_mem_cons]
  refine ⟨⟨⟨?_, ?_, ?_, ?_, ?_, ?_, ?_, ?_, ?_, ?_⟩, ?_⟩, ?_, ?_, ?_, ?_, ?_⟩
  any_goals exact tl_create_buffer _ _ _ _
  any_goals exact tl_create_kernel _ _ _ _
  · exact tl_call _ _ _ _ _ (fun _ => trivial) (fun _ => rfl)
  · simp
  · split
    · simp only [List.forall_mem_cons]
      exact ⟨tl_create_buffer _ _ _ _, by simp⟩
    · simp
  · simp

theorem tl_init_steps (w : World) (p : diffevo_params_t) (X : List Op) :
    Triple (TL X) (seq (init_steps w p)) (TL (X ++ [.launch .INIT])) (fun _ => True) := by
  unfold init_steps
  refine Triple.seq_cons (tl_set_arg _ _ _ _ _ X) ?_
  refine Triple.seq_cons (tl_set_arg _ _ _ _ _ X) ?_
  refine Triple.seq_cons (tl_set_arg _ _ _ _ _ X) ?_
  refine Triple.seq_cons (tl_set_arg _ _ _ _ _ X) ?_
  refine Triple.seq_cons (tl_set_arg _ _ _ _ _ X) ?_
  refine Triple.seq_cons (tl_set_arg _ _ _ _ _ X) ?_
  refine Triple.seq_cons (tl_set_arg _ _ _ _ _ X) ?_
  exact Triple.seq_cons (tl_enqueue _ _ _ _ _ _ _ X (fun _ => rfl)) Triple.seq_nil

theorem tl_eval_args (w : World) (p : diffevo_params_t) (k : Nat) (X : List Op) :
    Triple (TL X) (seq (eval_args w p k)) (TL X) (fun _ => True) := by
  apply Triple.seq_inv
  simp only [eval_args, List.forall_mem_cons]
  refine ⟨?_, ?_, ?_, ?_, ?_, ?_, ?_⟩
  any_goals exact tl_set_arg _ _ _ _ _ _
  simp

theorem tl_eval0_steps (w : World) (p : diffevo_params_t) (X : List Op) :
    Triple (TL X) (seq (eval0_steps w p)) (TL (X ++ [.launch .EVAL0])) (fun _ => True) := by
  unfold eval0_steps
  refine Triple.seq_concat (tl_eval_args w p 0 X) ?_
  refine Triple.seq_cons (R := TL X) ?_ ?_
  · apply Triple.of_assign
    intro s h
    unfold eval_work
    split
    · exact h
    · exact h
  refine Triple.seq_cons (tl_enqueue _ _ _ _ _ _ _ X (fun _ => rfl)) ?_
  exact Triple.seq_cons (R := TL (X ++ [.launch .EVAL0]))
    (Triple.of_assign _ (fun _ h => h)) Triple.seq_nil

theorem tl_mutate_steps (w : World) (p : diffevo_params_t) (i : Nat) (X : List Op) :
    Triple (TL X) (seq (mutate_steps w p i)) (TL (X ++ [.launch (.MUTATE i)]))
      (fun _ => True) := by
  unfold mutate_steps
  refine Triple.seq_cons (tl_set_arg _ _ _ _ _ X) ?_
  refine Triple.seq_cons (tl_set_arg _ _ _ _ _ X) ?_
  refine Triple.seq_cons (tl_set_arg _ _ _ _ _ X) ?_
  refine Triple.seq_cons (tl_set_arg _ _ _ _ _ X) ?_
  refine Triple.seq_cons (tl_set_arg _ _ _ _ _ X) ?_
  refine Triple.seq_cons (tl_set_arg _ _ _ _ _ X) ?_
  refine Triple.seq_cons (tl_set_arg _ _ _ _ _ X) ?_
  exact Triple.seq_cons (tl_enqueue _ _ _ _ _ _ _ X (fun _ => rfl)) Triple.seq_nil

theorem tl_eval_trial_steps (w : World) (p : diffevo_params_t) (i : Nat) (X : List Op) :
    Triple (TL X) (seq (eval_trial_steps w p i)) (TL (X ++ [.launch (.EVAL_TRIAL i)]))
      (fun _ => True) := by
  unfold eval_trial_steps
  refine Triple.seq_concat (tl_eval_args w p 1 X) ?_
  exact Triple.seq_cons (tl_enqueue _ _ _ _ _ _ _ X (fun _ => rfl)) Triple.seq_nil

theorem tl_select_steps (w : World) (p : diffevo_params_t) (i : Nat) (X : List Op) :
    Triple (TL X) (seq (select_steps w p i)) (TL (X ++ [.launch (.SELECT i)]))
      (fun _ => True) := by
  unfold select_steps
  refine Triple.seq_cons (tl_set_arg _ _ _ _ _ X) ?_
  refine Triple.seq_cons (tl_set_arg _ _ _ _ _ X) ?_
  refine Triple.seq_cons (tl_set_arg _ _ _ _ _ X) ?_
  refine Triple.seq_cons (tl_set_arg _ _ _ _ _ X) ?_
  refine Triple.seq_cons (tl_set_arg _ _ _ _ _ X) ?_
  refine Triple.seq_cons (tl_set_arg _ _ _ _ _ X) ?_
  refine Triple.seq_cons (tl_set_arg _ _ _ _ _ X) ?_
  refine Triple.seq_cons (tl_set_arg _ _ _ _ _ X) ?_
  exact Triple.seq_cons (tl_enqueue _ _ _ _ _ _ _ X (fun _ => rfl)) Triple.seq_nil

theorem tl_generation (w : World) (p : diffevo_params_t) (i : Nat) (X : List Op) :
    Triple (TL X) (seq (generation w p i)) (TL (X ++ gen_ops i)) (fun _ => True) := by
  unfold generation
  rw [List.append_assoc]
  refine Triple.weaken (Triple.seq_concat (tl_mutate_steps w p i X)
    (Triple.seq_concat (tl_eval_trial_steps w p i _) (tl_select_steps w p i _)))
    (fun _ h => h) (fun s h => ?_) (fun _ h => h)
  unfold TL at h ⊢
  rw [h]
  simp [gen_ops]

theorem tl_generations (w : World) (p : diffevo_params_t) (n : Nat) (X : List Op) :
    Triple (TL X) (seq (generations w p n)) (TL (X ++ loop_ops n)) (fun _ => True) := by
  induction n with
  | zero =>
    refine Triple.weaken Triple.seq_nil (fun _ h => h) (fun s h => ?_) (fun _ h => h)
    unfold TL at h ⊢
    rw [h]
    simp [loop_ops]
  | succ n ih =>
    refine Triple.weaken (Triple.seq_concat ih (tl_generation w p n _))
      (fun _ h => h) (fun s h => ?_) (fun _ h => h)
    unfold TL at h ⊢
    rw [h]
    simp [loop_ops]

theorem tl_extract_steps (w : World) (p : diffevo_params_t) (X : List Op) :
    Triple (TL X) (seq (extract_steps w p))
      (TL (X ++ [.read (.costs (p_fin p.num_iter)), .read (.pop (p_fin p.num_iter))]))
      (fun _ => True) := by
  unfold extract_steps
  refine Triple.seq_cons (R := TL X) (Triple.of_unchecked _ _ (fun s code h => ?_)) ?_
  · exact (timeline_quiet s.trace .clFlush code trivial).trans h
  refine Triple.seq_cons (R := TL X) (Triple.of_unchecked _ _ (fun s code h => ?_)) ?_
  · exact (timeline_quiet s.trace .clFinish code trivial).trans h
  refine Triple.seq_cons (tl_call _ _ _ _ X (fun _ => trivial) (fun _ => rfl)) ?_
  refine Triple.seq_cons (R := TL (X ++ [.read (.costs (p_fin p.num_iter))])) ?_ ?_
  · apply Triple.of_call
    · intro s h
      unfold TL at h ⊢
      show timeline (s.trace ++ [_]) = _
      rw [timeline_snoc, h]
      rfl
    · exact fun _ _ _ _ => trivial
  refine Triple.seq_cons
    (R := TL (X ++ [.read (.costs (p_fin p.num_iter)), .read (.pop (p_fin p.num_iter))])) ?_
    Triple.seq_nil
  apply Triple.of_call
  · intro s h
    unfold TL at h ⊢
    show timeline (s.trace ++ [_]) = _
    rw [timeline_snoc, h]
    simp [Ev.op]
  · exact fun _ _ _ _ => trivial

theorem tl_solve_steps (w : World) (p : diffevo_params_t) :
    Triple (TL []) (seq (solve_steps w p)) (TL (pipeline p)) (fun _ => True) := by
  unfold solve_steps
  have h : Triple (TL []) (seq
      ([sub_call (init_cl w) "Error while creating OpenCL context",
        sub_call (create_program w) "Error while loading program"] ++
        alloc_steps w p ++ init_steps w p ++ eval0_steps w p ++
        generations w p p.num_iter ++ extract_steps w p))
      (TL ((([] ++ [.launch .INIT]) ++ [.launch .EVAL0]) ++ loop_ops p.num_iter ++
        [.read (.costs (p_fin p.num_iter)), .read (.pop (p_fin p.num_iter))]))
      (fun _ => True) := by
    refine Triple.seq_concat ?_ (tl_extract_steps w p _)
    refine Triple.seq_concat ?_ (tl_generations w p p.num_iter _)
    refine Triple.seq_concat ?_ (tl_eval0_steps w p _)
    refine Triple.seq_concat ?_ (tl_init_steps w p _)
    refine Triple.seq_concat (R := TL []) ?_ (Triple.seq_inv (tl_alloc_steps w p _))
    refine Triple.seq_cons (R := TL [])
      (Triple.of_sub_call _ (tl_init_cl w _) (fun _ _ => trivial)) ?_
    refine Triple.seq_cons (R := TL [])
      (Triple.of_sub_call _ (tl_create_program w _) (fun _ _ => trivial)) ?_
    exact Triple.seq_nil
  exact h

theorem timeline_attempts (w : World) (t : Nat) (l : List (Kind × Nat)) :
    timeline (attempts w t l) = [] := by
  unfold timeline
  rw [List.filterMap_eq_nil_iff]
  intro e he
  have h := attempts_release w t l e he
  cases e with
  | mk c code =>
    cases c <;> first | rfl | exact absurd h Bool.false_ne_true

/-- The launches and read-backs of a call that returns 0 are exactly the
pipeline, in order. -/
theorem solve_timeline (w : World) (path : Option String) (p : diffevo_params_t) (pr : Proc)
    (h0 : (diffevo_solve w path p pr).status = 0) :
    timeline (diffevo_solve w path p pr).trace = pipeline p := by
  cases path with
  | none => exact absurd h0 (by rw [(solve_none w p pr).1]; decide)
  | some path =>
    obtain ⟨_, _, _, e4⟩ := solve_some w path p pr
    have hle := e4 h0
    have hsp := at_cleanup_spec w p pr
    have htl := tl_solve_steps w p (St.start pr) rfl
    rw [solve_trace]
    unfold timeline
    rw [List.filterMap_append]
    change timeline _ ++ timeline _ = _
    rw [timeline_attempts, List.append_nil]
    unfold at_cleanup at hsp hle ⊢
    cases hc : seq (solve_steps w p) (St.start pr) with
    | ok s =>
      rw [hc] at htl
      exact htl
    | err s =>
      rw [hc] at hsp hle
      have h1 : s.g.last_error = 0 := hle
      rw [hsp.2.2] at h1
      exact absurd h1 (by decide)

theorem launch_of_timeline (t : List Ev) (l : Launch) (h : Op.launch l ∈ timeline t) :
    ∃ e ∈ t, e.code = 0 ∧ ∃ args g lw ws, e.call = .clEnqueueNDRangeKernel l args g lw ws := by
  unfold timeline at h
  obtain ⟨e, he, hop⟩ := List.mem_filterMap.1 h
  refine ⟨e, he, ?_⟩
  obtain ⟨c, code⟩ := e
  unfold Ev.op at hop
  cases c with
  | clEnqueueNDRangeKernel l1 args g lw ws =>
    simp only at hop
    split at hop
    · rename_i hc
      injection hop with h1
      injection h1 with h2
      subst h2
      exact ⟨hc, args, g, lw, ws, rfl⟩
    · exact absurd hop (by simp)
  | clEnqueueReadBuffer r hd off b =>
    simp only at hop
    split at hop
    · injection hop with h1
      exact Op.noConfusion h1
    · exact absurd hop (by simp)
  | _ => exact absurd hop (by simp)

theorem loop_ops_split (i n : Nat) (h : i < n) :
    ∃ a b, loop_ops n = a ++ gen_ops i ++ b := by
  induction n with
  | zero => exact absurd h (Nat.not_lt_zero i)
  | succ n ih =>
    by_cases hi : i < n
    · obtain ⟨a, b, hab⟩ := ih hi
      refine ⟨a, b ++ gen_ops n, ?_⟩
      show loop_ops n ++ gen_ops n = _
      rw [hab]
      simp
    · have : i = n := by omega
      subst this
      exact ⟨loop_ops i, [], by simp [loop_ops]⟩

theorem gen_ops_infix_pipeline (p : diffevo_params_t) (i : Nat) (h : i < p.num_iter) :
    gen_ops i <:+: pipeline p := by
  obtain ⟨a, b, hab⟩ := loop_ops_split i p.num_iter h
  refine ⟨[.launch .INIT, .launch .EVAL0] ++ a,
    b ++ [.read (.costs (p_fin p.num_iter)), .read (.pop (p_fin p.num_iter))], ?_⟩
  unfold pipeline
  rw [hab]
  simp

theorem mem_of_infix {α : Type} {a l : List α} {x : α} (h : a <:+: l) (hx : x ∈ a) : x ∈ l := by
  obtain ⟨s, t, rfl⟩ := h
  simp [hx]

/-- A call that reaches `__CleanUp` through an error exit returns -1. -/
theorem solve_failed_status (w : World) (path : String) (p : diffevo_params_t) (pr : Proc)
    (s : St) (h : at_cleanup w p pr = .err s) :
    (diffevo_solve w (some path) p pr).status = -1 := by
  have hsp := at_cleanup_spec w p pr
  rw [h] at hsp
  have hk := kept_destroy_cl w s.best_out s.cost_out s.best_i (-1) s ⟨rfl, rfl, rfl, hsp.2.2⟩
  unfold diffevo_solve
  simp only
  unfold at_cleanup at h
  rw [h]
  show (match destroy_cl w s with
    | .err s1 => (⟨-1, report_error "Error while destroying OpenCL context" s1⟩ : Result)
    | .ok s1 => ⟨s1.g.last_error, s1⟩).status = -1
  cases hd : destroy_cl w s with
  | ok s1 =>
    rw [hd] at hk
    exact hk.2.2.2
  | err s1 => rfl

theorem setBuf_last_error (g : Globals) (r : BufRef) (h : Handle) :
    (g.setBuf r h).last_error = g.last_error := by
  unfold Globals.setBuf
  split <;> rfl

theorem setKern_last_error (g : Globals) (k : Kernel) (h : Handle) :
    (g.setKern k h).last_error = g.last_error := by
  cases k <;> rfl

theorem stuck_call (w : World) (c : St → Call) (onOk : St → St) (onErr : Int → St → St)
    (hok : ∀ s, (onOk s).g.last_error = s.g.last_error)
    (herr : ∀ code s, (onErr code s).g.last_error = -1) :
    Triple Stuck (call w c onOk onErr) Stuck Stuck := by
  apply Triple.of_call
  · intro s h
    exact (hok _).trans h
  · intro s code _ _
    exact herr code _

theorem stuck_set_arg (w : World) (k : Kernel) (idx : Nat) (a : St → Arg) (msg : String) :
    Triple Stuck (set_arg w k idx a msg) Stuck Stuck :=
  stuck_call _ _ _ _ (fun _ => rfl) (fun _ _ => rfl)

theorem stuck_enqueue (w : World) (l : Launch) (gws : St → Nat) (lws : St → Option Nat)
    (waits : St → List Event) (store : St → St) (msg : String)
    (hs : ∀ s, (store s).g.last_error = s.g.last_error) :
    Triple Stuck (enqueue w l gws lws waits store msg) Stuck Stuck :=
  stuck_call _ _ _ _ hs (fun _ _ => rfl)

theorem stuck_create_buffer (w : World) (r : BufRef) (bytes : Nat) :
    Triple Stuck (create_buffer w r bytes) Stuck Stuck :=
  stuck_call _ _ _ _ (fun s => setBuf_last_error s.g r _) (fun _ _ => rfl)

theorem stuck_create_kernel (w : World) (k : Kernel) (msg : String) :
    Triple Stuck (create_kernel w k msg) Stuck Stuck :=
  stuck_call _ _ _ _ (fun s => setKern_last_error s.g k _) (fun _ _ => rfl)

theorem stuck_guard (bad : Bool) (msg : String) : Triple Stuck (guard_not bad msg) Stuck Stuck :=
  Triple.of_guard _ _ (fun _ h => h) (fun _ _ => rfl)

theorem stuck_init_cl (w : World) : Triple Stuck (init_cl w) Stuck Stuck := by
  apply Triple.seq_inv
  simp only [List.forall_mem_cons]
  refine ⟨?_, ?_, ?_, ?_, ?_, ?_, ?_, ?_⟩
  any_goals exact stuck_guard _ _
  any_goals exact stuck_call _ _ _ _ (fun _ => rfl) (fun _ _ => rfl)
  simp

theorem stuck_create_program (w : World) : Triple Stuck (create_program w) Stuck Stuck := by
  apply Triple.seq_inv
  simp only [List.forall_mem_cons]
  refine ⟨?_, ?_, ?_, ?_⟩
  · exact stuck_call _ _ _ _ (fun _ => rfl) (fun _ _ => rfl)
  · exact stuck_call _ _ _ _ (fun _ => rfl) (fun _ _ => rfl)
  · exact stuck_call _ _ _ _ (fun _ => rfl) (fun code s => (build_failed_err w code s).2.2)
  · simp

theorem stuck_alloc_steps (w : World) (p : diffevo_params_t) :
    ∀ st ∈ alloc_steps w p, Triple Stuck st Stuck Stuck := by
  unfold alloc_steps
  simp only [List.forall_mem_append, List.forall_mem_cons]
  refine ⟨⟨⟨?_, ?_, ?_, ?_, ?_, ?_, ?_, ?_, ?_, ?_⟩, ?_⟩, ?_, ?_, ?_, ?_, ?_⟩
  any_goals exact stuck_create_buffer _ _ _
  any_goals exact stuck_create_kernel _ _ _
  · exact stuck_call _ _ _ _ (fun _ => rfl) (fun _ _ => rfl)
  · simp
  · split
    · simp only [List.forall_mem_cons]
      exact ⟨stuck_create_buffer _ _ _, by simp⟩
    · simp
  · simp

theorem stuck_init_steps (w : World) (p : diffevo_params_t) :
    ∀ st ∈ init_steps w p, Triple Stuck st Stuck Stuck := by
  simp only [init_steps, List.forall_mem_cons]
  refine ⟨?_, ?_, ?_, ?_, ?_, ?_, ?_, ?_, ?_⟩
  any_goals exact stuck_set_arg _ _ _ _ _
  · exact stuck_enqueue _ _ _ _ _ _ _ (fun _ => rfl)
  · simp

theorem stuck_eval_args (w : World) (p : diffevo_params_t) (k : Nat) :
    ∀ st ∈ eval_args w p k, Triple Stuck st Stuck Stuck := by
  simp only [eval_args, List.forall_mem_cons]
  refine ⟨?_, ?_, ?_, ?_, ?_, ?_, ?_⟩
  any_goals exact stuck_set_arg _ _ _ _ _
  simp

theorem stuck_eval0_steps (w : World) (p : diffevo_params_t) :
    ∀ st ∈ eval0_steps w p, Triple Stuck st Stuck Stuck := by
  unfold eval0_steps
  simp only [List.forall_mem_append, List.forall_mem_cons]
  refine ⟨stuck_eval_args w p 0, ?_, ?_, ?_, ?_⟩
  · apply Triple.of_assign
    intro s h
    unfold eval_work
    split
    · exact h
    · exact h
  · exact stuck_enqueue _ _ _ _ _ _ _ (fun _ => rfl)
  · exact Triple.of_assign _ (fun _ h => h)
  · simp

theorem stuck_generation (w : World) (p : diffevo_params_t) (i : Nat) :
    ∀ st ∈ generation w p i, Triple Stuck st Stuck Stuck := by
  unfold generation mutate_steps eval_trial_steps select_steps
  simp only [List.forall_mem_append, List.forall_mem_cons]
  refine ⟨⟨⟨?_, ?_, ?_, ?_, ?_, ?_, ?_, ?_, ?_⟩, stuck_eval_args w p 1, ?_, ?_⟩,
    ?_, ?_, ?_, ?_, ?_, ?_, ?_, ?_, ?_, ?_⟩
  any_goals exact stuck_set_arg _ _ _ _ _
  any_goals exact stuck_enqueue _ _ _ _ _ _ _ (fun _ => rfl)
  all_goals simp

theorem stuck_generations (w : World) (p : diffevo_params_t) (n : Nat) :
    Triple Stuck (seq (generations w p n)) Stuck Stuck := by
  induction n with
  | zero => exact Triple.seq_nil
  | succ n ih => exact Triple.seq_concat ih (Triple.seq_inv (stuck_generation w p n))

theorem stuck_extract_steps (w : World) (p : diffevo_params_t) :
    ∀ st ∈ extract_steps w p, Triple Stuck st Stuck Stuck := by
  unfold extract_steps
  simp only [List.forall_mem_cons]
  refine ⟨?_, ?_, ?_, ?_, ?_, ?_⟩
  · exact Triple.of_unchecked _ _ (fun _ _ h => h)
  · exact Triple.of_unchecked _ _ (fun _ _ h => h)
  · exact stuck_call _ _ _ _ (fun _ => rfl) (fun _ _ => rfl)
  · exact stuck_call _ _ _ _ (fun _ => rfl) (fun _ _ => rfl)
  · exact stuck_call _ _ _ _ (fun _ => rfl) (fun _ _ => rfl)
  · simp

theorem stuck_solve_steps (w : World) (p : diffevo_params_t) :
    Triple Stuck (seq (solve_steps w p)) Stuck Stuck := by
  unfold solve_steps
  refine Triple.seq_concat (R := Stuck) ?_ (Triple.seq_inv (stuck_extract_steps w p))
  refine Triple.seq_concat (R := Stuck) ?_ (stuck_generations w p p.num_iter)
  refine Triple.seq_concat (R := Stuck) ?_ (Triple.seq_inv (stuck_eval0_steps w p))
  refine Triple.seq_concat (R := Stuck) ?_ (Triple.seq_inv (stuck_init_steps w p))
  refine Triple.seq_concat (R := Stuck) ?_ (Triple.seq_inv (stuck_alloc_steps w p))
  refine Triple.seq_cons (R := Stuck)
    (Triple.of_sub_call _ (stuck_init_cl w) (fun _ _ => rfl)) ?_
  refine Triple.seq_cons (R := Stuck)
    (Triple.of_sub_call _ (stuck_create_program w) (fun _ _ => rfl)) ?_
  exact Triple.seq_nil

/-- Once `last_error` is -1, every later call returns -1, whatever happens in
it. -/
theorem solve_sticky (w : World) (path : Option String) (p : diffevo_params_t) (pr : Proc)
    (h : pr.g.last_error = -1) : (diffevo_solve w path p pr).status = -1 := by
  cases path with
  | none => rfl
  | some path =>
    have h1 : (seq (solve_steps w p) (St.start pr)).st.g.last_error = -1 := by
      have hs := stuck_solve_steps w p (St.start pr) h
      revert hs
      cases seq (solve_steps w p) (St.start pr) with
      | ok s => exact fun hs => hs
      | err s => exact fun hs => hs
    have hk := kept_destroy_cl w _ _ _ (-1) (seq (solve_steps w p) (St.start pr)).st
      ⟨rfl, rfl, rfl, h1⟩
    unfold diffevo_solve
    simp only
    cases hd : destroy_cl w (seq (solve_steps w p) (St.start pr)).st with
    | ok s1 =>
      rw [hd] at hk
      exact hk.2.2.2
    | err s1 => rfl

/-- A call that returns 0 has stored member 0 of the terminal population slot
through `best`, whichever member the scan selected. -/
theorem solve_best_member_zero (w : World) (path : Option String) (p : diffevo_params_t)
    (pr : Proc) (h0 : (diffevo_solve w path p pr).status = 0) :
    (diffevo_solve w path p pr).best = some (member w p (p_fin p.num_iter) 0) := by
  rw [(solve_success w path p pr h0).1]
  unfold member
  simp

theorem logs_nil (s : St) : s.logs [] = s := by
  cases s
  simp [St.logs]

theorem logs_cons (s : St) (c : Call) (code : Int) (a : List Ev) :
    (s.log c code).logs a = s.logs (⟨c, code⟩ :: a) := by
  cases s
  simp only [St.logs, St.log, List.length_cons, List.append_assoc, List.singleton_append,
    Nat.add_assoc, Nat.add_comm 1]

theorem release_order_msg : ∀ x ∈ release_order, x.2.2 = x.1.release_msg := by
  simp [release_order, Kind.release_msg]

/-- A teardown pass in which no attempted release fails returns 0 and changes
nothing but the trace. -/
theorem release_seq_ok (w : World) (l : List (Kind × (Globals → Handle) × String)) (s : St)
    (h : ∀ e ∈ attempts w s.tick (pending_of s.g l), e.code = 0) :
    seq (l.map (fun x => release_if w x.1 x.2.1 x.2.2)) s =
      .ok (s.logs (attempts w s.tick (pending_of s.g l))) := by
  induction l generalizing s with
  | nil => simp [seq, pending_of, attempts, logs_nil]
  | cons x rest ih =>
    simp only [List.map_cons, seq]
    cases hg : x.2.1 s.g with
    | none =>
      rw [release_if_none w _ _ _ s hg]
      have hp : pending_of s.g (x :: rest) = pending_of s.g rest := by simp [pending_of, hg]
      rw [hp] at h ⊢
      exact ih s h
    | some i =>
      have hp : pending_of s.g (x :: rest) = (x.1, i) :: pending_of s.g rest := by
        simp [pending_of, hg]
      rw [hp] at h ⊢
      have hc : w.err s.tick (.release x.1 i) = 0 :=
        h ⟨_, _⟩ (by simp only [attempts]; exact List.mem_cons_self _ _)
      simp only [attempts, hc, if_true] at h ⊢
      rw [release_if_ok w _ _ _ s i hg hc]
      simp only
      have h1 := ih (s.log (.release x.1 i) 0) (fun e he => h e (List.mem_cons_of_mem _ he))
      rw [show (s.log (.release x.1 i) 0).tick = s.tick + 1 from rfl,
        show (s.log (.release x.1 i) 0).g = s.g from rfl] at h1
      rw [h1, logs_cons]

/-- A teardown pass in which an attempted release fails: the failed release is
the last one attempted, its message and status are reported, and the pass
leaves through `return -1`. -/
theorem release_seq_err (w : World) (l : List (Kind × (Globals → Handle) × String)) (s : St)
    (hm : ∀ x ∈ l, x.2.2 = x.1.release_msg)
    (h : ∃ e ∈ attempts w s.tick (pending_of s.g l), e.code ≠ 0) :
    ∃ k i code, code ≠ 0 ∧
      (attempts w s.tick (pending_of s.g l)).getLast? = some ⟨.release k i, code⟩ ∧
      seq (l.map (fun x => release_if w x.1 x.2.1 x.2.2)) s =
        .err (report_error_code k.release_msg code
          (s.logs (attempts w s.tick (pending_of s.g l)))) := by
  induction l generalizing s with
  | nil =>
    obtain ⟨e, he, _⟩ := h
    simp [pending_of, attempts] at he
  | cons x rest ih =>
    have hm1 : ∀ y ∈ rest, y.2.2 = y.1.release_msg :=
      fun y hy => hm y (List.mem_cons_of_mem _ hy)
    simp only [List.map_cons, seq]
    cases hg : x.2.1 s.g with
    | none =>
      rw [release_if_none w _ _ _ s hg]
      have hp : pending_of s.g (x :: rest) = pending_of s.g rest := by simp [pending_of, hg]
      rw [hp] at h ⊢
      exact ih s hm1 h
    | some i =>
      have hp : pending_of s.g (x :: rest) = (x.1, i) :: pending_of s.g rest := by
        simp [pending_of, hg]
      rw [hp] at h ⊢
      by_cases hc : w.err s.tick (.release x.1 i) = 0
      · simp only [attempts, hc, if_true] at h ⊢
        rw [release_if_ok w _ _ _ s i hg hc]
        simp only
        obtain ⟨e, he, hne⟩ := h
        have he1 : e ∈ attempts w (s.tick + 1) (pending_of s.g rest) := by
          rcases List.mem_cons.1 he with h1 | h1
          · rw [h1] at hne
            exact absurd rfl hne
          · exact h1
        obtain ⟨k, j, code, h1, h2, h3⟩ := ih (s.log (.release x.1 i) 0) hm1 ⟨e, he1, hne⟩
        rw [show (s.log (.release x.1 i) 0).tick = s.tick + 1 from rfl,
          show (s.log (.release x.1 i) 0).g = s.g from rfl] at h2 h3
        refine ⟨k, j, code, h1, ?_, ?_⟩
        · cases hA : attempts w (s.tick + 1) (pending_of s.g rest) with
          | nil =>
            rw [hA] at h2
            simp at h2
          | cons a b =>
            rw [hA] at h2
            rw [List.getLast?_cons_cons]
            exact h2
        · rw [h3, logs_cons]
      · simp only [attempts, hc, if_false]
        rw [release_if_err w _ _ _ s i hg hc]
        refine ⟨x.1, i, w.err s.tick (.release x.1 i), hc, rfl, ?_⟩
        rw [hm x (List.mem_cons_self _ _), ← logs_cons, logs_nil]

theorem destroy_cl_ok (w : World) (s : St)
    (h : ∀ e ∈ attempts w s.tick (pending s.g), e.code = 0) :
    destroy_cl w s = .ok (s.logs (attempts w s.tick (pending s.g))) := by
  rw [destroy_cl_eq]
  exact release_seq_ok w release_order s h

theorem destroy_cl_err (w : World) (s : St)
    (h : ∃ e ∈ attempts w s.tick (pending s.g), e.code ≠ 0) :
    ∃ k i code, code ≠ 0 ∧
      (attempts w s.tick (pending s.g)).getLast? = some ⟨.release k i, code⟩ ∧
      destroy_cl w s = .err (report_error_code k.release_msg code
        (s.logs (attempts w s.tick (pending s.g)))) := by
  rw [destroy_cl_eq]
  exact release_seq_err w release_order s release_order_msg h

/-- A call in which a release of the teardown fails returns -1, whatever came
before, with what was stored through `best` and `cost` before the teardown
left in place. -/
theorem solve_teardown_failed (w : World) (path : String) (p : diffevo_params_t) (pr : Proc)
    (h : ∃ e ∈ attempts w (at_cleanup w p pr).st.tick (pending (at_cleanup w p pr).st.g),
      e.code ≠ 0) :
    (diffevo_solve w (some path) p pr).status = -1 ∧
    (diffevo_solve w (some path) p pr).best = (at_cleanup w p pr).st.best_out ∧
    (diffevo_solve w (some path) p pr).cost = (at_cleanup w p pr).st.cost_out := by
  obtain ⟨e1, e2, _, _⟩ := solve_some w path p pr
  refine ⟨?_, e1, e2⟩
  obtain ⟨k, i, code, _, _, h3⟩ := destroy_cl_err w _ h
  unfold diffevo_solve
  simp only
  unfold at_cleanup at h3
  rw [h3]

/-! ## The claims -/

/-- C1 (code defect, evaluated at the failing input).  First call of a process,
every call succeeds, `num_iter = 0`, two members of one attribute, terminal
cost slot `[5, 3]`, terminal population slot `[10, 20]`: the call returns 0,
the scan selects member 1 and `cost` receives its cost 3, but `best` receives
`[10]`, the attributes of member 0 (the read at line 534 starts at offset 0),
not `[20]`, the attributes of member 1.  More generally, every call that
returns 0 has stored member 0 of the terminal population slot through
`best`. -/
theorem C1_best_read_ignores_best_i :
    ((first_call w_ok 0).status = 0 ∧
    (first_call w_ok 0).final.best_i = some 1 ∧
    (first_call w_ok 0).cost = some (w_ok.costsData (p_fin 0) 1) ∧
    (first_call w_ok 0).cost = some (.val 3) ∧
    (first_call w_ok 0).best = some (member w_ok (params 0) (p_fin 0) 0) ∧
    (first_call w_ok 0).best = some [.val 10] ∧
    member w_ok (params 0) (p_fin 0) 1 = [.val 20] ∧
    (first_call w_ok 0).best ≠ some (member w_ok (params 0) (p_fin 0) 1) ∧
    w_ok.costsData (p_fin 0) 0 = .val 5) ∧
    (∀ (w : World) (path : Option String) (p : diffevo_params_t) (pr : Proc),
      (diffevo_solve w path p pr).status = 0 →
      (diffevo_solve w path p pr).best = some (member w p (p_fin p.num_iter) 0)) :=
  ⟨by decide, solve_best_member_zero⟩

/-- C2 (counterexample to the claim as stated).  With terminal cost slot
`[NaN, 1]` the call returns 0 and writes NaN to `cost`: the value written is
neither `<=` element 1 nor the lowest cost present. -/
theorem C2_counterexample_nan :
    (first_call w_nan 0).status = 0 ∧
    1 ≤ (params 0).num_pop ∧
    (first_call w_nan 0).cost = some .nan ∧
    w_nan.costsData (p_fin 0) 1 = .val 1 ∧
    ¬ (∀ c, (first_call w_nan 0).cost = some c →
        ∀ j, j < (params 0).num_pop → c.le (w_nan.costsData (p_fin 0) j) = true) := by
  refine ⟨by decide, by decide, by decide, by decide, fun h => ?_⟩
  exact absurd (h .nan (by decide) 1 (by decide)) (by decide)

/-- C2 (amended).  For every `diffevo_solve` call that returns 0 with
`num_pop >= 1`: `cost` receives element `best_i` of the `num_pop` values read
back from the terminal cost slot, with `best_i < num_pop`, and `best_i = 0`
when `num_pop = 1`; if none of these values is a NaN, the value written is
`<=` every one of them and strictly below every element before `best_i`, so
it is the minimum and `best_i` is the lowest index holding it. -/
theorem C2_cost_is_minimum (w : World) (path : Option String) (p : diffevo_params_t)
    (pr : Proc) (h0 : (diffevo_solve w path p pr).status = 0) (hp : 1 ≤ p.num_pop) :
    ∃ i, (diffevo_solve w path p pr).final.best_i = some i ∧ i < p.num_pop ∧
      (diffevo_solve w path p pr).cost = some (w.costsData (p_fin p.num_iter) i) ∧
      (p.num_pop = 1 → i = 0) ∧
      ((∀ j, j < p.num_pop → (w.costsData (p_fin p.num_iter) j).isNaN = false) →
        (∀ j, j < p.num_pop → (w.costsData (p_fin p.num_iter) i).le
          (w.costsData (p_fin p.num_iter) j) = true) ∧
        (∀ j, j < i → (w.costsData (p_fin p.num_iter) i).lt
          (w.costsData (p_fin p.num_iter) j) = true)) := by
  obtain ⟨_, e2, e3⟩ := solve_success w path p pr h0
  obtain ⟨hi, hc⟩ := scan_upto_index (w.costsData (p_fin p.num_iter)) (p.num_pop - 1)
  rw [scan_min_eq] at e2 e3
  refine ⟨_, e3, by omega, ?_, fun h1 => by omega, fun hn => ?_⟩
  · rw [e2, hc]
  · obtain ⟨m1, m2⟩ := scan_upto_min (w.costsData (p_fin p.num_iter)) (p.num_pop - 1)
      (fun j hj => hn j (by omega))
    rw [hc] at m1 m2
    exact ⟨fun j hj => m1 j (by omega), m2⟩

/-- C2 (witness): the amended statement at the successful call with terminal
cost slot `[5, 3]`. -/
theorem C2_cost_is_minimum_witness :
    (first_call w_ok 0).status = 0 ∧ 1 ≤ (params 0).num_pop ∧
    (∀ j, j < (params 0).num_pop → (w_ok.costsData (p_fin 0) j).isNaN = false) ∧
    ∃ i, (first_call w_ok 0).final.best_i = some i ∧ i < (params 0).num_pop ∧
      (first_call w_ok 0).cost = some (w_ok.costsData (p_fin (params 0).num_iter) i) ∧
      ((params 0).num_pop = 1 → i = 0) ∧
      ((∀ j, j < (params 0).num_pop →
          (w_ok.costsData (p_fin (params 0).num_iter) j).isNaN = false) →
        (∀ j, j < (params 0).num_pop → (w_ok.costsData (p_fin (params 0).num_iter) i).le
          (w_ok.costsData (p_fin (params 0).num_iter) j) = true) ∧
        (∀ j, j < i → (w_ok.costsData (p_fin (params 0).num_iter) i).lt
          (w_ok.costsData (p_fin (params 0).num_iter) j) = true)) :=
  ⟨by decide, by decide, by decide,
    C2_cost_is_minimum w_ok (some "eval.cl") (params 0) Proc.fresh (by decide) (by decide)⟩

/-- C3 (code defect, evaluated at the failing input).  Two calls in one process:
the first with a NULL path (returns -1 and sets `last_error`), the second with
a path and an environment in which every call succeeds.  In the second call
no recorded call fails, `best` and `cost` are written, and still -1 is
returned, because `last_error` is never reset; the same call as first call of
a process returns 0.  More generally, every call entered with
`last_error = -1` returns -1. -/
theorem C3_last_error_is_sticky :
    ((solve_seq [(w_ok, none, params 0), (w_ok, some "eval.cl", params 0)] Proc.fresh).map
      (fun r => (r.status, r.trace.all (fun e => e.code == 0), r.cost)) =
      [(-1, true, none), (-1, true, some (.val 3))] ∧
    (first_call w_ok 0).status = 0) ∧
    (∀ (w : World) (path : Option String) (p : diffevo_params_t) (pr : Proc),
      pr.g.last_error = -1 → (diffevo_solve w path p pr).status = -1) :=
  ⟨by decide, solve_sticky⟩

/-- C4 (counterexample to the claim as stated).  Every call up to `__CleanUp`
succeeds and `clReleaseContext` fails in the teardown: the call returns -1
although `best` and `cost` have been written. -/
theorem C4_counterexample_teardown :
    (first_call w_context_release_fails 0).status = -1 ∧
    (first_call w_context_release_fails 0).best = some [.val 10] ∧
    (first_call w_context_release_fails 0).cost = some (.val 3) := by
  decide

/-- C4 (amended).  If the path is NULL, or `diffevo_solve` reaches `__CleanUp`
through an error exit, or any recorded call other than a teardown release and
other than `clFlush`/`clFinish` has failed, then the call returns -1 and
neither `best` nor `cost` has been written by that call.  If instead every
step before `__CleanUp` succeeded, both read-backs included, and a release
then fails in the teardown, the call returns -1 with `best` and `cost`
written: `best` holds the first `num_attr` elements of the terminal
population slot and `cost` the result of the scan. -/
theorem C4_no_result_on_failure_before_teardown (w : World) (path : Option String)
    (p : diffevo_params_t) (pr : Proc) :
    ((path = none ∨ (∃ s, at_cleanup w p pr = .err s) ∨
      ∃ e ∈ (diffevo_solve w path p pr).trace,
        e.code ≠ 0 ∧ e.call.is_release = false ∧ e.call.is_ignored = false) →
      (diffevo_solve w path p pr).status = -1 ∧
      (diffevo_solve w path p pr).best = none ∧ (diffevo_solve w path p pr).cost = none) ∧
    (∀ s, path ≠ none → at_cleanup w p pr = .ok s →
      (∃ e ∈ (diffevo_solve w path p pr).trace, e.code ≠ 0 ∧ e.call.is_release = true) →
      (diffevo_solve w path p pr).status = -1 ∧
      (diffevo_solve w path p pr).best =
        some ((List.range p.num_attr).map (w.popData (p_fin p.num_iter))) ∧
      (diffevo_solve w path p pr).cost =
        some (scan_min (w.costsData (p_fin p.num_iter)) p.num_pop).1) := by
  cases path with
  | none => exact ⟨fun _ => ⟨rfl, rfl, rfl⟩, fun _ h _ _ => absurd rfl h⟩
  | some path =>
    refine ⟨fun h => ?_, fun s _ hs h => ?_⟩
    · have herr : ∃ s, at_cleanup w p pr = .err s := by
        rcases h with h | h | ⟨e, he, hc, hr, hi⟩
        · exact absurd h (by simp)
        · exact h
        · rw [solve_trace] at he
          rcases List.mem_append.1 he with h1 | h1
          · have hsp := at_cleanup_spec w p pr
            cases hcl : at_cleanup w p pr with
            | ok s =>
              rw [hcl] at hsp h1
              rcases hsp.2.2.2 e h1 hc with h2 | h2
              · rw [h2] at hi
                exact absurd hi (by decide)
              · rw [h2] at hi
                exact absurd hi (by decide)
            | err s => exact ⟨s, rfl⟩
          · rw [attempts_release w _ _ e h1] at hr
            exact absurd hr (by decide)
      obtain ⟨s, hs⟩ := herr
      exact ⟨solve_failed_status w path p pr s hs, solve_failed w path p pr s hs⟩
    · have hsp := at_cleanup_spec w p pr
      rw [hs] at hsp
      obtain ⟨e, he, hc, hr⟩ := h
      rw [solve_trace] at he
      have hat : e ∈ attempts w (at_cleanup w p pr).st.tick (pending (at_cleanup w p pr).st.g) := by
        rcases List.mem_append.1 he with h1 | h1
        · rw [hs] at h1
          rcases hsp.2.2.2 e h1 hc with h2 | h2
          · rw [h2] at hr
            exact absurd hr (by decide)
          · rw [h2] at hr
            exact absurd hr (by decide)
        · exact h1
      obtain ⟨e1, e2, e3⟩ := solve_teardown_failed w path p pr ⟨e, hat, hc⟩
      rw [hs] at e2 e3
      exact ⟨e1, e2.trans hsp.1, e3.trans hsp.2.1⟩

/-- C4 (witness): `clGetPlatformIDs` fails in `init_cl`; -1 is returned and
nothing is written.  When instead only `clReleaseContext` fails, in the
teardown, -1 is returned with `best` and `cost` written. -/
theorem C4_no_result_on_failure_before_teardown_witness :
    ((⟨.clGetPlatformIDs 0, -1001⟩ ∈ (first_call w_no_platform 0).trace) ∧
      (first_call w_no_platform 0).status = -1 ∧
      (first_call w_no_platform 0).best = none ∧ (first_call w_no_platform 0).cost = none) ∧
    ((⟨.release .context 0, -34⟩ ∈ (first_call w_context_release_fails 0).trace) ∧
      (first_call w_context_release_fails 0).status = -1 ∧
      (first_call w_context_release_fails 0).best =
        some ((List.range (params 0).num_attr).map
          (w_context_release_fails.popData (p_fin (params 0).num_iter))) ∧
      (first_call w_context_release_fails 0).cost =
        some (scan_min (w_context_release_fails.costsData (p_fin (params 0).num_iter))
          (params 0).num_pop).1) :=
  ⟨⟨by decide,
      (C4_no_result_on_failure_before_teardown w_no_platform (some "eval.cl") (params 0)
        Proc.fresh).1
        (Or.inr (Or.inr ⟨⟨.clGetPlatformIDs 0, -1001⟩, by decide, by decide, rfl, rfl⟩))⟩,
    ⟨by decide,
      (C4_no_result_on_failure_before_teardown w_context_release_fails (some "eval.cl")
        (params 0) Proc.fresh).2 (at_cleanup w_context_release_fails (params 0) Proc.fresh).st
        (by simp) rfl ⟨⟨.release .context 0, -34⟩, by decide, by decide, rfl⟩⟩⟩

/-- C5 (counterexample to the claim as stated).  All handles have been created
and the first release, `clReleaseMemObject(buffers.rng)`, fails: it is the
only release attempted, although sixteen handles are non-NULL.  The failure is
reported, by `destroy_cl` and then by `diffevo_solve`, and the call returns
-1. -/
theorem C5_counterexample_first_release_fails :
    ((first_call w_mem_release_fails 0).trace.filter (fun e => e.call.is_release)).map Ev.call
      = [.release .mem 3] ∧
    pending (first_call w_mem_release_fails 0).final.g =
      [(.mem, 3), (.mem, 4), (.mem, 5), (.mem, 6), (.mem, 7), (.mem, 8), (.mem, 9), (.mem, 10),
       (.kernel, 11), (.kernel, 12), (.kernel, 13), (.kernel, 14), (.program, 2), (.queue, 1),
       (.device, 0), (.context, 0)] ∧
    (first_call w_mem_release_fails 0).status = -1 ∧
    (first_call w_mem_release_fails 0).final.stderr =
      [⟨"clReleaseMemObject() failed", some (-38)⟩,
       ⟨"Error while destroying OpenCL context", none⟩] := by
  decide

/-- C5 (amended).  `destroy_cl` appends to the trace exactly `attempts`: the
releases of the non-NULL handles in source order (RNG, seed, population and
cost slots 0, 1, 2, constant data, four kernels, program, queue, device,
context), up to and including the first release that fails.  So the releases
attempted are an initial part of that list, every attempted release but the
last succeeded, and if no attempted release fails a release has been
attempted on every non-NULL handle.  A release that fails is the last one
attempted and ends the pass through `return -1`: the message of its release
function and its status code are printed on stderr as one line,
`last_error` is set to -1, and nothing else changes but the record of the
calls.  If no attempted release fails the pass returns 0, prints nothing and
leaves `last_error` as it was. -/
theorem C5_teardown_stops_at_first_failure (w : World) (s : St) :
    (destroy_cl w s).st.trace = s.trace ++ attempts w s.tick (pending s.g) ∧
    (attempts w s.tick (pending s.g)).map Ev.call <+:
      (pending s.g).map (fun x => Call.release x.1 x.2) ∧
    (∀ j, j + 1 < (attempts w s.tick (pending s.g)).length →
      ((attempts w s.tick (pending s.g)).map Ev.code).getD j 1 = 0) ∧
    ((∀ e ∈ attempts w s.tick (pending s.g), e.code = 0) →
      (attempts w s.tick (pending s.g)).map Ev.call =
        (pending s.g).map (fun x => Call.release x.1 x.2)) ∧
    ((∃ e ∈ attempts w s.tick (pending s.g), e.code ≠ 0) →
      ∃ k i code, code ≠ 0 ∧
        (attempts w s.tick (pending s.g)).getLast? = some ⟨.release k i, code⟩ ∧
        destroy_cl w s = .err (report_error_code k.release_msg code
          (s.logs (attempts w s.tick (pending s.g)))) ∧
        (destroy_cl w s).st.stderr = s.stderr ++ [⟨k.release_msg, some code⟩] ∧
        (destroy_cl w s).st.g.last_error = -1) ∧
    ((∀ e ∈ attempts w s.tick (pending s.g), e.code = 0) →
      destroy_cl w s = .ok (s.logs (attempts w s.tick (pending s.g))) ∧
      (destroy_cl w s).st.stderr = s.stderr ∧ (destroy_cl w s).st.g = s.g) := by
  refine ⟨?_, attempts_initial w _ _, attempts_stop w _ _, fun h => ?_, fun h => ?_,
    fun h => ?_⟩
  · rw [destroy_cl_eq]
    exact release_seq_trace w release_order s
  · have hl := attempts_all w _ _ h
    have hp := attempts_initial w s.tick (pending s.g)
    exact List.IsPrefix.eq_of_length hp (by simp [hl])
  · obtain ⟨k, i, code, h1, h2, h3⟩ := destroy_cl_err w s h
    refine ⟨k, i, code, h1, h2, h3, ?_, ?_⟩
    · rw [h3]
      rfl
    · rw [h3]
      rfl
  · have h1 := destroy_cl_ok w s h
    refine ⟨h1, ?_, ?_⟩
    · rw [h1]
      rfl
    · rw [h1]
      rfl

/-- C5 (witness): the teardown of a call in which every `clReleaseMemObject`
fails; the first release is the only one attempted, it is reported and the
pass leaves through `return -1`. -/
theorem C5_teardown_stops_at_first_failure_witness :
    (∃ e ∈ attempts w_mem_release_fails
        (at_cleanup w_mem_release_fails (params 0) Proc.fresh).st.tick
        (pending (at_cleanup w_mem_release_fails (params 0) Proc.fresh).st.g), e.code ≠ 0) ∧
    (∃ k i code, code ≠ 0 ∧
      (attempts w_mem_release_fails
        (at_cleanup w_mem_release_fails (params 0) Proc.fresh).st.tick
        (pending (at_cleanup w_mem_release_fails (params 0) Proc.fresh).st.g)).getLast? =
        some ⟨.release k i, code⟩ ∧
      destroy_cl w_mem_release_fails (at_cleanup w_mem_release_fails (params 0) Proc.fresh).st =
        .err (report_error_code k.release_msg code
          ((at_cleanup w_mem_release_fails (params 0) Proc.fresh).st.logs
            (attempts w_mem_release_fails
              (at_cleanup w_mem_release_fails (params 0) Proc.fresh).st.tick
              (pending (at_cleanup w_mem_release_fails (params 0) Proc.fresh).st.g)))) ∧
      (destroy_cl w_mem_release_fails
          (at_cleanup w_mem_release_fails (params 0) Proc.fresh).st).st.stderr =
        (at_cleanup w_mem_release_fails (params 0) Proc.fresh).st.stderr ++
          [⟨k.release_msg, some code⟩] ∧
      (destroy_cl w_mem_release_fails
          (at_cleanup w_mem_release_fails (params 0) Proc.fresh).st).st.g.last_error = -1) ∧
    (attempts w_mem_release_fails
        (at_cleanup w_mem_release_fails (params 0) Proc.fresh).st.tick
        (pending (at_cleanup w_mem_release_fails (params 0) Proc.fresh).st.g)) =
      [⟨.release .mem 3, -38⟩] :=
  ⟨by decide,
    (C5_teardown_stops_at_first_failure w_mem_release_fails
      (at_cleanup w_mem_release_fails (params 0) Proc.fresh).st).2.2.2.2.1 (by decide),
    by decide⟩

/-- C7.  In every `diffevo_solve` call, whatever fails, for every launch of
generation `i`: MUTATE i has population slot `c_i = p_cand i` bound as base
population (0 for even `i`, 2 for odd `i`) and writes the RNG state and
population slot 1 only; EVAL_TRIAL i reads population slot 1 and writes cost
slot 1 only; SELECT i has population and costs of slot `c_i` bound as
candidates, slot 1 as trial, and writes population and costs of slot
`2 - c_i`, which is 0 or 2, differs from `c_i` and from 1, and is `c_(i+1)`.
In a call that returns 0, these three launches are made, one after the
other, for every `i < num_iter`. -/
theorem C7_slot_rotation (w : World) (path : Option String) (p : diffevo_params_t)
    (pr : Proc) (i : Nat) :
    (p_cand i = if i % 2 = 0 then 0 else 2) ∧
    (∀ e ∈ (diffevo_solve w path p pr).trace,
      (∀ args g lw ws, e.call = .clEnqueueNDRangeKernel (.MUTATE i) args g lw ws →
        slots args =
          [some .rng, some (.pop (p_cand i)), some (.pop 1), none, none, none, none] ∧
        written (.MUTATE i) args = [.rng, .pop 1]) ∧
      (∀ args g lw ws, e.call = .clEnqueueNDRangeKernel (.EVAL_TRIAL i) args g lw ws →
        slots args = [some (.pop 1), some (.costs 1), none, none, some .eval_data, none] ∧
        written (.EVAL_TRIAL i) args = [.costs 1]) ∧
      (∀ args g lw ws, e.call = .clEnqueueNDRangeKernel (.SELECT i) args g lw ws →
        slots args = [some (.pop (p_cand i)), some (.costs (p_cand i)), some (.pop 1),
          some (.costs 1), some (.pop (2 - p_cand i)), some (.costs (2 - p_cand i)),
          none, none] ∧
        written (.SELECT i) args = [.pop (2 - p_cand i), .costs (2 - p_cand i)])) ∧
    ((2 - p_cand i = 0 ∨ 2 - p_cand i = 2) ∧ 2 - p_cand i ≠ p_cand i ∧ 2 - p_cand i ≠ 1 ∧
      2 - p_cand i = p_cand (i + 1)) ∧
    ((diffevo_solve w path p pr).status = 0 → i < p.num_iter →
      [Op.launch (.MUTATE i), .launch (.EVAL_TRIAL i), .launch (.SELECT i)] <:+:
        timeline (diffevo_solve w path p pr).trace) := by
  refine ⟨rfl, fun e he => ?_, ?_, fun h0 hi => ?_⟩
  · have hs := solve_sched w path p pr e he
    refine ⟨?_, ?_, ?_⟩
    · intro args g lw ws hc
      rw [hc] at hs
      refine ⟨hs.2.1, ?_⟩
      unfold written
      rw [hs.2.1]
      rfl
    · intro args g lw ws hc
      rw [hc] at hs
      refine ⟨hs.2.1, ?_⟩
      unfold written
      rw [hs.2.1]
      rfl
    · intro args g lw ws hc
      rw [hc] at hs
      refine ⟨hs.2.1, ?_⟩
      unfold written
      rw [hs.2.1]
      rfl
  · rw [p_cand_succ]
    rcases p_cand_cases i with h | h
    · rw [h]
      decide
    · rw [h]
      decide
  · rw [solve_timeline w path p pr h0]
    exact gen_ops_infix_pipeline p i hi

/-- C7 (witness): SELECT 1 of a successful call with two generations reads
slots 2 and 1 and writes slot 0, and generation 1 is launched. -/
theorem C7_slot_rotation_witness :
    select1_entry ∈ (first_call w_ok 2).trace ∧
    written (.SELECT 1) select1_args = [.pop (2 - p_cand 1), .costs (2 - p_cand 1)] ∧
    2 - p_cand 1 = 0 ∧
    (first_call w_ok 2).status = 0 ∧ 1 < (params 2).num_iter ∧
    [Op.launch (.MUTATE 1), .launch (.EVAL_TRIAL 1), .launch (.SELECT 1)] <:+:
      timeline (first_call w_ok 2).trace :=
  ⟨by decide,
    (((C7_slot_rotation w_ok (some "eval.cl") (params 2) Proc.fresh 1).2.1 select1_entry
      (by decide)).2.2 select1_args 2 none [some .EVAL0, some (.EVAL_TRIAL 1)] rfl).2,
    by decide, by decide, by decide,
    (C7_slot_rotation w_ok (some "eval.cl") (params 2) Proc.fresh 1).2.2.2 (by decide)
      (by decide)⟩

/-- C8 (code defect, evaluated at the failing input).  Two calls in one process:
the first succeeds throughout; in the second `clGetPlatformIDs` fails, so the
call creates nothing.  The teardown of the second call nevertheless releases
sixteen handles: exactly the handles created, and already released, by the
first call, which are still stored in the file-scope variables. -/
theorem C8_stale_handles_released_again :
    (solve_seq [(w_ok, some "eval.cl", params 0), (w_no_platform, some "eval.cl", params 0)]
        Proc.fresh).map
      (fun r => (r.status, (r.trace.filter (fun e => e.call.is_create)).length,
        (r.trace.filter (fun e => e.call.is_release)).map Ev.call)) =
      [(0, 15,
        [.release .mem 3, .release .mem 4, .release .mem 5, .release .mem 6, .release .mem 7,
         .release .mem 8, .release .mem 9, .release .mem 10, .release .kernel 11,
         .release .kernel 12, .release .kernel 13, .release .kernel 14, .release .program 2,
         .release .queue 1, .release .device 0, .release .context 0]),
       (-1, 0,
        [.release .mem 3, .release .mem 4, .release .mem 5, .release .mem 6, .release .mem 7,
         .release .mem 8, .release .mem 9, .release .mem 10, .release .kernel 11,
         .release .kernel 12, .release .kernel 13, .release .kernel 14, .release .program 2,
         .release .queue 1, .release .device 0, .release .context 0])] := by
  decide

/-- C9 (counterexample to the claim as stated).  In a successful call with one
generation, MUTATE 0 is enqueued once, with the wait list `[INIT]`, not
`[EVAL0]`. -/
theorem C9_counterexample_mutate0 :
    (first_call w_ok 1).status = 0 ∧
    waits_of (first_call w_ok 1).trace (.MUTATE 0) = [[some .INIT]] ∧
    waits_of (first_call w_ok 1).trace (.MUTATE 0) ≠ [[some .EVAL0]] := by
  decide

/-- C9 (amended).  In every `diffevo_solve` call, whatever fails, the wait list
of each MUTATE i launch is exactly one event: the completion event of INIT
when `i = 0`, and the completion event of SELECT (i - 1) when `i >= 1`.  In
a call that returns 0, MUTATE i is launched, with that wait list, for every
`i < num_iter`. -/
theorem C9_mutate_wait_list (w : World) (path : Option String) (p : diffevo_params_t)
    (pr : Proc) (i : Nat) :
    (∀ e ∈ (diffevo_solve w path p pr).trace, ∀ args g lw ws,
      e.call = .clEnqueueNDRangeKernel (.MUTATE i) args g lw ws →
      ws = [some (if i = 0 then .INIT else .SELECT (i - 1))]) ∧
    ((diffevo_solve w path p pr).status = 0 → i < p.num_iter →
      ∃ e ∈ (diffevo_solve w path p pr).trace, e.code = 0 ∧ ∃ args g lw,
        e.call = .clEnqueueNDRangeKernel (.MUTATE i) args g lw
          [some (if i = 0 then .INIT else .SELECT (i - 1))]) := by
  have safe : ∀ e ∈ (diffevo_solve w path p pr).trace, ∀ args g lw ws,
      e.call = .clEnqueueNDRangeKernel (.MUTATE i) args g lw ws →
      ws = [some (if i = 0 then .INIT else .SELECT (i - 1))] := by
    intro e he args g lw ws hc
    have hs := solve_sched w path p pr e he
    rw [hc] at hs
    exact hs.2.2
  refine ⟨safe, fun h0 hi => ?_⟩
  have hm : Op.launch (.MUTATE i) ∈ timeline (diffevo_solve w path p pr).trace := by
    rw [solve_timeline w path p pr h0]
    exact mem_of_infix (gen_ops_infix_pipeline p i hi) (by simp [gen_ops])
  obtain ⟨e, he, hc0, args, g, lw, ws, hc⟩ := launch_of_timeline _ _ hm
  have hws := safe e he args g lw ws hc
  rw [hws] at hc
  exact ⟨e, he, hc0, args, g, lw, hc⟩

/-- C9 (witness): MUTATE 1 of a successful call with two generations waits on
SELECT 0. -/
theorem C9_mutate_wait_list_witness :
    mutate1_entry ∈ (first_call w_ok 2).trace ∧
    [some (Launch.SELECT 0)] =
      [some (if 1 = 0 then Launch.INIT else Launch.SELECT (1 - 1))] ∧
    (first_call w_ok 2).status = 0 ∧ 1 < (params 2).num_iter ∧
    (∃ e ∈ (first_call w_ok 2).trace, e.code = 0 ∧ ∃ args g lw,
        e.call = .clEnqueueNDRangeKernel (.MUTATE 1) args g lw
          [some (if 1 = 0 then .INIT else .SELECT (1 - 1))]) :=
  ⟨by decide,
    (C9_mutate_wait_list w_ok (some "eval.cl") (params 2) Proc.fresh 1).1 mutate1_entry
      (by decide) mutate1_args 2 none [some (.SELECT 0)] rfl,
    by decide, by decide,
    (C9_mutate_wait_list w_ok (some "eval.cl") (params 2) Proc.fresh 1).2 (by decide)
      (by decide)⟩

/-- C10 (counterexample to the claim as stated).  In a successful call with two
generations, the launch that last wrote cost slot `c_1 = 2` before SELECT 1 is
SELECT 0, but SELECT 1 is enqueued with the wait list `[EVAL0, EVAL_TRIAL 1]`,
which does not contain the completion event of SELECT 0. -/
theorem C10_counterexample_select1 :
    (first_call w_ok 2).status = 0 ∧
    last_writer (first_call w_ok 2).trace (.costs (p_cand 1)) (.SELECT 1) = some (.SELECT 0) ∧
    waits_of (first_call w_ok 2).trace (.SELECT 1) = [[some .EVAL0, some (.EVAL_TRIAL 1)]] ∧
    some (Launch.SELECT 0) ∉ [some Launch.EVAL0, some (Launch.EVAL_TRIAL 1)] := by
  decide

/-- C10 (amended).  In every `diffevo_solve` call, whatever fails, each SELECT i
launch waits on exactly two events, the completion event of EVAL0 (for every
`i`) and the completion event of EVAL_TRIAL i, and each EVAL_TRIAL i launch
waits on exactly the completion event of MUTATE i.  In a call that returns
0, SELECT i and EVAL_TRIAL i are launched, with these wait lists, for every
`i < num_iter`. -/
theorem C10_select_wait_list (w : World) (path : Option String) (p : diffevo_params_t)
    (pr : Proc) (i : Nat) :
    (∀ e ∈ (diffevo_solve w path p pr).trace, ∀ args g lw ws,
      (e.call = .clEnqueueNDRangeKernel (.SELECT i) args g lw ws →
        ws = [some .EVAL0, some (.EVAL_TRIAL i)]) ∧
      (e.call = .clEnqueueNDRangeKernel (.EVAL_TRIAL i) args g lw ws →
        ws = [some (.MUTATE i)])) ∧
    ((diffevo_solve w path p pr).status = 0 → i < p.num_iter →
      (∃ e ∈ (diffevo_solve w path p pr).trace, e.code = 0 ∧ ∃ args g lw,
        e.call = .clEnqueueNDRangeKernel (.SELECT i) args g lw
          [some .EVAL0, some (.EVAL_TRIAL i)]) ∧
      (∃ e ∈ (diffevo_solve w path p pr).trace, e.code = 0 ∧ ∃ args g lw,
        e.call = .clEnqueueNDRangeKernel (.EVAL_TRIAL i) args g lw [some (.MUTATE i)])) := by
  have safe : ∀ e ∈ (diffevo_solve w path p pr).trace, ∀ args g lw ws,
      (e.call = .clEnqueueNDRangeKernel (.SELECT i) args g lw ws →
        ws = [some .EVAL0, some (.EVAL_TRIAL i)]) ∧
      (e.call = .clEnqueueNDRangeKernel (.EVAL_TRIAL i) args g lw ws →
        ws = [some (.MUTATE i)]) := by
    intro e he args g lw ws
    have hs := solve_sched w path p pr e he
    refine ⟨fun hc => ?_, fun hc => ?_⟩
    · rw [hc] at hs
      exact hs.2.2
    · rw [hc] at hs
      exact hs.2.2
  refine ⟨safe, fun h0 hi => ⟨?_, ?_⟩⟩
  · have hm : Op.launch (.SELECT i) ∈ timeline (diffevo_solve w path p pr).trace := by
      rw [solve_timeline w path p pr h0]
      exact mem_of_infix (gen_ops_infix_pipeline p i hi) (by simp [gen_ops])
    obtain ⟨e, he, hc0, args, g, lw, ws, hc⟩ := launch_of_timeline _ _ hm
    have hws := (safe e he args g lw ws).1 hc
    rw [hws] at hc
    exact ⟨e, he, hc0, args, g, lw, hc⟩
  · have hm : Op.launch (.EVAL_TRIAL i) ∈ timeline (diffevo_solve w path p pr).trace := by
      rw [solve_timeline w path p pr h0]
      exact mem_of_infix (gen_ops_infix_pipeline p i hi) (by simp [gen_ops])
    obtain ⟨e, he, hc0, args, g, lw, ws, hc⟩ := launch_of_timeline _ _ hm
    have hws := (safe e he args g lw ws).2 hc
    rw [hws] at hc
    exact ⟨e, he, hc0, args, g, lw, hc⟩

/-- C10 (witness): SELECT 1 of a successful call with two generations. -/
theorem C10_select_wait_list_witness :
    select1_entry ∈ (first_call w_ok 2).trace ∧
    [some Launch.EVAL0, some (Launch.EVAL_TRIAL 1)] =
      [some Launch.EVAL0, some (Launch.EVAL_TRIAL 1)] ∧
    (first_call w_ok 2).status = 0 ∧ 1 < (params 2).num_iter ∧
    (∃ e ∈ (first_call w_ok 2).trace, e.code = 0 ∧ ∃ args g lw,
        e.call = .clEnqueueNDRangeKernel (.SELECT 1) args g lw
          [some .EVAL0, some (.EVAL_TRIAL 1)]) :=
  ⟨by decide,
    ((C10_select_wait_list w_ok (some "eval.cl") (params 2) Proc.fresh 1).1 select1_entry
      (by decide) select1_args 2 none [some .EVAL0, some (.EVAL_TRIAL 1)]).1 rfl,
    by decide, by decide,
    ((C10_select_wait_list w_ok (some "eval.cl") (params 2) Proc.fresh 1).2 (by decide)
      (by decide)).1⟩

theorem launched_mono {t : List Ev} {a : Launch} (h : launched t a) (u : List Ev) :
    launched (t ++ u) a := by
  obtain ⟨args, ws, e, he, hc, g, lw, hcall⟩ := h
  exact ⟨args, ws, e, List.mem_append_left _ he, hc, g, lw, hcall⟩

theorem waits_ok_snoc {t : List Ev} (h : WaitsOK t) (e : Ev)
    (he : e.code = 0 → ∀ l args g lw ws, e.call = .clEnqueueNDRangeKernel l args g lw ws →
      ∀ a, some a ∈ ws → launched t a) : WaitsOK (t ++ [e]) := by
  intro e1 he1 hc l args g lw ws hcall a ha
  rcases List.mem_append.1 he1 with h1 | h1
  · exact launched_mono (h e1 h1 hc l args g lw ws hcall a ha) _
  · simp only [List.mem_singleton] at h1
    subst h1
    exact launched_mono (he hc l args g lw ws hcall a ha) _

theorem waits_ok_append {t : List Ev} (h : WaitsOK t) (u : List Ev)
    (hu : ∀ e ∈ u, ∀ l args g lw ws, e.call ≠ .clEnqueueNDRangeKernel l args g lw ws) :
    WaitsOK (t ++ u) := by
  intro e1 he1 hc l args g lw ws hcall a ha
  rcases List.mem_append.1 he1 with h1 | h1
  · exact launched_mono (h e1 h1 hc l args g lw ws hcall a ha) _
  · exact absurd hcall (hu e1 h1 l args g lw ws)

theorem inv3_call (w : World) (c : St → Call) (onOk : St → St) (onErr : Int → St → St)
    (hc : ∀ s, (c s).is_launch = false)
    (hok : ∀ s, (onOk s).trace = s.trace ∧ (onOk s).events = s.events)
    (herr : ∀ code s, WaitsOK s.trace → WaitsOK (onErr code s).trace) :
    Triple Inv3 (call w c onOk onErr) Inv3 (fun s => WaitsOK s.trace) := by
  have hq : ∀ s code, WaitsOK s.trace → WaitsOK (s.trace ++ [⟨c s, code⟩]) := by
    intro s code h
    refine waits_ok_snoc h _ (fun _ l args g lw ws hcall => ?_)
    have := hc s
    rw [show (Ev.mk (c s) code).call = c s from rfl] at hcall
    rw [hcall] at this
    exact absurd this (by simp [Call.is_launch])
  apply Triple.of_call
  · rintro s ⟨h1, h2⟩
    obtain ⟨e1, e2⟩ := hok (s.log (c s) 0)
    refine ⟨fun a ha => ?_, ?_⟩
    · rw [e1]
      rw [e2] at ha
      exact launched_mono (h1 a ha) _
    · rw [e1]
      exact hq s 0 h2
  · rintro s code ⟨_, h2⟩ _
    exact herr code _ (hq s code h2)

theorem inv3_set_arg (w : World) (k : Kernel) (idx : Nat) (a : St → Arg) (msg : String) :
    Triple Inv3 (set_arg w k idx a msg) Inv3 (fun s => WaitsOK s.trace) :=
  inv3_call _ _ _ _ (fun _ => rfl) (fun _ => ⟨rfl, rfl⟩) (fun _ _ h => h)

theorem inv3_create_buffer (w : World) (r : BufRef) (bytes : Nat) :
    Triple Inv3 (create_buffer w r bytes) Inv3 (fun s => WaitsOK s.trace) :=
  inv3_call _ _ _ _ (fun _ => rfl) (fun _ => ⟨rfl, rfl⟩) (fun _ _ h => h)

theorem inv3_create_kernel (w : World) (k : Kernel) (msg : String) :
    Triple Inv3 (create_kernel w k msg) Inv3 (fun s => WaitsOK s.trace) :=
  inv3_call _ _ _ _ (fun _ => rfl) (fun _ => ⟨rfl, rfl⟩) (fun _ _ h => h)

theorem inv3_guard (bad : Bool) (msg : String) :
    Triple Inv3 (guard_not bad msg) Inv3 (fun s => WaitsOK s.trace) :=
  Triple.of_guard _ _ (fun _ h => h) (fun _ h => h.2)

/-- Rule for an enqueue: the wait list is taken from the event variables, and
the event variable assigned afterwards holds the event of this launch. -/
theorem inv3_enqueue (w : World) (l : Launch) (gws : St → Nat) (lws : St → Option Nat)
    (waits : St → List Event) (store : St → St) (msg : String)
    (hw : ∀ s a, some a ∈ waits s → some a ∈ s.events)
    (hst : ∀ s, (store s).trace = s.trace ∧
      ∀ a, some a ∈ (store s).events → some a ∈ s.events ∨ a = l) :
    Triple Inv3 (enqueue w l gws lws waits store msg) Inv3 (fun s => WaitsOK s.trace) := by
  apply Triple.of_call
  · rintro s ⟨h1, h2⟩
    obtain ⟨e1, e2⟩ := hst (s.log (.clEnqueueNDRangeKernel l (s.args l) (gws s) (lws s)
      (waits s)) 0)
    refine ⟨fun a ha => ?_, ?_⟩
    · rw [e1]
      rcases e2 a ha with h3 | h3
      · exact launched_mono (h1 a h3) _
      · subst h3
        exact ⟨_, _, _, List.mem_append_right _ (List.mem_singleton.2 rfl), rfl, _, _, rfl⟩
    · rw [e1]
      refine waits_ok_snoc h2 _ (fun _ l1 args g lw ws hcall a ha => ?_)
      injection hcall with _ _ _ _ hws
      rw [← hws] at ha
      exact h1 a (hw s a ha)
  · rintro s code ⟨_, h2⟩ hcode
    exact waits_ok_snoc h2 _ (fun h0 => absurd h0 hcode)

theorem inv3_init_cl (w : World) :
    Triple Inv3 (init_cl w) Inv3 (fun s => WaitsOK s.trace) := by
  apply Triple.seq_inv
  simp only [List.forall_mem_cons]
  refine ⟨?_, ?_, ?_, ?_, ?_, ?_, ?_, ?_⟩
  any_goals exact inv3_guard _ _
  any_goals exact inv3_call _ _ _ _ (fun _ => rfl) (fun _ => ⟨rfl, rfl⟩) (fun _ _ h => h)
  simp

theorem waits_ok_build_failed (w : World) (code : Int) (s : St) (h : WaitsOK s.trace) :
    WaitsOK (build_failed w code s).trace := by
  unfold build_failed
  split
  · exact h
  · have key : Triple (fun s1 => WaitsOK s1.trace)
        (seq [
          call w (fun _ => .clGetProgramBuildInfo 0) id
            (report_error_code "clGetProgramBuildInfo() failed"),
          call w (fun _ => .malloc w.log_len) id (fun _ => report_error "Out of memory"),
          call w (fun _ => .clGetProgramBuildInfo w.log_len) id
            (report_error_code "clGetProgramBuildInfo() failed"),
          fun s1 => .err (report_error "<build log>" s1) ])
        (fun s1 => WaitsOK s1.trace) (fun s1 => WaitsOK s1.trace) := by
      have hq : ∀ (c : Call), c.is_launch = false → ∀ (onErr : Int → St → St),
          (∀ code s, (onErr code s).trace = s.trace) →
          Triple (fun s1 => WaitsOK s1.trace) (call w (fun _ => c) id onErr)
            (fun s1 => WaitsOK s1.trace) (fun s1 => WaitsOK s1.trace) := by
        intro c hc onErr hE
        have hs : ∀ (s : St) (code : Int), WaitsOK s.trace →
            WaitsOK (s.trace ++ [⟨c, code⟩]) := by
          intro s code h
          refine waits_ok_snoc h _ (fun _ l args g lw ws hcall => ?_)
          rw [show (Ev.mk c code).call = c from rfl] at hcall
          rw [hcall] at hc
          exact absurd hc (by simp [Call.is_launch])
        apply Triple.of_call
        · exact fun s h => hs s 0 h
        · intro s code h _
          rw [hE]
          exact hs s code h
      apply Triple.seq_inv
      simp only [List.forall_mem_cons]
      refine ⟨hq (.clGetProgramBuildInfo 0) rfl _ (fun _ _ => rfl),
        hq (.malloc w.log_len) rfl _ (fun _ _ => rfl),
        hq (.clGetProgramBuildInfo w.log_len) rfl _ (fun _ _ => rfl), fun _ h => h, by simp⟩
    have h1 := key s h
    revert h1
    cases seq _ s with
    | ok s1 => exact fun h => h
    | err s1 => exact fun h => h

theorem inv3_create_program (w : World) :
    Triple Inv3 (create_program w) Inv3 (fun s => WaitsOK s.trace) := by
  apply Triple.seq_inv
  simp only [List.forall_mem_cons]
  refine ⟨?_, ?_, ?_, ?_⟩
  · exact inv3_call _ _ _ _ (fun _ => rfl) (fun _ => ⟨rfl, rfl⟩) (fun _ _ h => h)
  · exact inv3_call _ _ _ _ (fun _ => rfl) (fun _ => ⟨rfl, rfl⟩) (fun _ _ h => h)
  · exact inv3_call _ _ _ _ (fun _ => rfl) (fun _ => ⟨rfl, rfl⟩)
      (waits_ok_build_failed w)
  · simp

theorem inv3_alloc_steps (w : World) (p : diffevo_params_t) :
    ∀ st ∈ alloc_steps w p, Triple Inv3 st Inv3 (fun s => WaitsOK s.trace) := by
  unfold alloc_steps
  simp only [List.forall_mem_append, List.forall_mem_cons]
  refine ⟨⟨⟨?_, ?_, ?_, ?_, ?_, ?_, ?_, ?_, ?_, ?_⟩, ?_⟩, ?_, ?_, ?_, ?_, ?_⟩
  any_goals exact inv3_create_buffer _ _ _
  any_goals exact inv3_create_kernel _ _ _
  · exact inv3_call _ _ _ _ (fun _ => rfl) (fun _ => ⟨rfl, rfl⟩) (fun _ _ h => h)
  · simp
  · split
    · simp only [List.forall_mem_cons]
      exact ⟨inv3_create_buffer _ _ _, by simp⟩
    · simp
  · simp

theorem inv3_init_steps (w : World) (p : diffevo_params_t) :
    ∀ st ∈ init_steps w p, Triple Inv3 st Inv3 (fun s => WaitsOK s.trace) := by
  simp only [init_steps, List.forall_mem_cons]
  refine ⟨?_, ?_, ?_, ?_, ?_, ?_, ?_, ?_, ?_⟩
  any_goals exact inv3_set_arg _ _ _ _ _
  · refine inv3_enqueue _ _ _ _ _ _ _ (fun s a ha => absurd ha (List.not_mem_nil _))
      (fun s => ⟨rfl, fun a ha => ?_⟩)
    simp only [St.events, List.mem_cons, List.mem_singleton, List.not_mem_nil, or_false,
      Option.some.injEq] at ha ⊢
    tauto
  · simp

theorem inv3_eval_args (w : World) (p : diffevo_params_t) (k : Nat) :
    ∀ st ∈ eval_args w p k, Triple Inv3 st Inv3 (fun s => WaitsOK s.trace) := by
  simp only [eval_args, List.forall_mem_cons]
  refine ⟨?_, ?_, ?_, ?_, ?_, ?_, ?_⟩
  any_goals exact inv3_set_arg _ _ _ _ _
  simp

theorem inv3_assign (f : St → St)
    (h : ∀ s, (f s).trace = s.trace ∧ ∀ a, some a ∈ (f s).events → some a ∈ s.events) :
    Triple Inv3 (assign f) Inv3 (fun s => WaitsOK s.trace) := by
  apply Triple.of_assign
  rintro s ⟨h1, h2⟩
  obtain ⟨e1, e2⟩ := h s
  refine ⟨fun a ha => ?_, ?_⟩
  · rw [e1]
    exact h1 a (e2 a ha)
  · rw [e1]
    exact h2

theorem events_mem {s : St} {a : Launch} :
    some a ∈ s.events ↔ s.init_evt = some a ∨ s.eval_evt = some a ∨ s.select_evt = some a ∨
      s.mutate_evt = some a ∨ s.eval_mut_evt = some a := by
  simp only [St.events, List.mem_cons, List.mem_singleton, List.not_mem_nil, or_false]
  constructor
  · rintro (h | h | h | h | h)
    · exact Or.inl h.symm
    · exact Or.inr (Or.inl h.symm)
    · exact Or.inr (Or.inr (Or.inl h.symm))
    · exact Or.inr (Or.inr (Or.inr (Or.inl h.symm)))
    · exact Or.inr (Or.inr (Or.inr (Or.inr h.symm)))
  · rintro (h | h | h | h | h)
    · exact Or.inl h.symm
    · exact Or.inr (Or.inl h.symm)
    · exact Or.inr (Or.inr (Or.inl h.symm))
    · exact Or.inr (Or.inr (Or.inr (Or.inl h.symm)))
    · exact Or.inr (Or.inr (Or.inr (Or.inr h.symm)))

theorem inv3_eval0_steps (w : World) (p : diffevo_params_t) :
    ∀ st ∈ eval0_steps w p, Triple Inv3 st Inv3 (fun s => WaitsOK s.trace) := by
  unfold eval0_steps
  simp only [List.forall_mem_append, List.forall_mem_cons]
  refine ⟨inv3_eval_args w p 0, ?_, ?_, ?_, ?_⟩
  · refine inv3_assign _ (fun s => ?_)
    unfold eval_work
    split
    · exact ⟨rfl, fun a ha => ha⟩
    · exact ⟨rfl, fun a ha => ha⟩
  · refine inv3_enqueue _ _ _ _ _ _ _ (fun s a ha => ?_) (fun s => ⟨rfl, fun a ha => ?_⟩)
    · rw [List.mem_singleton] at ha
      exact events_mem.2 (Or.inl ha.symm)
    · rw [events_mem] at ha ⊢
      rcases ha with h | h | h | h | h
      · exact Or.inl (Or.inl h)
      · exact Or.inr (Option.some.inj h).symm
      · exact Or.inl (Or.inr (Or.inr (Or.inl h)))
      · exact Or.inl (Or.inr (Or.inr (Or.inr (Or.inl h))))
      · exact Or.inl (Or.inr (Or.inr (Or.inr (Or.inr h))))
  · refine inv3_assign _ (fun s => ⟨rfl, fun a ha => ?_⟩)
    rw [events_mem] at ha ⊢
    rcases ha with h | h | h | h | h
    · exact Or.inl h
    · exact Or.inr (Or.inl h)
    · exact absurd h (by simp)
    · exact Or.inr (Or.inr (Or.inr (Or.inl h)))
    · exact Or.inr (Or.inr (Or.inr (Or.inr h)))
  · simp

theorem inv3_mutate_steps (w : World) (p : diffevo_params_t) (i : Nat) :
    ∀ st ∈ mutate_steps w p i, Triple Inv3 st Inv3 (fun s => WaitsOK s.trace) := by
  simp only [mutate_steps, List.forall_mem_cons]
  refine ⟨?_, ?_, ?_, ?_, ?_, ?_, ?_, ?_, ?_⟩
  any_goals exact inv3_set_arg _ _ _ _ _
  · refine inv3_enqueue _ _ _ _ _ _ _ (fun s a ha => ?_) (fun s => ⟨rfl, fun a ha => ?_⟩)
    · rw [List.mem_singleton] at ha
      split at ha
      · exact events_mem.2 (Or.inl ha.symm)
      · exact events_mem.2 (Or.inr (Or.inr (Or.inl ha.symm)))
    · rw [events_mem] at ha ⊢
      rcases ha with h | h | h | h | h
      · exact Or.inl (Or.inl h)
      · exact Or.inl (Or.inr (Or.inl h))
      · exact Or.inl (Or.inr (Or.inr (Or.inl h)))
      · exact Or.inr (Option.some.inj h).symm
      · exact Or.inl (Or.inr (Or.inr (Or.inr (Or.inr h))))
  · simp

theorem inv3_eval_trial_steps (w : World) (p : diffevo_params_t) (i : Nat) :
    ∀ st ∈ eval_trial_steps w p i, Triple Inv3 st Inv3 (fun s => WaitsOK s.trace) := by
  unfold eval_trial_steps
  simp only [List.forall_mem_append, List.forall_mem_cons]
  refine ⟨inv3_eval_args w p 1, ?_, ?_⟩
  · refine inv3_enqueue _ _ _ _ _ _ _ (fun s a ha => ?_) (fun s => ⟨rfl, fun a ha => ?_⟩)
    · rw [List.mem_singleton] at ha
      exact events_mem.2 (Or.inr (Or.inr (Or.inr (Or.inl ha.symm))))
    · rw [events_mem] at ha ⊢
      rcases ha with h | h | h | h | h
      · exact Or.inl (Or.inl h)
      · exact Or.inl (Or.inr (Or.inl h))
      · exact Or.inl (Or.inr (Or.inr (Or.inl h)))
      · exact Or.inl (Or.inr (Or.inr (Or.inr (Or.inl h))))
      · exact Or.inr (Option.some.inj h).symm
  · simp

theorem inv3_select_steps (w : World) (p : diffevo_params_t) (i : Nat) :
    ∀ st ∈ select_steps w p i, Triple Inv3 st Inv3 (fun s => WaitsOK s.trace) := by
  simp only [select_steps, List.forall_mem_cons]
  refine ⟨?_, ?_, ?_, ?_, ?_, ?_, ?_, ?_, ?_, ?_⟩
  any_goals exact inv3_set_arg _ _ _ _ _
  · refine inv3_enqueue _ _ _ _ _ _ _ (fun s a ha => ?_) (fun s => ⟨rfl, fun a ha => ?_⟩)
    · simp only [List.mem_cons, List.mem_singleton, List.not_mem_nil, or_false] at ha
      rcases ha with h | h
      · exact events_mem.2 (Or.inr (Or.inl h.symm))
      · exact events_mem.2 (Or.inr (Or.inr (Or.inr (Or.inr h.symm))))
    · rw [events_mem] at ha ⊢
      rcases ha with h | h | h | h | h
      · exact Or.inl (Or.inl h)
      · exact Or.inl (Or.inr (Or.inl h))
      · exact Or.inr (Option.some.inj h).symm
      · exact Or.inl (Or.inr (Or.inr (Or.inr (Or.inl h))))
      · exact Or.inl (Or.inr (Or.inr (Or.inr (Or.inr h))))
  · simp

theorem inv3_generation (w : World) (p : diffevo_params_t) (i : Nat) :
    ∀ st ∈ generation w p i, Triple Inv3 st Inv3 (fun s => WaitsOK s.trace) := by
  unfold generation
  simp only [List.forall_mem_append]
  exact ⟨⟨inv3_mutate_steps w p i, inv3_eval_trial_steps w p i⟩, inv3_select_steps w p i⟩

theorem inv3_generations (w : World) (p : diffevo_params_t) (n : Nat) :
    Triple Inv3 (seq (generations w p n)) Inv3 (fun s => WaitsOK s.trace) := by
  induction n with
  | zero => exact Triple.seq_nil
  | succ n ih => exact Triple.seq_concat ih (Triple.seq_inv (inv3_generation w p n))

theorem inv3_unchecked (w : World) (c : Call) (hc : c.is_launch = false) :
    Triple Inv3 (call_unchecked w c) Inv3 (fun s => WaitsOK s.trace) := by
  apply Triple.of_unchecked
  rintro s code ⟨h1, h2⟩
  refine ⟨fun a ha => launched_mono (h1 a ha) _, waits_ok_snoc h2 _ ?_⟩
  intro _ l args g lw ws hcall
  rw [show (Ev.mk c code).call = c from rfl] at hcall
  rw [hcall] at hc
  exact absurd hc (by simp [Call.is_launch])

theorem inv3_extract_steps (w : World) (p : diffevo_params_t) :
    ∀ st ∈ extract_steps w p, Triple Inv3 st Inv3 (fun s => WaitsOK s.trace) := by
  unfold extract_steps
  simp only [List.forall_mem_cons]
  refine ⟨?_, ?_, ?_, ?_, ?_, ?_⟩
  · exact inv3_unchecked _ _ rfl
  · exact inv3_unchecked _ _ rfl
  · exact inv3_call _ _ _ _ (fun _ => rfl) (fun _ => ⟨rfl, rfl⟩) (fun _ _ h => h)
  · exact inv3_call _ _ _ _ (fun _ => rfl) (fun _ => ⟨rfl, rfl⟩) (fun _ _ h => h)
  · exact inv3_call _ _ _ _ (fun _ => rfl) (fun _ => ⟨rfl, rfl⟩) (fun _ _ h => h)
  · simp

theorem inv3_solve_steps (w : World) (p : diffevo_params_t) :
    Triple Inv3 (seq (solve_steps w p)) Inv3 (fun s => WaitsOK s.trace) := by
  unfold solve_steps
  refine Triple.seq_concat (R := Inv3) ?_ (Triple.seq_inv (inv3_extract_steps w p))
  refine Triple.seq_concat (R := Inv3) ?_ (inv3_generations w p p.num_iter)
  refine Triple.seq_concat (R := Inv3) ?_ (Triple.seq_inv (inv3_eval0_steps w p))
  refine Triple.seq_concat (R := Inv3) ?_ (Triple.seq_inv (inv3_init_steps w p))
  refine Triple.seq_concat (R := Inv3) ?_ (Triple.seq_inv (inv3_alloc_steps w p))
  refine Triple.seq_cons (R := Inv3)
    (Triple.of_sub_call _ (inv3_init_cl w) (fun _ h => h)) ?_
  refine Triple.seq_cons (R := Inv3)
    (Triple.of_sub_call _ (inv3_create_program w) (fun _ h => h)) ?_
  exact Triple.seq_nil

/-- In every call, whatever fails in it, each event in the wait list of a
successful launch belongs to a launch that was enqueued successfully. -/
theorem solve_waits_ok (w : World) (path : Option String) (p : diffevo_params_t) (pr : Proc) :
    WaitsOK (diffevo_solve w path p pr).trace := by
  cases path with
  | none => exact fun e he => absurd he (List.not_mem_nil _)
  | some path =>
    rw [solve_trace]
    refine waits_ok_append ?_ _ ?_
    · have h0 : Inv3 (St.start pr) :=
        ⟨fun a ha => absurd (events_mem.1 ha) (by simp [St.start]),
          fun e he => absurd he (List.not_mem_nil _)⟩
      have h := inv3_solve_steps w p _ h0
      unfold at_cleanup
      revert h
      cases seq (solve_steps w p) (St.start pr) with
      | ok s => exact fun h => h.2
      | err s => exact fun h => h
    · intro e he l args g lw ws hcall
      have h := attempts_release w _ _ e he
      rw [hcall] at h
      exact absurd h Bool.false_ne_true

theorem pos_inj (a b : Launch) (ha : a ≠ .EVAL0) (hb : b ≠ .EVAL0)
    (h : a.pos = b.pos) : a = b := by
  cases a <;> cases b <;> simp only [Launch.pos] at h <;>
    first
    | rfl
    | exact absurd rfl ha
    | exact absurd rfl hb
    | (exfalso; omega)
    | (congr 1; omega)

theorem sched_of_launched {p : diffevo_params_t} {t : List Ev}
    (hS : ∀ e ∈ t, Sched p e.call) {l : Launch} {args : List (Option Arg)} {ws : List Event}
    (h : launched_with t l args ws) : Sched p (.clEnqueueNDRangeKernel l args 0 none ws) := by
  obtain ⟨e, he, _, g, lw, hcall⟩ := h
  have h1 := hS e he
  rw [hcall] at h1
  exact h1

/-- Every launch on the chain other than INIT waits on the launch one place
before it. -/
theorem chain_pred {p : diffevo_params_t} {t : List Ev} (hS : ∀ e ∈ t, Sched p e.call)
    (hW : WaitsOK t) (b : Launch) (hb : launched t b) (h1 : b ≠ .EVAL0) (h2 : b ≠ .INIT) :
    ∃ c, c ≠ .EVAL0 ∧ c.pos + 1 = b.pos ∧ waits_on t b c := by
  obtain ⟨args, ws, hl⟩ := hb
  have hs := sched_of_launched hS hl
  have hw : ∀ a, some a ∈ ws → waits_on t b a := by
    intro a ha
    obtain ⟨e, he, hcode, g, lw, hcall⟩ := hl
    exact ⟨hW e he hcode b args g lw ws hcall a ha, args, ws, ⟨e, he, hcode, g, lw, hcall⟩, ha⟩
  cases b with
  | INIT => exact absurd rfl h2
  | EVAL0 => exact absurd rfl h1
  | MUTATE i =>
    simp only [Sched] at hs
    obtain ⟨_, _, h3⟩ := hs
    refine ⟨if i = 0 then .INIT else .SELECT (i - 1), ?_, ?_, hw _ (by rw [h3]; simp)⟩
    · split <;> simp
    · split
      · simp only [Launch.pos]
        omega
      · simp only [Launch.pos]
        omega
  | EVAL_TRIAL i =>
    simp only [Sched] at hs
    obtain ⟨_, _, h3⟩ := hs
    exact ⟨.MUTATE i, by simp, by simp only [Launch.pos], hw _ (by rw [h3]; simp)⟩
  | SELECT i =>
    simp only [Sched] at hs
    obtain ⟨_, _, h3⟩ := hs
    exact ⟨.EVAL_TRIAL i, by simp, by simp only [Launch.pos], hw _ (by rw [h3]; simp)⟩

/-- The chain INIT, MUTATE 0, EVAL_TRIAL 0, SELECT 0, MUTATE 1, ... is ordered by
the wait lists: a launch that was enqueued comes after every launch at an
earlier place. -/
theorem chain_ordered {p : diffevo_params_t} {t : List Ev} (hS : ∀ e ∈ t, Sched p e.call)
    (hW : WaitsOK t) (n : Nat) : ∀ b : Launch, b.pos = n → b ≠ .EVAL0 → launched t b →
    ∀ a : Launch, a ≠ .EVAL0 → a.pos < b.pos → happens_before t a b := by
  induction n with
  | zero =>
    intro b hb _ _ a _ hlt
    omega
  | succ n ih =>
    intro b hb h1 hl a ha hlt
    have h2 : b ≠ .INIT := by
      intro h
      rw [h] at hb
      simp only [Launch.pos] at hb
      omega
    obtain ⟨c, hc1, hc2, hc3⟩ := chain_pred hS hW b hl h1 h2
    by_cases hac : a.pos = c.pos
    · rw [pos_inj a c ha hc1 hac]
      exact Relation.TransGen.single hc3
    · exact Relation.TransGen.tail (ih c (by omega) hc1 hc3.1 a ha (by omega)) hc3

/-- Launch EVAL0 comes after INIT. -/
theorem eval0_after_init {p : diffevo_params_t} {t : List Ev} (hS : ∀ e ∈ t, Sched p e.call)
    (hW : WaitsOK t) (hl : launched t .EVAL0) : happens_before t .INIT .EVAL0 := by
  obtain ⟨args, ws, hl⟩ := hl
  have hs := sched_of_launched hS hl
  simp only [Sched] at hs
  obtain ⟨e, he, hcode, g, lw, hcall⟩ := hl
  have ha : some Launch.INIT ∈ ws := by rw [hs.2]; simp
  exact Relation.TransGen.single
    ⟨hW e he hcode _ args g lw ws hcall _ ha, args, ws, ⟨e, he, hcode, g, lw, hcall⟩, ha⟩

/-- Every SELECT comes after EVAL0. -/
theorem select_after_eval0 {p : diffevo_params_t} {t : List Ev}
    (hS : ∀ e ∈ t, Sched p e.call) (hW : WaitsOK t) (i : Nat) (hl : launched t (.SELECT i)) :
    happens_before t .EVAL0 (.SELECT i) := by
  obtain ⟨args, ws, hl⟩ := hl
  have hs := sched_of_launched hS hl
  simp only [Sched] at hs
  obtain ⟨e, he, hcode, g, lw, hcall⟩ := hl
  have ha : some Launch.EVAL0 ∈ ws := by rw [hs.2.2]; simp
  exact Relation.TransGen.single
    ⟨hW e he hcode _ args g lw ws hcall _ ha, args, ws, ⟨e, he, hcode, g, lw, hcall⟩, ha⟩

/-- Launch EVAL0 shares no buffer that is written with a MUTATE or an
EVAL_TRIAL. -/
theorem eval0_no_conflict {p : diffevo_params_t} (args0 args1 : List (Option Arg))
    (ws0 ws1 : List Event) (b : Launch)
    (h0 : Sched p (.clEnqueueNDRangeKernel .EVAL0 args0 0 none ws0))
    (h1 : Sched p (.clEnqueueNDRangeKernel b args1 0 none ws1))
    (hb : (∃ i, b = .MUTATE i) ∨ ∃ i, b = .EVAL_TRIAL i) :
    conflict .EVAL0 args0 b args1 = false ∧ conflict b args1 .EVAL0 args0 = false := by
  simp only [Sched] at h0
  rcases hb with ⟨i, rfl⟩ | ⟨i, rfl⟩
  · simp only [Sched] at h1
    simp [conflict, written, read_set, Launch.kernel, Kernel.out_args, Kernel.in_args,
      h0.1, h1.2.1]
  · simp only [Sched] at h1
    simp [conflict, written, read_set, Launch.kernel, Kernel.out_args, Kernel.in_args,
      h0.1, h1.2.1]

/-- Race freedom on a trace whose launches are as `Sched` says and whose wait
lists only name launches that were made. -/
theorem race_free {p : diffevo_params_t} {t : List Ev} (hS : ∀ e ∈ t, Sched p e.call)
    (hW : WaitsOK t) (a b : Launch) (argsA argsB : List (Option Arg)) (wsA wsB : List Event)
    (ha : launched_with t a argsA wsA) (hb : launched_with t b argsB wsB) (hab : a ≠ b)
    (hc : conflict a argsA b argsB = true) :
    happens_before t a b ∨ happens_before t b a := by
  have hla : launched t a := ⟨argsA, wsA, ha⟩
  have hlb : launched t b := ⟨argsB, wsB, hb⟩
  by_cases ha0 : a = .EVAL0
  · subst ha0
    cases b with
    | INIT => exact Or.inr (eval0_after_init hS hW hla)
    | EVAL0 => exact absurd rfl hab
    | MUTATE i =>
      have h := (eval0_no_conflict argsA argsB wsA wsB _ (sched_of_launched hS ha)
        (sched_of_launched hS hb) (Or.inl ⟨i, rfl⟩)).1
      rw [h] at hc
      exact absurd hc Bool.false_ne_true
    | EVAL_TRIAL i =>
      have h := (eval0_no_conflict argsA argsB wsA wsB _ (sched_of_launched hS ha)
        (sched_of_launched hS hb) (Or.inr ⟨i, rfl⟩)).1
      rw [h] at hc
      exact absurd hc Bool.false_ne_true
    | SELECT i => exact Or.inl (select_after_eval0 hS hW i hlb)
  · by_cases hb0 : b = .EVAL0
    · subst hb0
      cases a with
      | INIT => exact Or.inl (eval0_after_init hS hW hlb)
      | EVAL0 => exact absurd rfl hab
      | MUTATE i =>
        have h := (eval0_no_conflict argsB argsA wsB wsA _ (sched_of_launched hS hb)
          (sched_of_launched hS ha) (Or.inl ⟨i, rfl⟩)).2
        rw [h] at hc
        exact absurd hc Bool.false_ne_true
      | EVAL_TRIAL i =>
        have h := (eval0_no_conflict argsB argsA wsB wsA _ (sched_of_launched hS hb)
          (sched_of_launched hS ha) (Or.inr ⟨i, rfl⟩)).2
        rw [h] at hc
        exact absurd hc Bool.false_ne_true
      | SELECT i => exact Or.inr (select_after_eval0 hS hW i hla)
    · rcases Nat.lt_trichotomy a.pos b.pos with h | h | h
      · exact Or.inl (chain_ordered hS hW _ b rfl hb0 hlb a ha0 h)
      · exact absurd (pos_inj a b ha0 hb0 h) hab
      · exact Or.inr (chain_ordered hS hW _ a rfl ha0 hla b hb0 h)

/-- A call that returns 0 has made every launch of the pipeline. -/
theorem solve_launched_all (w : World) (path : Option String) (p : diffevo_params_t)
    (pr : Proc) (h0 : (diffevo_solve w path p pr).status = 0) (l : Launch)
    (hl : Op.launch l ∈ pipeline p) : launched (diffevo_solve w path p pr).trace l := by
  rw [← solve_timeline w path p pr h0] at hl
  obtain ⟨e, he, hcode, args, g, lw, ws, hcall⟩ := launch_of_timeline _ l hl
  exact ⟨args, ws, e, he, hcode, g, lw, hcall⟩

theorem sized_snoc {p : diffevo_params_t} {t : List Ev} (h : ∀ e ∈ t, Sized p e.call)
    (c : Call) (code : Int) (hc : Sized p c) : ∀ e ∈ t ++ [⟨c, code⟩], Sized p e.call := by
  intro e he
  rcases List.mem_append.1 he with h1 | h1
  · exact h e h1
  · simp only [List.mem_singleton] at h1
    subst h1
    exact hc

theorem sized_call (p : diffevo_params_t) (w : World) (c : St → Call) (onOk : St → St)
    (onErr : Int → St → St) (hc : ∀ s, Sized p (c s)) (hok : ∀ s, (onOk s).trace = s.trace)
    (herr : ∀ code s, (∀ e ∈ s.trace, Sized p e.call) →
      ∀ e ∈ (onErr code s).trace, Sized p e.call) :
    Triple (fun s => ∀ e ∈ s.trace, Sized p e.call) (call w c onOk onErr)
      (fun s => ∀ e ∈ s.trace, Sized p e.call) (fun s => ∀ e ∈ s.trace, Sized p e.call) := by
  apply Triple.of_call
  · intro s h
    rw [hok]
    exact sized_snoc h _ _ (hc s)
  · intro s code h _
    exact herr code _ (sized_snoc h _ _ (hc s))

theorem sized_set_arg (p : diffevo_params_t) (w : World) (k : Kernel) (idx : Nat)
    (a : St → Arg) (msg : String) :
    Triple (fun s => ∀ e ∈ s.trace, Sized p e.call) (set_arg w k idx a msg)
      (fun s => ∀ e ∈ s.trace, Sized p e.call) (fun s => ∀ e ∈ s.trace, Sized p e.call) :=
  sized_call p _ _ _ _ (fun _ => trivial) (fun _ => rfl) (fun _ _ h => h)

theorem sized_create_buffer (p : diffevo_params_t) (w : World) (r : BufRef) (bytes : Nat)
    (h : bytes = size_arg p r) :
    Triple (fun s => ∀ e ∈ s.trace, Sized p e.call) (create_buffer w r bytes)
      (fun s => ∀ e ∈ s.trace, Sized p e.call) (fun s => ∀ e ∈ s.trace, Sized p e.call) :=
  sized_call p _ _ _ _ (fun _ => h) (fun _ => rfl) (fun _ _ h => h)

theorem sized_create_kernel (p : diffevo_params_t) (w : World) (k : Kernel) (msg : String) :
    Triple (fun s => ∀ e ∈ s.trace, Sized p e.call) (create_kernel w k msg)
      (fun s => ∀ e ∈ s.trace, Sized p e.call) (fun s => ∀ e ∈ s.trace, Sized p e.call) :=
  sized_call p _ _ _ _ (fun _ => trivial) (fun _ => rfl) (fun _ _ h => h)

theorem sized_enqueue (p : diffevo_params_t) (w : World) (l : Launch) (gws : St → Nat)
    (lws : St → Option Nat) (waits : St → List Event) (store : St → St) (msg : String)
    (hst : ∀ s, (store s).trace = s.trace) :
    Triple (fun s => ∀ e ∈ s.trace, Sized p e.call) (enqueue w l gws lws waits store msg)
      (fun s => ∀ e ∈ s.trace, Sized p e.call) (fun s => ∀ e ∈ s.trace, Sized p e.call) := by
  apply Triple.of_call
  · intro s h
    rw [hst]
    exact sized_snoc h _ _ trivial
  · intro s code h _
    exact sized_snoc h _ _ trivial

theorem sized_guard (p : diffevo_params_t) (bad : Bool) (msg : String) :
    Triple (fun s => ∀ e ∈ s.trace, Sized p e.call) (guard_not bad msg)
      (fun s => ∀ e ∈ s.trace, Sized p e.call) (fun s => ∀ e ∈ s.trace, Sized p e.call) :=
  Triple.of_guard _ _ (fun _ h => h) (fun _ h => h)

theorem sized_init_cl (p : diffevo_params_t) (w : World) :
    Triple (fun s => ∀ e ∈ s.trace, Sized p e.call) (init_cl w)
      (fun s => ∀ e ∈ s.trace, Sized p e.call) (fun s => ∀ e ∈ s.trace, Sized p e.call) := by
  apply Triple.seq_inv
  simp only [List.forall_mem_cons]
  refine ⟨?_, ?_, ?_, ?_, ?_, ?_, ?_, ?_⟩
  any_goals exact sized_guard _ _ _
  any_goals exact sized_call p _ _ _ _ (fun _ => trivial) (fun _ => rfl) (fun _ _ h => h)
  simp

theorem sized_build_failed (p : diffevo_params_t) (w : World) (code : Int) (s : St)
    (h : ∀ e ∈ s.trace, Sized p e.call) : ∀ e ∈ (build_failed w code s).trace, Sized p e.call := by
  unfold build_failed
  split
  · exact h
  · have key : Triple (fun s1 => ∀ e ∈ s1.trace, Sized p e.call)
        (seq [
          call w (fun _ => .clGetProgramBuildInfo 0) id
            (report_error_code "clGetProgramBuildInfo() failed"),
          call w (fun _ => .malloc w.log_len) id (fun _ => report_error "Out of memory"),
          call w (fun _ => .clGetProgramBuildInfo w.log_len) id
            (report_error_code "clGetProgramBuildInfo() failed"),
          fun s1 => .err (report_error "<build log>" s1) ])
        (fun s1 => ∀ e ∈ s1.trace, Sized p e.call)
        (fun s1 => ∀ e ∈ s1.trace, Sized p e.call) := by
      apply Triple.seq_inv
      simp only [List.forall_mem_cons]
      refine ⟨?_, ?_, ?_, fun _ h => h, by simp⟩
      · exact sized_call p _ _ _ _ (fun _ => trivial) (fun _ => rfl) (fun _ _ h => h)
      · exact sized_call p _ _ _ _ (fun _ => trivial) (fun _ => rfl) (fun _ _ h => h)
      · exact sized_call p _ _ _ _ (fun _ => trivial) (fun _ => rfl) (fun _ _ h => h)
    have h1 := key s h
    revert h1
    cases seq _ s with
    | ok s1 => exact fun h => h
    | err s1 => exact fun h => h

theorem sized_create_program (p : diffevo_params_t) (w : World) :
    Triple (fun s => ∀ e ∈ s.trace, Sized p e.call) (create_program w)
      (fun s => ∀ e ∈ s.trace, Sized p e.call) (fun s => ∀ e ∈ s.trace, Sized p e.call) := by
  apply Triple.seq_inv
  simp only [List.forall_mem_cons]
  refine ⟨?_, ?_, ?_, ?_⟩
  · exact sized_call p _ _ _ _ (fun _ => trivial) (fun _ => rfl) (fun _ _ h => h)
  · exact sized_call p _ _ _ _ (fun _ => trivial) (fun _ => rfl) (fun _ _ h => h)
  · exact sized_call p _ _ _ _ (fun _ => trivial) (fun _ => rfl) (sized_build_failed p w)
  · simp

theorem sized_alloc_steps (p : diffevo_params_t) (w : World) :
    ∀ st ∈ alloc_steps w p, Triple (fun s => ∀ e ∈ s.trace, Sized p e.call) st
      (fun s => ∀ e ∈ s.trace, Sized p e.call) (fun s => ∀ e ∈ s.trace, Sized p e.call) := by
  unfold alloc_steps
  simp only [List.forall_mem_append, List.forall_mem_cons]
  refine ⟨⟨⟨?_, ?_, ?_, ?_, ?_, ?_, ?_, ?_, ?_, ?_⟩, ?_⟩, ?_, ?_, ?_, ?_, ?_⟩
  any_goals exact sized_create_buffer _ _ _ _ rfl
  any_goals exact sized_create_kernel _ _ _ _
  · exact sized_call p _ _ _ _ (fun _ => trivial) (fun _ => rfl) (fun _ _ h => h)
  · simp
  · split
    · simp only [List.forall_mem_cons]
      exact ⟨sized_create_buffer _ _ _ _ rfl, by simp⟩
    · simp
  · simp

theorem sized_init_steps (p : diffevo_params_t) (w : World) :
    ∀ st ∈ init_steps w p, Triple (fun s => ∀ e ∈ s.trace, Sized p e.call) st
      (fun s => ∀ e ∈ s.trace, Sized p e.call) (fun s => ∀ e ∈ s.trace, Sized p e.call) := by
  simp only [init_steps, List.forall_mem_cons]
  refine ⟨?_, ?_, ?_, ?_, ?_, ?_, ?_, ?_, ?_⟩
  any_goals exact sized_set_arg _ _ _ _ _ _
  · exact sized_enqueue _ _ _ _ _ _ _ _ (fun _ => rfl)
  · simp

theorem sized_eval_args (p : diffevo_params_t) (w : World) (k : Nat) :
    ∀ st ∈ eval_args w p k, Triple (fun s => ∀ e ∈ s.trace, Sized p e.call) st
      (fun s => ∀ e ∈ s.trace, Sized p e.call) (fun s => ∀ e ∈ s.trace, Sized p e.call) := by
  simp only [eval_args, List.forall_mem_cons]
  refine ⟨?_, ?_, ?_, ?_, ?_, ?_, ?_⟩
  any_goals exact sized_set_arg _ _ _ _ _ _
  simp

theorem sized_eval0_steps (p : diffevo_params_t) (w : World) :
    ∀ st ∈ eval0_steps w p, Triple (fun s => ∀ e ∈ s.trace, Sized p e.call) st
      (fun s => ∀ e ∈ s.trace, Sized p e.call) (fun s => ∀ e ∈ s.trace, Sized p e.call) := by
  unfold eval0_steps
  simp only [List.forall_mem_append, List.forall_mem_cons]
  refine ⟨sized_eval_args p w 0, ?_, ?_, ?_, ?_⟩
  · refine Triple.of_assign _ (fun s h => ?_)
    unfold eval_work
    split
    · exact h
    · exact h
  · exact sized_enqueue _ _ _ _ _ _ _ _ (fun _ => rfl)
  · exact Triple.of_assign _ (fun s h => h)
  · simp

theorem sized_generation (p : diffevo_params_t) (w : World) (i : Nat) :
    ∀ st ∈ generation w p i, Triple (fun s => ∀ e ∈ s.trace, Sized p e.call) st
      (fun s => ∀ e ∈ s.trace, Sized p e.call) (fun s => ∀ e ∈ s.trace, Sized p e.call) := by
  unfold generation mutate_steps eval_trial_steps select_steps
  simp only [List.forall_mem_append, List.forall_mem_cons]
  refine ⟨⟨⟨?_, ?_, ?_, ?_, ?_, ?_, ?_, ?_, ?_⟩, sized_eval_args p w 1, ?_, ?_⟩,
    ?_, ?_, ?_, ?_, ?_, ?_, ?_, ?_, ?_, ?_⟩
  any_goals exact sized_set_arg _ _ _ _ _ _
  any_goals exact sized_enqueue _ _ _ _ _ _ _ _ (fun _ => rfl)
  all_goals simp

theorem sized_generations (p : diffevo_params_t) (w : World) (n : Nat) :
    Triple (fun s => ∀ e ∈ s.trace, Sized p e.call) (seq (generations w p n))
      (fun s => ∀ e ∈ s.trace, Sized p e.call) (fun s => ∀ e ∈ s.trace, Sized p e.call) := by
  induction n with
  | zero => exact Triple.seq_nil
  | succ n ih => exact Triple.seq_concat ih (Triple.seq_inv (sized_generation p w n))

theorem sized_extract_steps (p : diffevo_params_t) (w : World) :
    ∀ st ∈ extract_steps w p, Triple (fun s => ∀ e ∈ s.trace, Sized p e.call) st
      (fun s => ∀ e ∈ s.trace, Sized p e.call) (fun s => ∀ e ∈ s.trace, Sized p e.call) := by
  unfold extract_steps
  simp only [List.forall_mem_cons]
  refine ⟨?_, ?_, ?_, ?_, ?_, ?_⟩
  · exact Triple.of_unchecked _ _ (fun _ _ h => sized_snoc h _ _ trivial)
  · exact Triple.of_unchecked _ _ (fun _ _ h => sized_snoc h _ _ trivial)
  · exact sized_call p _ _ _ _ (fun _ => trivial) (fun _ => rfl) (fun _ _ h => h)
  · exact sized_call p _ _ _ _ (fun _ => trivial) (fun _ => rfl) (fun _ _ h => h)
  · exact sized_call p _ _ _ _ (fun _ => trivial) (fun _ => rfl) (fun _ _ h => h)
  · simp

theorem sized_solve_steps (p : diffevo_params_t) (w : World) :
    Triple (fun s => ∀ e ∈ s.trace, Sized p e.call) (seq (solve_steps w p))
      (fun s => ∀ e ∈ s.trace, Sized p e.call) (fun s => ∀ e ∈ s.trace, Sized p e.call) := by
  unfold solve_steps
  refine Triple.seq_concat (R := fun s => ∀ e ∈ s.trace, Sized p e.call) ?_
    (Triple.seq_inv (sized_extract_steps p w))
  refine Triple.seq_concat (R := fun s => ∀ e ∈ s.trace, Sized p e.call) ?_
    (sized_generations p w p.num_iter)
  refine Triple.seq_concat (R := fun s => ∀ e ∈ s.trace, Sized p e.call) ?_
    (Triple.seq_inv (sized_eval0_steps p w))
  refine Triple.seq_concat (R := fun s => ∀ e ∈ s.trace, Sized p e.call) ?_
    (Triple.seq_inv (sized_init_steps p w))
  refine Triple.seq_concat (R := fun s => ∀ e ∈ s.trace, Sized p e.call) ?_
    (Triple.seq_inv (sized_alloc_steps p w))
  refine Triple.seq_cons (R := fun s => ∀ e ∈ s.trace, Sized p e.call)
    (Triple.of_sub_call _ (sized_init_cl p w) (fun _ h => h)) ?_
  refine Triple.seq_cons (R := fun s => ∀ e ∈ s.trace, Sized p e.call)
    (Triple.of_sub_call _ (sized_create_program p w) (fun _ h => h)) ?_
  exact Triple.seq_nil

/-- In every call, whatever fails in it, each `clCreateBuffer` passes the size
`size_arg`. -/
theorem solve_sized (w : World) (path : Option String) (p : diffevo_params_t) (pr : Proc) :
    ∀ e ∈ (diffevo_solve w path p pr).trace, Sized p e.call := by
  cases path with
  | none => exact fun e he => absurd he (List.not_mem_nil _)
  | some path =>
    rw [solve_trace]
    intro e he
    rcases List.mem_append.1 he with h1 | h1
    · have h0 : ∀ e ∈ (St.start pr).trace, Sized p e.call :=
        fun e he => absurd he (List.not_mem_nil _)
      have h := sized_solve_steps p w _ h0
      unfold at_cleanup at h1
      revert h h1
      cases seq (solve_steps w p) (St.start pr) with
      | ok s => exact fun h1 h => h e h1
      | err s => exact fun h1 h => h e h1
    · have h := attempts_release w _ _ e h1
      obtain ⟨c, code⟩ := e
      cases c <;> first | exact absurd h Bool.false_ne_true | trivial

/-- The sizes requested for buffer `r` in a call are all `size_arg p r`. -/
theorem requested_sized (w : World) (path : Option String) (p : diffevo_params_t) (pr : Proc)
    (r : BufRef) : ∀ b ∈ requested (diffevo_solve w path p pr).trace r, b = size_arg p r := by
  intro b hb
  unfold requested at hb
  obtain ⟨e, he, h⟩ := List.mem_filterMap.1 hb
  have hs := solve_sized w path p pr e he
  obtain ⟨c, code⟩ := e
  cases c with
  | clCreateBuffer r1 bytes =>
    simp only at h
    split at h
    · rename_i h1
      injection h with h
      rw [← h, ← h1]
      exact hs
    · exact absurd h (by simp)
  | _ => exact absurd h (by simp)

/-- For accepted parameters the size passed for a cost slot is exact; the size
passed for a population slot is exact exactly if `num_pop * num_attr` fits 32
bits, the one passed for the RNG state exactly if `num_pop * 16` does. -/
theorem size_arg_exact (p : diffevo_params_t) (h : accepted p) (i : Nat) :
    size_arg p (.costs i) = exact_size p (.costs i) ∧
    (size_arg p (.pop i) = exact_size p (.pop i) ↔ p.num_pop * p.num_attr < UINT_RANGE) ∧
    (size_arg p .rng = exact_size p .rng ↔ p.num_pop * 16 < UINT_RANGE) := by
  obtain ⟨h1, h2, h3, h4⟩ := h
  simp only [size_arg, exact_size, UINT_RANGE, SIZE_RANGE] at h2 h4 ⊢
  refine ⟨by omega, ⟨fun h => ?_, fun h => ?_⟩, ⟨fun h => ?_, fun h => ?_⟩⟩
  · by_contra hn
    have : p.num_pop * p.num_attr % 4294967296 < 4294967296 := Nat.mod_lt _ (by omega)
    have h5 : p.num_pop * p.num_attr % 4294967296 ≤ p.num_pop * p.num_attr := Nat.mod_le _ _
    have h6 := Nat.mod_add_div (p.num_pop * p.num_attr) 4294967296
    have h7 : 0 < p.num_pop * p.num_attr / 4294967296 := Nat.div_pos (by omega) (by omega)
    omega
  · rw [Nat.mod_eq_of_lt h]
    have : p.num_pop * p.num_attr * 8 < 18446744073709551616 := by omega
    exact Nat.mod_eq_of_lt this
  · by_contra hn
    have : p.num_pop * 16 % 4294967296 < 4294967296 := Nat.mod_lt _ (by omega)
    omega
  · exact Nat.mod_eq_of_lt h

theorem conflict_of_common_write (a b : Launch) (argsA argsB : List (Option Arg))
    (buf : BufRef) (ha : buf ∈ written a argsA) (hb : buf ∈ written b argsB) :
    conflict a argsA b argsB = true := by
  unfold conflict
  rw [Bool.or_eq_true]
  refine Or.inl (List.any_eq_true.2 ⟨buf, ha, ?_⟩)
  simp [hb]

/-- A call that returns 0 has made the launches INIT and EVAL0 and, for every
`i < num_iter`, MUTATE i, EVAL_TRIAL i and SELECT i. -/
theorem solve_launched_pipeline (w : World) (path : Option String) (p : diffevo_params_t)
    (pr : Proc) (h0 : (diffevo_solve w path p pr).status = 0) :
    launched (diffevo_solve w path p pr).trace .INIT ∧
    launched (diffevo_solve w path p pr).trace .EVAL0 ∧
    ∀ i, i < p.num_iter →
      launched (diffevo_solve w path p pr).trace (.MUTATE i) ∧
      launched (diffevo_solve w path p pr).trace (.EVAL_TRIAL i) ∧
      launched (diffevo_solve w path p pr).trace (.SELECT i) := by
  refine ⟨solve_launched_all w path p pr h0 _ (by simp [pipeline]),
    solve_launched_all w path p pr h0 _ (by simp [pipeline]), fun i hi => ?_⟩
  have hin := gen_ops_infix_pipeline p i hi
  exact ⟨solve_launched_all w path p pr h0 _ ( mem_of_infix hin (by simp [gen_ops])),
    solve_launched_all w path p pr h0 _ ( mem_of_infix hin (by simp [gen_ops])),
    solve_launched_all w path p pr h0 _ ( mem_of_infix hin (by simp [gen_ops]))⟩

/-- C11.  In every call of `diffevo_solve`, whatever fails in it: two distinct
launches that were enqueued and that access a common buffer, at least one of
them writing it, are ordered one way or the other by the transitive closure of
the event wait lists alone; the read set and the write set of a launch are
taken from the arguments bound to its kernel at the enqueue.  In particular
two distinct launches that write a common buffer are so ordered.  A call that
returns 0 has enqueued INIT, EVAL0 and, for every `i < num_iter`, MUTATE i,
EVAL_TRIAL i and SELECT i, so the statement covers the whole pipeline for
every iteration count. -/
theorem C11_race_freedom (w : World) (path : Option String) (p : diffevo_params_t)
    (pr : Proc) :
    (∀ (a b : Launch) (argsA argsB : List (Option Arg)) (wsA wsB : List Event),
      launched_with (diffevo_solve w path p pr).trace a argsA wsA →
      launched_with (diffevo_solve w path p pr).trace b argsB wsB →
      a ≠ b → conflict a argsA b argsB = true →
      happens_before (diffevo_solve w path p pr).trace a b ∨
      happens_before (diffevo_solve w path p pr).trace b a) ∧
    (∀ (a b : Launch) (argsA argsB : List (Option Arg)) (wsA wsB : List Event) (buf : BufRef),
      launched_with (diffevo_solve w path p pr).trace a argsA wsA →
      launched_with (diffevo_solve w path p pr).trace b argsB wsB →
      a ≠ b → buf ∈ written a argsA → buf ∈ written b argsB →
      happens_before (diffevo_solve w path p pr).trace a b ∨
      happens_before (diffevo_solve w path p pr).trace b a) ∧
    ((diffevo_solve w path p pr).status = 0 →
      launched (diffevo_solve w path p pr).trace .INIT ∧
      launched (diffevo_solve w path p pr).trace .EVAL0 ∧
      ∀ i, i < p.num_iter →
        launched (diffevo_solve w path p pr).trace (.MUTATE i) ∧
        launched (diffevo_solve w path p pr).trace (.EVAL_TRIAL i) ∧
        launched (diffevo_solve w path p pr).trace (.SELECT i)) :=
  ⟨fun a b argsA argsB wsA wsB ha hb hab hc =>
      race_free (solve_sched w path p pr) (solve_waits_ok w path p pr) a b argsA argsB wsA wsB
        ha hb hab hc,
    fun a b argsA argsB wsA wsB buf ha hb hab h1 h2 =>
      race_free (solve_sched w path p pr) (solve_waits_ok w path p pr) a b argsA argsB wsA wsB
        ha hb hab (conflict_of_common_write a b argsA argsB buf h1 h2),
    solve_launched_pipeline w path p pr⟩

/-- C11 (witness): in a successful call with two generations MUTATE 1 writes
population slot 1 and SELECT 1 reads it; the two are ordered by the wait
lists. -/
theorem C11_race_freedom_witness :
    launched_with (first_call w_ok 2).trace (.MUTATE 1) mutate1_args [some (.SELECT 0)] ∧
    launched_with (first_call w_ok 2).trace (.SELECT 1) select1_args
      [some .EVAL0, some (.EVAL_TRIAL 1)] ∧
    Launch.MUTATE 1 ≠ Launch.SELECT 1 ∧
    BufRef.pop 1 ∈ written (.MUTATE 1) mutate1_args ∧
    BufRef.pop 1 ∈ read_set (.SELECT 1) select1_args ∧
    conflict (.MUTATE 1) mutate1_args (.SELECT 1) select1_args = true ∧
    (happens_before (first_call w_ok 2).trace (.MUTATE 1) (.SELECT 1) ∨
      happens_before (first_call w_ok 2).trace (.SELECT 1) (.MUTATE 1)) :=
  ⟨⟨mutate1_entry, by decide, rfl, 2, none, rfl⟩,
    ⟨select1_entry, by decide, rfl, 2, none, rfl⟩,
    by decide, by decide, by decide, by decide,
    (C11_race_freedom w_ok (some "eval.cl") (params 2) Proc.fresh).1 (.MUTATE 1) (.SELECT 1)
      mutate1_args select1_args [some (.SELECT 0)] [some .EVAL0, some (.EVAL_TRIAL 1)]
      ⟨mutate1_entry, by decide, rfl, 2, none, rfl⟩
      ⟨select1_entry, by decide, rfl, 2, none, rfl⟩ (by decide) (by decide)⟩

/-- C12 (code defect, evaluated at the failing inputs).  With 65537 members of
65536 attributes, both accepted values, every call succeeds and the call
returns 0, but each of the three population slots is created with 524288
bytes, not with the 34360262656 bytes of `num_pop * num_attr * 8`: the product
of the two `unsigned` operands wraps at 32 bits before it is widened to
`size_t`.  With `2^28 + 1` members the RNG-state buffer is created with 16
bytes, not with the 4294967312 bytes of `num_pop * 16`: `num_pop * 0x10` is
computed in 32 bits.  More generally every call passes the sizes `size_arg`,
and for accepted parameters the size of a cost slot is always exact, the size
of a population slot is exact only if `num_pop * num_attr` is below `2^32`,
and the size of the RNG-state buffer only if `num_pop * 16` is. -/
theorem C12_buffer_sizes_wrap :
    (accepted params_pop_wrap ∧
      (diffevo_solve w_ok (some "eval.cl") params_pop_wrap Proc.fresh).status = 0 ∧
      requested (diffevo_solve w_ok (some "eval.cl") params_pop_wrap Proc.fresh).trace
        (.pop 0) = [524288] ∧
      requested (diffevo_solve w_ok (some "eval.cl") params_pop_wrap Proc.fresh).trace
        (.pop 1) = [524288] ∧
      requested (diffevo_solve w_ok (some "eval.cl") params_pop_wrap Proc.fresh).trace
        (.pop 2) = [524288] ∧
      exact_size params_pop_wrap (.pop 0) = 34360262656 ∧
      exact_size params_pop_wrap (.pop 1) = 34360262656 ∧
      exact_size params_pop_wrap (.pop 2) = 34360262656) ∧
    (accepted params_rng_wrap ∧
      requested (diffevo_solve w_ok (some "eval.cl") params_rng_wrap Proc.fresh).trace
        .rng = [16] ∧
      exact_size params_rng_wrap .rng = 4294967312) ∧
    (∀ (w : World) (path : Option String) (p : diffevo_params_t) (pr : Proc) (r : BufRef),
      ∀ b ∈ requested (diffevo_solve w path p pr).trace r, b = size_arg p r) ∧
    (∀ (p : diffevo_params_t), accepted p → ∀ i : Nat,
      size_arg p (.costs i) = exact_size p (.costs i) ∧
      (size_arg p (.pop i) = exact_size p (.pop i) ↔ p.num_pop * p.num_attr < UINT_RANGE) ∧
      (size_arg p .rng = exact_size p .rng ↔ p.num_pop * 16 < UINT_RANGE)) :=
  ⟨⟨⟨by decide, by decide, by decide, by decide⟩, by decide, by decide, by decide, by decide,
      by decide, by decide, by decide⟩,
    ⟨⟨by decide, by decide, by decide, by decide⟩, by decide, by decide⟩,
    requested_sized, size_arg_exact⟩

end Diffevo
